import Mathlib

/-!
The broker of quic-pub-sub and the publisher client.

A shallow embedding of `server/internal/app` (the publisher and subscriber pools and the
observer that couples them), of `pkg/quichelper` (`ReceiveEvent`, the pinger), of the
broker's transport (connection adapters, listener loops, the tasks of a session) and of the
publisher client (`listenForEvents`, the message sender), with the properties the
specification states about them.

Conventions of the embedding

* In `server/internal/app` only the text of an error and whether it is `nil` matter: a Go
  `error` is an `Option String` there, `none` for `nil`. In the other packages errors are
  told apart by `errors.Is` and `errors.As`, so a non-nil error is a `GoError`, which keeps
  the dynamic type and the wrapping.
* A Go slice is a `Slice`: the `nil` slice and a non-nil slice are kept apart. A `[]byte`
  whose being `nil` plays no part is a `List UInt8`.
* `sync.Map` is an association list in one fixed enumeration order. `Range` visits the
  entries in that order; the order itself carries no meaning, and the theorems below state
  facts about `GetAll` that do not depend on it.
* The `Publisher` and `Subscriber` interfaces are records of what their methods return. A
  stream is given by what its operations return.
* Calls made on peers, streams, channels and the logger are collected, in program order, in
  a list.
* A loop that runs until the outside stops it is a function of the iterations the outside
  offers; its result says whether the method has returned, and what.
* Of the tasks a session runs side by side, the embedding follows those that touch the
  observer, in the order the session puts them; where the code leaves an order open, the
  order is an argument.
* `encoding/json`, `unicode/utf8`, `bytes.Reader` and `errors` are libraries; the parts this
  program uses are modelled next to the code that calls them.
* Where durations decide which case a `select` takes, time is a count of nanoseconds: a
  timer of `time.After(d)` delivers `d` after it is started or later, and the context of
  `context.WithTimeout` is done at its deadline.
-/

namespace QuicPubSub

/-! ## Errors and slices -/

/-- Go `error`: `none` is `nil`, `some msg` a non-nil error with message `msg`. -/
abbrev Error := Option String

/-- Function `errors.Wrap` of `github.com/pkg/errors`: `nil` stays `nil`, a non-nil error gets
the message put in front of its text. -/
def Wrap (err : Error) (message : String) : Error :=
  match err with
  | none => none
  | some e => some (message ++ ": " ++ e)

/-- Go slice value: `nil` is the zero value (`var s []T`), `of xs` a non-nil slice holding `xs`. -/
inductive Slice (α : Type) where
  | nil : Slice α
  | of : List α → Slice α

namespace Slice

variable {α : Type}

/-- Elements of a slice in index order, as `for _, x := range s` visits them. -/
def toList : Slice α → List α
  | nil => []
  | of xs => xs

/-- Builtin `len(s)`. -/
def len (s : Slice α) : Nat := s.toList.length

/-- Comparison `s == nil`. -/
def isNil : Slice α → Bool
  | nil => true
  | of _ => false

/-- Builtin `append(s, x)`: the result is never the `nil` slice. -/
def append : Slice α → α → Slice α
  | nil, x => of [x]
  | of xs, x => of (xs ++ [x])

end Slice

/-! ## Connectors (`connectors.go`) -/

/-- Interface `Publisher`: each field is what the method of that name returns. -/
structure Publisher where
  NotifyExistsSubscriber : Error
  NotifyNoSubscribers : Error
  GetID : String
  deriving DecidableEq

/-- Interface `Subscriber`: each field is what the method of that name returns. -/
structure Subscriber where
  SendMessageToSubscriber : List UInt8 → Error
  GetID : String

/-! ## `sync.Map` -/

/-- Type `sync.Map` with `string` keys: the stored key/value pairs. -/
structure SyncMap (α : Type) where
  entries : List (String × α)

namespace SyncMap

variable {α σ : Type}

/-- Method `Load`: the value stored under `key`, if any. -/
def Load (m : SyncMap α) (key : String) : Option α :=
  List.lookup key m.entries

/-- Method `LoadOrStore`: the existing value and `true` if `key` is present, otherwise stores
`value` and returns it with `false`. -/
def LoadOrStore (m : SyncMap α) (key : String) (value : α) : SyncMap α × α × Bool :=
  match m.Load key with
  | some actual => (m, actual, true)
  | none => (⟨m.entries ++ [(key, value)]⟩, value, false)

/-- Method `Delete`: drops the entry stored under `key`. -/
def Delete (m : SyncMap α) (key : String) : SyncMap α :=
  ⟨m.entries.filter (fun e => e.1 != key)⟩

/-- Loop of `Range` over the entries: `f` gets key, value and the variables its closure
captures, and returns their new values with the flag that says whether to go on. -/
def rangeLoop (f : String → α → σ → σ × Bool) : List (String × α) → σ → σ
  | [], s => s
  | (k, v) :: rest, s =>
    match f k v s with
    | (s', true) => rangeLoop f rest s'
    | (s', false) => s'

/-- Method `Range`: calls `f` for each entry until `f` returns `false`. -/
def Range (m : SyncMap α) (f : String → α → σ → σ × Bool) (s : σ) : σ :=
  rangeLoop f m.entries s

end SyncMap

/-! ## `publisher_pool.go` -/

/-- Type `PublisherPool`: publishers keyed by id. -/
structure PublisherPool where
  publishers : SyncMap Publisher

/-- Constructor `NewPublisherPool`. -/
def NewPublisherPool : PublisherPool := ⟨⟨[]⟩⟩

namespace PublisherPool

/-- Method `PublisherPool.Add`: the returned error and the pool afterwards. -/
def Add (p : PublisherPool) (publisher : Publisher) : Error × PublisherPool :=
  let id := publisher.GetID
  match p.publishers.LoadOrStore id publisher with
  | (m, _, true) => (some ("publisher by ID '" ++ id ++ "' exists, not overriding"), ⟨m⟩)
  | (m, _, false) => (none, ⟨m⟩)

/-- Method `PublisherPool.Remove`. -/
def Remove (p : PublisherPool) (publisherID : String) : PublisherPool :=
  ⟨p.publishers.Delete publisherID⟩

/-- Method `PublisherPool.GetAll`. The map only ever holds values stored by `Add`, so the
type assertion `value.(Publisher)` succeeds for every entry. -/
def GetAll (p : PublisherPool) : Slice Publisher :=
  p.publishers.Range (fun _ publisher publishers => (publishers.append publisher, true)) Slice.nil

end PublisherPool

/-! ## `subscriber_pool.go` -/

/-- Type `SubscriberPool`: subscribers keyed by id. -/
structure SubscriberPool where
  subscribers : SyncMap Subscriber

/-- Constructor `NewSubscriberPool`. -/
def NewSubscriberPool : SubscriberPool := ⟨⟨[]⟩⟩

namespace SubscriberPool

/-- Method `SubscriberPool.Add`: the returned error and the pool afterwards. -/
def Add (p : SubscriberPool) (subscriber : Subscriber) : Error × SubscriberPool :=
  let id := subscriber.GetID
  match p.subscribers.LoadOrStore id subscriber with
  | (m, _, true) => (some ("subscriber by ID '" ++ id ++ "' exists, not overriding"), ⟨m⟩)
  | (m, _, false) => (none, ⟨m⟩)

/-- Method `SubscriberPool.Remove`. -/
def Remove (p : SubscriberPool) (subscriberID : String) : SubscriberPool :=
  ⟨p.subscribers.Delete subscriberID⟩

/-- Method `SubscriberPool.GetAll`. The map only ever holds values stored by `Add`, so the
type assertion `value.(Subscriber)` succeeds for every entry. -/
def GetAll (p : SubscriberPool) : Slice Subscriber :=
  p.subscribers.Range (fun _ subscriber subscribers => (subscribers.append subscriber, true))
    Slice.nil

/-- Method `SubscriberPool.IsEmpty`: the callback clears the flag and stops the iteration. -/
def IsEmpty (p : SubscriberPool) : Bool :=
  p.subscribers.Range (fun _ _ _ => (false, false)) true

end SubscriberPool

/-! ## `observer.go` -/

/-- One call the observer makes on a collaborator: a method of a peer, or the logger. A log
call carries its message and its fields (`zap.String`, `zap.Error`) as key/text pairs. -/
inductive Call where
  | NotifyExistsSubscriber (publisher : Publisher)
  | NotifyNoSubscribers (publisher : Publisher)
  | SendMessageToSubscriber (subscriber : Subscriber) (message : List UInt8)
  | Debug (msg : String) (fields : List (String × String))
  | Warn (msg : String) (fields : List (String × String))

/-- Type `Observer`: the two pools it dispatches between. The pools are held by pointer, so
every method hands back the observer with the pools as it left them. -/
structure Observer where
  publisherPool : PublisherPool
  subscriberPool : SubscriberPool

/-- Constructor `NewObserver`. -/
def NewObserver (publisherPool : PublisherPool) (subscriberPool : SubscriberPool) : Observer :=
  ⟨publisherPool, subscriberPool⟩

/-- What a call of an observer method leaves behind: the returned error, the observer
afterwards, and the calls made on collaborators in program order. -/
structure Outcome where
  err : Error
  observer : Observer
  calls : List Call

namespace Observer

/-- Loop of `OnSubscriberConnected` over the publishers: a failed notification is logged and
the loop goes on. -/
def notifyExistsSubscriberLoop : List Publisher → List Call
  | [] => []
  | publisher :: rest =>
    match publisher.NotifyExistsSubscriber with
    | some err =>
      Call.NotifyExistsSubscriber publisher ::
        Call.Warn "publisher.NotifyExistsSubscriber" [("error", err)] ::
        notifyExistsSubscriberLoop rest
    | none => Call.NotifyExistsSubscriber publisher :: notifyExistsSubscriberLoop rest

/-- Loop of `OnSubscriberDisconnected` over the publishers: a failed notification is logged
and the loop goes on. -/
def notifyNoSubscribersLoop : List Publisher → List Call
  | [] => []
  | publisher :: rest =>
    match publisher.NotifyNoSubscribers with
    | some err =>
      Call.NotifyNoSubscribers publisher ::
        Call.Warn "publisher.NotifyNoSubscribers" [("error", err)] ::
        notifyNoSubscribersLoop rest
    | none => Call.NotifyNoSubscribers publisher :: notifyNoSubscribersLoop rest

/-- Loop of `OnPublisherMessage` over the subscribers: a failed send is logged and the loop
goes on. -/
def sendMessageLoop (message : List UInt8) : List Subscriber → List Call
  | [] => []
  | subscriber :: rest =>
    match subscriber.SendMessageToSubscriber message with
    | some err =>
      Call.SendMessageToSubscriber subscriber message ::
        Call.Warn "SendMessageToSubscriber" [("error", err)] ::
        sendMessageLoop message rest
    | none => Call.SendMessageToSubscriber subscriber message :: sendMessageLoop message rest

/-- Method `Observer.OnSubscriberConnected`. -/
def OnSubscriberConnected (s : Observer) (subscriber : Subscriber) : Outcome :=
  match s.subscriberPool.Add subscriber with
  | (some err, pool) =>
    ⟨Wrap (some err) "add a subscriber to a subscriber pool", ⟨s.publisherPool, pool⟩, []⟩
  | (none, pool) =>
    ⟨none, ⟨s.publisherPool, pool⟩,
      Call.Debug "Subscriber connected" [("subscriber_id", subscriber.GetID)] ::
        notifyExistsSubscriberLoop s.publisherPool.GetAll.toList⟩

/-- Method `Observer.OnSubscriberDisconnected`. -/
def OnSubscriberDisconnected (s : Observer) (subscriber : Subscriber) : Outcome :=
  let pool := s.subscriberPool.Remove subscriber.GetID
  if pool.IsEmpty then
    ⟨none, ⟨s.publisherPool, pool⟩,
      Call.Debug "Last subscriber disconnected, notifying publishers" [] ::
        notifyNoSubscribersLoop s.publisherPool.GetAll.toList⟩
  else
    ⟨none, ⟨s.publisherPool, pool⟩, []⟩

/-- Method `Observer.OnPublisherConnected`. -/
def OnPublisherConnected (s : Observer) (publisher : Publisher) : Outcome :=
  match s.publisherPool.Add publisher with
  | (some err, pool) =>
    ⟨Wrap (some err) "add a publisher to a publisher pool", ⟨pool, s.subscriberPool⟩, []⟩
  | (none, pool) =>
    if !s.subscriberPool.IsEmpty then
      match publisher.NotifyExistsSubscriber with
      | some err =>
        ⟨Wrap (some err) "NotifyExistsSubscriber", ⟨pool, s.subscriberPool⟩,
          [Call.Debug "Subscribers exist, notifying the new publisher" [],
            Call.NotifyExistsSubscriber publisher]⟩
      | none =>
        ⟨none, ⟨pool, s.subscriberPool⟩,
          [Call.Debug "Subscribers exist, notifying the new publisher" [],
            Call.NotifyExistsSubscriber publisher]⟩
    else
      match publisher.NotifyNoSubscribers with
      | some err =>
        ⟨Wrap (some err) "NotifyNoSubscribers", ⟨pool, s.subscriberPool⟩,
          [Call.Debug "No subscribers exist, notifying the new publisher" [],
            Call.NotifyNoSubscribers publisher]⟩
      | none =>
        ⟨none, ⟨pool, s.subscriberPool⟩,
          [Call.Debug "No subscribers exist, notifying the new publisher" [],
            Call.NotifyNoSubscribers publisher]⟩

/-- Method `Observer.OnPublisherDisconnected`: it returns nothing, so the outcome has no
error. -/
def OnPublisherDisconnected (s : Observer) (publisher : Publisher) : Outcome :=
  ⟨none, ⟨s.publisherPool.Remove publisher.GetID, s.subscriberPool⟩,
    [Call.Debug "Publisher disconnected" [("publisher_id", publisher.GetID)]]⟩

/-- Method `Observer.OnPublisherMessage`. -/
def OnPublisherMessage (s : Observer) (message : List UInt8) : Outcome :=
  ⟨none, s,
    Call.Debug "Sending message from publisher to subscribers" [] ::
      sendMessageLoop message s.subscriberPool.GetAll.toList⟩

end Observer

/-! ## Reading a list of calls -/

/-- Publishers on which `NotifyExistsSubscriber` was called, in call order. -/
def existsSubscriberCalls : List Call → List Publisher
  | [] => []
  | Call.NotifyExistsSubscriber p :: rest => p :: existsSubscriberCalls rest
  | _ :: rest => existsSubscriberCalls rest

/-- Publishers on which `NotifyNoSubscribers` was called, in call order. -/
def noSubscribersCalls : List Call → List Publisher
  | [] => []
  | Call.NotifyNoSubscribers p :: rest => p :: noSubscribersCalls rest
  | _ :: rest => noSubscribersCalls rest

/-- Every `SendMessageToSubscriber` call with the subscriber it was made on and the message
it was given, in call order. -/
def sendMessageCalls : List Call → List (Subscriber × List UInt8)
  | [] => []
  | Call.SendMessageToSubscriber s m :: rest => (s, m) :: sendMessageCalls rest
  | _ :: rest => sendMessageCalls rest

/-! ## Sequences of pool calls -/

/-- One call on a publisher pool. -/
inductive PublisherPoolCall where
  | Add (publisher : Publisher)
  | Remove (publisherID : String)

/-- One call on a subscriber pool. -/
inductive SubscriberPoolCall where
  | Add (subscriber : Subscriber)
  | Remove (subscriberID : String)

/-- Pool after one call. -/
def PublisherPool.step (p : PublisherPool) : PublisherPoolCall → PublisherPool
  | PublisherPoolCall.Add publisher => (p.Add publisher).2
  | PublisherPoolCall.Remove publisherID => p.Remove publisherID

/-- Pool after one call. -/
def SubscriberPool.step (p : SubscriberPool) : SubscriberPoolCall → SubscriberPool
  | SubscriberPoolCall.Add subscriber => (p.Add subscriber).2
  | SubscriberPoolCall.Remove subscriberID => p.Remove subscriberID

/-- Pool reached from a fresh publisher pool by the calls, first call first. -/
def PublisherPool.after (calls : List PublisherPoolCall) : PublisherPool :=
  calls.foldl PublisherPool.step NewPublisherPool

/-- Pool reached from a fresh subscriber pool by the calls, first call first. -/
def SubscriberPool.after (calls : List SubscriberPoolCall) : SubscriberPool :=
  calls.foldl SubscriberPool.step NewSubscriberPool

/-- Representation invariant of a pool's `sync.Map`: no key occurs twice, and every peer is
stored under its own id. -/
def SyncMap.Valid {α : Type} (getID : α → String) (m : SyncMap α) : Prop :=
  (m.entries.map Prod.fst).Nodup ∧ ∀ e ∈ m.entries, e.1 = getID e.2

/-- Representation invariant of a publisher pool. -/
def PublisherPool.Valid (p : PublisherPool) : Prop :=
  p.publishers.Valid Publisher.GetID

/-- Representation invariant of a subscriber pool. -/
def SubscriberPool.Valid (p : SubscriberPool) : Prop :=
  p.subscribers.Valid Subscriber.GetID

/-! ## Sample peers, as the tests of the package set them up -/

/-- Publisher with id `1` whose notifications succeed. -/
def mockPublisher1 : Publisher := ⟨none, none, "1"⟩

/-- Publisher with id `2` whose notifications fail. -/
def mockPublisher2 : Publisher := ⟨some "stream closed", some "stream closed", "2"⟩

/-- A second publisher with id `1`, told apart from `mockPublisher1` by its failing
notifications. -/
def mockPublisher1Dup : Publisher := ⟨some "stream closed", some "stream closed", "1"⟩

/-- Subscriber with id `1` whose sends succeed. -/
def mockSubscriber1 : Subscriber := ⟨fun _ => none, "1"⟩

/-- Subscriber with id `2` whose sends fail. -/
def mockSubscriber2 : Subscriber := ⟨fun _ => some "stream closed", "2"⟩

/-- A second subscriber with id `1`, told apart from `mockSubscriber1` by its failing sends. -/
def mockSubscriber1Dup : Subscriber := ⟨fun _ => some "stream closed", "1"⟩

/-- Publisher pool holding `mockPublisher1`. -/
def publisherPool1 : PublisherPool := (NewPublisherPool.Add mockPublisher1).2

/-- Subscriber pool holding `mockSubscriber1`. -/
def subscriberPool1 : SubscriberPool := (NewSubscriberPool.Add mockSubscriber1).2

/-- Publisher pool holding `mockPublisher1` and `mockPublisher2`. -/
def publisherPool12 : PublisherPool := (publisherPool1.Add mockPublisher2).2

/-- Subscriber pool holding `mockSubscriber1` and `mockSubscriber2`. -/
def subscriberPool12 : SubscriberPool := (subscriberPool1.Add mockSubscriber2).2

/-- Publisher pool holding the failing `mockPublisher2`, stored first, and `mockPublisher1`. -/
def publisherPool21 : PublisherPool :=
  ((NewPublisherPool.Add mockPublisher2).2.Add mockPublisher1).2

/-- Subscriber pool holding the failing `mockSubscriber2`, stored first, and
`mockSubscriber1`. -/
def subscriberPool21 : SubscriberPool :=
  ((NewSubscriberPool.Add mockSubscriber2).2.Add mockSubscriber1).2

/-- Message `foo` of the observer test, as bytes. -/
def messageFoo : List UInt8 := [102, 111, 111]

/-! ## `pkg/sdk` (`sdk.go`) -/

/-- Constant `sdk.CodeExistsSubscriber`. -/
def CodeExistsSubscriber : String := "exists_subscriber"

/-- Constant `sdk.CodeNoSubscribers`. -/
def CodeNoSubscribers : String := "no_subscribers"

/-- Type `sdk.Event`, the control record sent from the broker to a publisher. -/
structure Event where
  Code : String
  deriving DecidableEq

/-! ## Runs of observer calls -/

/-- One call of an observer method. -/
inductive ObserverCall where
  | OnSubscriberConnected (subscriber : Subscriber)
  | OnSubscriberDisconnected (subscriber : Subscriber)
  | OnPublisherConnected (publisher : Publisher)
  | OnPublisherDisconnected (publisher : Publisher)
  | OnPublisherMessage (message : List UInt8)

/-- Outcome of one observer call. -/
def Observer.step (o : Observer) : ObserverCall → Outcome
  | ObserverCall.OnSubscriberConnected subscriber => o.OnSubscriberConnected subscriber
  | ObserverCall.OnSubscriberDisconnected subscriber => o.OnSubscriberDisconnected subscriber
  | ObserverCall.OnPublisherConnected publisher => o.OnPublisherConnected publisher
  | ObserverCall.OnPublisherDisconnected publisher => o.OnPublisherDisconnected publisher
  | ObserverCall.OnPublisherMessage message => o.OnPublisherMessage message

/-- Sequential run: the observer after the given observer calls, made one after the other,
with all calls on collaborators so far (`sofar` first, then those of the run, in order). -/
def Observer.run (o : Observer) (sofar : List Call) : List ObserverCall → Observer × List Call
  | [] => (o, sofar)
  | c :: rest => Observer.run (o.step c).observer (sofar ++ (o.step c).calls) rest

/-- Every notification of the publisher this observer call brings in succeeds. -/
def ObserverCall.notificationsSucceed : ObserverCall → Prop
  | ObserverCall.OnPublisherConnected publisher =>
    publisher.NotifyExistsSubscriber = none ∧ publisher.NotifyNoSubscribers = none
  | _ => True

/-- Control records delivered to publisher `p` by the calls, oldest first: a
`NotifyExistsSubscriber` on `p` that returned `nil` delivered the record with code
`exists_subscriber`, a `NotifyNoSubscribers` on `p` that returned `nil` the one with code
`no_subscribers`; a notification that returned an error delivered nothing. -/
def deliveredRecords (p : Publisher) : List Call → List Event
  | [] => []
  | Call.NotifyExistsSubscriber q :: rest =>
    if q = p ∧ q.NotifyExistsSubscriber = none then
      ⟨CodeExistsSubscriber⟩ :: deliveredRecords p rest
    else deliveredRecords p rest
  | Call.NotifyNoSubscribers q :: rest =>
    if q = p ∧ q.NotifyNoSubscribers = none then
      ⟨CodeNoSubscribers⟩ :: deliveredRecords p rest
    else deliveredRecords p rest
  | _ :: rest => deliveredRecords p rest

/-- Most recent control record delivered to publisher `p` by the calls, if any. -/
def lastDeliveredRecord (p : Publisher) (calls : List Call) : Option Event :=
  (deliveredRecords p calls).getLast?

/-- The run of the demand-gating scenario: publisher `1` connects, subscriber `1` connects,
subscriber `1` disconnects. -/
def gatingRun : List ObserverCall :=
  [ObserverCall.OnPublisherConnected mockPublisher1,
    ObserverCall.OnSubscriberConnected mockSubscriber1,
    ObserverCall.OnSubscriberDisconnected mockSubscriber1]

/-- Demand-gating invariant of an observer with the calls made so far: the publisher pool
satisfies its representation invariant, the notifications of every publisher in it succeed,
and the most recent control record delivered to each of them says whether the subscriber
pool is empty. -/
def Observer.Gated (o : Observer) (calls : List Call) : Prop :=
  o.publisherPool.Valid ∧
  ∀ p, p ∈ o.publisherPool.GetAll.toList →
    p.NotifyExistsSubscriber = none ∧ p.NotifyNoSubscribers = none ∧
    lastDeliveredRecord p calls =
      some (if o.subscriberPool.IsEmpty then ⟨CodeNoSubscribers⟩ else ⟨CodeExistsSubscriber⟩)

/-! ## Errors of the transport and of `pkg/quichelper` (`errors.go`) -/

/-- Error returned by an operation of a stream (`Read`, `Write`, `SetReadDeadline`,
`SetWriteDeadline`): its text, and whether `errors.As` finds in it a `net.Error` whose
`Timeout()` is true. Being the library's own error it is never this package's
`ErrNetworkTimeout` or `UnmarshalError`. -/
structure StreamError where
  msg : String
  Timeout : Bool
  deriving DecidableEq

/-- Error of `encoding/json`: a `*SyntaxError` or an `*UnmarshalTypeError`. -/
inductive JSONError where
  | SyntaxError
  | UnmarshalTypeError
  deriving DecidableEq

/-- Non-nil error values of `pkg/quichelper` and of the transports, by dynamic type. -/
inductive GoError where
  /-- An error that a stream operation returned. -/
  | stream (e : StreamError)
  /-- The variable `ErrNetworkTimeout`. -/
  | ErrNetworkTimeout
  /-- A struct value `UnmarshalError{Data, Err}`. -/
  | UnmarshalError (Data : List UInt8) (Err : JSONError)
  /-- A pointer `&UnmarshalError{Data, Err}`. -/
  | UnmarshalErrorPtr (Data : List UInt8) (Err : JSONError)
  /-- Result of `errors.Wrap(cause, message)` of `github.com/pkg/errors`. -/
  | Wrap (cause : GoError) (message : String)
  /-- Result of `fmt.Errorf` with the formatted text. -/
  | Errorf (msg : String)
  deriving DecidableEq

namespace GoError

/-- Call `errors.Is(err, ErrNetworkTimeout)`: follows `Unwrap` through `errors.Wrap`; the
other error types have no `Unwrap`. -/
def IsErrNetworkTimeout : GoError → Bool
  | ErrNetworkTimeout => true
  | Wrap cause _ => cause.IsErrNetworkTimeout
  | _ => false

/-- Call `errors.As(err, &target)` with `target` of the struct type `UnmarshalError`: an
error matches when its dynamic type is assignable to `UnmarshalError`, which a struct
value is and a pointer `*UnmarshalError` is not; the walk follows `Unwrap` through
`errors.Wrap`. On a match the result is the `Data` and `Err` of the target. -/
def AsUnmarshalError : GoError → Option (List UInt8 × JSONError)
  | UnmarshalError Data Err => some (Data, Err)
  | Wrap cause _ => cause.AsUnmarshalError
  | _ => none

/-- Type test of the test suite, `BeAssignableToTypeOf(&UnmarshalError{})`: the dynamic
type of the error is `*UnmarshalError`. -/
def isUnmarshalErrorPtr : GoError → Bool
  | UnmarshalErrorPtr _ _ => true
  | _ => false

end GoError

/-! ## `encoding/json` on `sdk.Event` -/

/-- Bytes of a text, in UTF-8. -/
def stringBytes (s : String) : List UInt8 :=
  s.data.foldr (fun c bytes => String.utf8EncodeChar c ++ bytes) []

/-- Lower-case hexadecimal digit of a number below 16. -/
def hexDigit (n : Nat) : UInt8 :=
  if n < 10 then UInt8.ofNat (48 + n) else UInt8.ofNat (87 + n)

/-- String encoder of `encoding/json` with HTML escaping, one character: printable ASCII
other than the quote, the backslash and `<`, `>`, `&` is copied; the quote, the backslash,
newline, carriage return and tab get their short escape; every other ASCII character is
written as `\u00XX` (backspace and form feed among them, as Go up to 1.21 does; no text
this program encodes holds one); U+2028 and U+2029 are written as their `\u` escape; any
other character is copied in UTF-8. -/
def jsonEscapeChar (c : Char) : List UInt8 :=
  let n := c.toNat
  if n = 0x22 then [0x5C, 0x22]
  else if n = 0x5C then [0x5C, 0x5C]
  else if n = 0x0A then [0x5C, 0x6E]
  else if n = 0x0D then [0x5C, 0x72]
  else if n = 0x09 then [0x5C, 0x74]
  else if n < 0x20 ∨ n = 0x3C ∨ n = 0x3E ∨ n = 0x26 then
    [0x5C, 0x75, 0x30, 0x30, hexDigit (n / 16), hexDigit (n % 16)]
  else if n = 0x2028 then [0x5C, 0x75, 0x32, 0x30, 0x32, 0x38]
  else if n = 0x2029 then [0x5C, 0x75, 0x32, 0x30, 0x32, 0x39]
  else String.utf8EncodeChar c

/-- String encoder of `encoding/json`: the escaped characters between two quotes. -/
def jsonQuote (s : String) : List UInt8 :=
  0x22 :: s.data.foldr (fun c bytes => jsonEscapeChar c ++ bytes) [0x22]

/-- Call `json.Marshal(event)` for an `sdk.Event`: the object with the one member `code`.
For this type `json.Marshal` returns no error. -/
def jsonMarshalEvent (event : Event) : List UInt8 :=
  [0x7B] ++ jsonQuote "code" ++ [0x3A] ++ jsonQuote event.Code ++ [0x7D]

/-- A JSON value as the decoder sees it; of a number only its presence matters here. -/
inductive JSONValue where
  | null
  | bool (b : Bool)
  | number
  | string (s : String)
  | array (items : List JSONValue)
  | object (members : List (String × JSONValue))

/-- Nesting limit of the scanner of `encoding/json` (`maxNestingDepth`). -/
def maxNestingDepth : Nat := 10000

/-- Whitespace of JSON: space, tab, line feed, carriage return. -/
def isJSONSpace (b : UInt8) : Bool :=
  b == 0x20 || b == 0x09 || b == 0x0A || b == 0x0D

/-- Input without its leading JSON whitespace. -/
def skipJSONSpace : List UInt8 → List UInt8
  | [] => []
  | b :: rest => if isJSONSpace b then skipJSONSpace rest else b :: rest

/-- Decimal digit test. -/
def isDigit (b : UInt8) : Bool := 0x30 ≤ b && b ≤ 0x39

/-- Input without its leading decimal digits. -/
def skipDigits : List UInt8 → List UInt8
  | [] => []
  | b :: rest => if isDigit b then skipDigits rest else b :: rest

/-- Value of a hexadecimal digit, if the byte is one. -/
def hexValue (b : UInt8) : Option Nat :=
  if 0x30 ≤ b && b ≤ 0x39 then some (b.toNat - 0x30)
  else if 0x61 ≤ b && b ≤ 0x66 then some (b.toNat - 0x61 + 10)
  else if 0x41 ≤ b && b ≤ 0x46 then some (b.toNat - 0x41 + 10)
  else none

/-- Function `getu4` of the decoder: the number written by four hexadecimal digits. -/
def getu4 : List UInt8 → Option (Nat × List UInt8)
  | a :: b :: c :: d :: rest =>
    match hexValue a, hexValue b, hexValue c, hexValue d with
    | some x, some y, some z, some w => some (((x * 16 + y) * 16 + z) * 16 + w, rest)
    | _, _, _, _ => none
  | _ => none

/-- Continuation byte of UTF-8 (`0x80` to `0xBF`). -/
def isCont (b : UInt8) : Bool := 0x80 ≤ b && b ≤ 0xBF

/-- Function `utf8.DecodeRune` on input whose first byte is `b0`: the character and the
input after it; an invalid or cut-off sequence gives U+FFFD and consumes one byte. -/
def utf8DecodeRune (b0 : UInt8) (rest : List UInt8) : Char × List UInt8 :=
  let bad : Char × List UInt8 := (Char.ofNat 0xFFFD, rest)
  if b0 < 0x80 then (Char.ofNat b0.toNat, rest)
  else if 0xC2 ≤ b0 && b0 ≤ 0xDF then
    match rest with
    | b1 :: r =>
      if isCont b1 then (Char.ofNat ((b0.toNat % 32) * 64 + b1.toNat % 64), r) else bad
    | _ => bad
  else if 0xE0 ≤ b0 && b0 ≤ 0xEF then
    match rest with
    | b1 :: b2 :: r =>
      let lo : UInt8 := if b0 == 0xE0 then 0xA0 else 0x80
      let hi : UInt8 := if b0 == 0xED then 0x9F else 0xBF
      if lo ≤ b1 && b1 ≤ hi && isCont b2 then
        (Char.ofNat (((b0.toNat % 16) * 64 + b1.toNat % 64) * 64 + b2.toNat % 64), r)
      else bad
    | _ => bad
  else if 0xF0 ≤ b0 && b0 ≤ 0xF4 then
    match rest with
    | b1 :: b2 :: b3 :: r =>
      let lo : UInt8 := if b0 == 0xF0 then 0x90 else 0x80
      let hi : UInt8 := if b0 == 0xF4 then 0x8F else 0xBF
      if lo ≤ b1 && b1 ≤ hi && isCont b2 && isCont b3 then
        (Char.ofNat ((((b0.toNat % 8) * 64 + b1.toNat % 64) * 64 + b2.toNat % 64) * 64
          + b3.toNat % 64), r)
      else bad
    | _ => bad
  else bad

/-- String of JSON after its opening quote: the decoded text and the input after the
closing quote, or `none` on a syntax error. A control character, a cut-off string and an
unknown escape are syntax errors; `\uXXXX` is decoded with surrogate pairs joined and a
lone surrogate replaced by U+FFFD; other bytes are decoded as UTF-8. The first argument
bounds the number of steps and is given the length of the input. -/
def parseJSONString : Nat → List UInt8 → Option (List Char × List UInt8)
  | 0, _ => none
  | _ + 1, [] => none
  | fuel + 1, b :: rest =>
    if b == 0x22 then some ([], rest)
    else if b < 0x20 then none
    else if b == 0x5C then
      match rest with
      | [] => none
      | e :: rest' =>
        if e == 0x75 then
          match getu4 rest' with
          | none => none
          | some (r1, rest'') =>
            if 0xD800 ≤ r1 ∧ r1 < 0xE000 then
              match rest'' with
              | 0x5C :: 0x75 :: more =>
                match getu4 more with
                | some (r2, rest''') =>
                  if r1 < 0xDC00 ∧ 0xDC00 ≤ r2 ∧ r2 < 0xE000 then
                    (parseJSONString fuel rest''').map fun out =>
                      (Char.ofNat ((r1 - 0xD800) * 1024 + (r2 - 0xDC00) + 0x10000) :: out.1,
                        out.2)
                  else
                    (parseJSONString fuel rest'').map fun out =>
                      (Char.ofNat 0xFFFD :: out.1, out.2)
                | none =>
                  (parseJSONString fuel rest'').map fun out =>
                    (Char.ofNat 0xFFFD :: out.1, out.2)
              | _ =>
                (parseJSONString fuel rest'').map fun out =>
                  (Char.ofNat 0xFFFD :: out.1, out.2)
            else
              (parseJSONString fuel rest'').map fun out => (Char.ofNat r1 :: out.1, out.2)
        else
          let plain : Option Char :=
            if e == 0x22 then some (Char.ofNat 0x22)
            else if e == 0x5C then some (Char.ofNat 0x5C)
            else if e == 0x2F then some (Char.ofNat 0x2F)
            else if e == 0x62 then some (Char.ofNat 0x08)
            else if e == 0x66 then some (Char.ofNat 0x0C)
            else if e == 0x6E then some (Char.ofNat 0x0A)
            else if e == 0x72 then some (Char.ofNat 0x0D)
            else if e == 0x74 then some (Char.ofNat 0x09)
            else none
          match plain with
          | none => none
          | some c => (parseJSONString fuel rest').map fun out => (c :: out.1, out.2)
    else
      let d := utf8DecodeRune b rest
      (parseJSONString fuel d.2).map fun out => (d.1 :: out.1, out.2)

/-- Number of JSON at the head of the input: the input after it, or `none` when there is no
well-formed number. -/
def parseJSONNumber (input : List UInt8) : Option (List UInt8) :=
  let afterSign := match input with
    | 0x2D :: rest => rest
    | other => other
  let afterInt : Option (List UInt8) := match afterSign with
    | b :: rest =>
      if b == 0x30 then some rest
      else if isDigit b then some (skipDigits rest)
      else none
    | [] => none
  let afterFrac : Option (List UInt8) := match afterInt with
    | some (0x2E :: b :: rest) => if isDigit b then some (skipDigits rest) else none
    | some [0x2E] => none
    | other => other
  match afterFrac with
  | some (e :: rest) =>
    if e == 0x65 || e == 0x45 then
      let afterExpSign := match rest with
        | s :: rest' => if s == 0x2B || s == 0x2D then rest' else s :: rest'
        | [] => []
      match afterExpSign with
      | b :: rest' => if isDigit b then some (skipDigits rest') else none
      | [] => none
    else some (e :: rest)
  | other => other

mutual

/-- One JSON value at the head of the input, leading whitespace skipped: the value and the
input after it, or `none` on a syntax error. The first argument bounds the number of nested
calls, the second counts the arrays and objects that are open. -/
def parseJSONValue : Nat → Nat → List UInt8 → Option (JSONValue × List UInt8)
  | 0, _, _ => none
  | fuel + 1, depth, input =>
    match skipJSONSpace input with
    | [] => none
    | b :: rest =>
      if b == 0x7B then
        if maxNestingDepth ≤ depth then none
        else
          match skipJSONSpace rest with
          | 0x7D :: rest' => some (JSONValue.object [], rest')
          | rest' =>
            (parseJSONMembers fuel (depth + 1) rest').map fun out =>
              (JSONValue.object out.1, out.2)
      else if b == 0x5B then
        if maxNestingDepth ≤ depth then none
        else
          match skipJSONSpace rest with
          | 0x5D :: rest' => some (JSONValue.array [], rest')
          | rest' =>
            (parseJSONElements fuel (depth + 1) rest').map fun out =>
              (JSONValue.array out.1, out.2)
      else if b == 0x22 then
        (parseJSONString (rest.length + 1) rest).map fun out =>
          (JSONValue.string (String.mk out.1), out.2)
      else if b == 0x74 then
        match rest with
        | 0x72 :: 0x75 :: 0x65 :: rest' => some (JSONValue.bool true, rest')
        | _ => none
      else if b == 0x66 then
        match rest with
        | 0x61 :: 0x6C :: 0x73 :: 0x65 :: rest' => some (JSONValue.bool false, rest')
        | _ => none
      else if b == 0x6E then
        match rest with
        | 0x75 :: 0x6C :: 0x6C :: rest' => some (JSONValue.null, rest')
        | _ => none
      else
        (parseJSONNumber (b :: rest)).map fun rest' => (JSONValue.number, rest')

/-- Members of an object after its opening brace, when the object is not empty: key, colon
and value, then a comma and more members or the closing brace. -/
def parseJSONMembers : Nat → Nat → List UInt8 →
    Option (List (String × JSONValue) × List UInt8)
  | 0, _, _ => none
  | fuel + 1, depth, input =>
    match skipJSONSpace input with
    | 0x22 :: rest =>
      match parseJSONString (rest.length + 1) rest with
      | none => none
      | some (key, afterKey) =>
        match skipJSONSpace afterKey with
        | 0x3A :: afterColon =>
          match parseJSONValue fuel depth afterColon with
          | none => none
          | some (value, afterValue) =>
            match skipJSONSpace afterValue with
            | 0x2C :: more =>
              (parseJSONMembers fuel depth more).map fun out =>
                ((String.mk key, value) :: out.1, out.2)
            | 0x7D :: rest' => some ([(String.mk key, value)], rest')
            | _ => none
        | _ => none
    | _ => none

/-- Elements of an array after its opening bracket, when the array is not empty: a value,
then a comma and more elements or the closing bracket. -/
def parseJSONElements : Nat → Nat → List UInt8 → Option (List JSONValue × List UInt8)
  | 0, _, _ => none
  | fuel + 1, depth, input =>
    match parseJSONValue fuel depth input with
    | none => none
    | some (value, afterValue) =>
      match skipJSONSpace afterValue with
      | 0x2C :: more =>
        (parseJSONElements fuel depth more).map fun out => (value :: out.1, out.2)
      | 0x5D :: rest' => some ([value], rest')
      | _ => none

end

/-- Syntax check and parse of a whole JSON text: one value with whitespace around it and
nothing else; `none` is the `*SyntaxError` of `json.Unmarshal`. -/
def parseJSON (data : List UInt8) : Option JSONValue :=
  match parseJSONValue (2 * data.length + 2) 0 data with
  | some (value, rest) =>
    match skipJSONSpace rest with
    | [] => some value
    | _ => none
  | none => none

/-- Field lookup of the decoder for the one field of `sdk.Event`: the key is `code`, in
any mix of upper and lower case. -/
def matchesCodeField (key : String) : Bool :=
  key.data.map Char.toLower == "code".data

/-- Decoder on the members of an object, first to last, for a target `sdk.Event`: a member
for the field `code` sets `Code` when its value is a string, changes nothing when it is
`null`, and records an `*UnmarshalTypeError` when it is anything else; decoding goes on and
the first recorded error is the result. Other members are skipped. -/
def decodeEventMembers : List (String × JSONValue) → Event → Option JSONError →
    Event × Option JSONError
  | [], event, saved => (event, saved)
  | (key, value) :: rest, event, saved =>
    if matchesCodeField key then
      match value with
      | JSONValue.string s => decodeEventMembers rest ⟨s⟩ saved
      | JSONValue.null => decodeEventMembers rest event saved
      | _ =>
        decodeEventMembers rest event
          (match saved with
            | none => some JSONError.UnmarshalTypeError
            | some e => some e)
    else decodeEventMembers rest event saved

/-- Call `json.Unmarshal(data, &event)` with `event` a zero `sdk.Event`: the event
afterwards and the returned error. Invalid JSON is a `*SyntaxError` and leaves the event
untouched; an object is decoded member by member; `null` changes nothing; any other value
is an `*UnmarshalTypeError`. -/
def jsonUnmarshalEvent (data : List UInt8) : Event × Option JSONError :=
  match parseJSON data with
  | none => (⟨""⟩, some JSONError.SyntaxError)
  | some (JSONValue.object members) => decodeEventMembers members ⟨""⟩ none
  | some JSONValue.null => (⟨""⟩, none)
  | some _ => (⟨""⟩, some JSONError.UnmarshalTypeError)

/-! ## Streams -/

/-- What one `Read(p)` on a stream returns: the bytes it copied to the front of `p`, whose
number is the returned `n`, and the returned error. -/
structure ReadResult where
  data : List UInt8
  err : Option StreamError

/-- What one `Write(p)` on a stream returns: the count `n` and the error. -/
structure WriteResult where
  n : Int
  err : Option StreamError

/-- Reader `bytes.NewReader(s)` at its first `Read(p)`, as a function of `len(p)`: end of
file when `s` is empty, otherwise the first `len(p)` bytes of `s` and no error. -/
def bytesReader (s : List UInt8) : Nat → ReadResult :=
  fun size => if s.isEmpty then ⟨[], some ⟨"EOF", false⟩⟩ else ⟨s.take size, none⟩

/-! ## `pkg/quichelper` (`quichelper.go`) -/

/-- Function `ReceiveEvent`. The stream is given by what its next `Read` returns for a
buffer of the given length. The buffer has `maxMessageBytes` bytes, so `msg[0:n]` holds no
more than that: for a reader that keeps `n ≤ len(p)` it is exactly the bytes read. -/
def ReceiveEvent (stream : Nat → ReadResult) (maxMessageBytes : Nat) :
    Event × Option GoError :=
  let r := stream maxMessageBytes
  match r.err with
  | some err =>
    if err.Timeout then (⟨""⟩, some GoError.ErrNetworkTimeout)
    else (⟨""⟩, some (GoError.Wrap (GoError.stream err) "stream.Read"))
  | none =>
    let msg := r.data.take maxMessageBytes
    match jsonUnmarshalEvent msg with
    | (_, some err) => (⟨""⟩, some (GoError.UnmarshalErrorPtr msg err))
    | (event, none) => (event, none)

/-! ## Broker-side connection adapters (`quic_publisher_conn.go`, `quic_subscriber_conn.go`) -/

/-- What a method of a connection adapter leaves behind: the returned error and the
payloads of the `Write` calls it made on the send stream, in order. -/
structure ConnOutcome where
  err : Option GoError
  writes : List (List UInt8)

/-- Type `QUICPublisherConn`: the id as text, and the send stream given by what `Write`
returns for a payload. -/
structure QUICPublisherConn where
  id : String
  sendStream : List UInt8 → WriteResult

/-- Type `QUICSubscriberConn`: the id as text, and the send stream given by what `Write`
returns for a payload. -/
structure QUICSubscriberConn where
  id : String
  sendStream : List UInt8 → WriteResult

/-- Text of the short-write error of both adapters. -/
def shortWriteText (writtenBytes : Int) (length : Nat) : String :=
  "written " ++ toString writtenBytes ++ " bytes, message length is " ++ toString length
    ++ " bytes"

namespace QUICPublisherConn

/-- Method `QUICPublisherConn.sendEvent`. `json.Marshal` returns no error for an
`sdk.Event`, so the first error return is never taken. -/
def sendEvent (s : QUICPublisherConn) (event : Event) : ConnOutcome :=
  let messageBytes := jsonMarshalEvent event
  let w := s.sendStream messageBytes
  match w.err with
  | some err => ⟨some (GoError.Wrap (GoError.stream err) "stream.Write"), [messageBytes]⟩
  | none =>
    if w.n < (messageBytes.length : Int) then
      ⟨some (GoError.Errorf (shortWriteText w.n messageBytes.length)), [messageBytes]⟩
    else ⟨none, [messageBytes]⟩

/-- Method `QUICPublisherConn.NotifyExistsSubscriber`. -/
def NotifyExistsSubscriber (s : QUICPublisherConn) : ConnOutcome :=
  match s.sendEvent ⟨CodeExistsSubscriber⟩ with
  | ⟨some err, writes⟩ => ⟨some (GoError.Wrap err "sendEvent"), writes⟩
  | ⟨none, writes⟩ => ⟨none, writes⟩

/-- Method `QUICPublisherConn.NotifyNoSubscribers`. -/
def NotifyNoSubscribers (s : QUICPublisherConn) : ConnOutcome :=
  match s.sendEvent ⟨CodeNoSubscribers⟩ with
  | ⟨some err, writes⟩ => ⟨some (GoError.Wrap err "sendEvent"), writes⟩
  | ⟨none, writes⟩ => ⟨none, writes⟩

/-- Method `QUICPublisherConn.GetID`. -/
def GetID (s : QUICPublisherConn) : String := s.id

end QUICPublisherConn

namespace QUICSubscriberConn

/-- Method `QUICSubscriberConn.SendMessageToSubscriber`. -/
def SendMessageToSubscriber (s : QUICSubscriberConn) (message : List UInt8) : ConnOutcome :=
  let w := s.sendStream message
  match w.err with
  | some err => ⟨some (GoError.Wrap (GoError.stream err) "sendStream.Write"), [message]⟩
  | none =>
    if w.n < (message.length : Int) then
      ⟨some (GoError.Errorf (shortWriteText w.n message.length)), [message]⟩
    else ⟨none, [message]⟩

/-- Method `QUICSubscriberConn.GetID`. -/
def GetID (s : QUICSubscriberConn) : String := s.id

end QUICSubscriberConn

/-! ## Publisher client (`publisher/internal/transport/quic_publisher.go`) -/

/-- Field of a log call: `zap.String` or `zap.ByteString`. -/
inductive LogField where
  | zapString (key : String) (val : String)
  | zapByteString (key : String) (val : List UInt8)
  deriving DecidableEq

/-- One thing `listenForEvents` does to the outside: a log call, or a send on
`sendMessagesCh` (the send blocks until the value is taken). -/
inductive ClientCall where
  | Debug (msg : String)
  | Info (msg : String) (fields : List LogField)
  | sendMessagesCh (value : Bool)
  deriving DecidableEq

/-- What one iteration of the loop of `listenForEvents` meets: whether `ctx.Done()` is ready
at the `select`, and what the `Read` of this iteration's `ReceiveEvent` returns for a buffer
of the given length. -/
structure ListenStep where
  ctxDone : Bool
  stream : Nat → ReadResult

/-- Method `QUICPublisher.listenForEvents` over the iterations the environment offers, with
`maxMessageBytes` standing for `uint64(s.config.MaxMessageBytes)`. The result is
`some err` when the method returns `err` (so `some none` is a `nil` return) and `none` when
it is still listening after the last iteration offered; with it come the calls made, in
order. -/
def listenForEvents (maxMessageBytes : Nat) :
    List ListenStep → Option (Option GoError) × List ClientCall
  | [] => (none, [])
  | step :: rest =>
    if step.ctxDone then
      (some none, [ClientCall.Debug "Stopping receiving messages as context is cancelled"])
    else
      match ReceiveEvent step.stream maxMessageBytes with
      | (_, some err) =>
        match err.AsUnmarshalError with
        | some (Data, _) =>
          ((listenForEvents maxMessageBytes rest).1,
            ClientCall.Info "Got corrupt event, ignoring" [LogField.zapByteString "event_body" Data]
              :: (listenForEvents maxMessageBytes rest).2)
        | none =>
          if err.IsErrNetworkTimeout then
            (some none, [ClientCall.Info "Server timeout, stopping listening for events" []])
          else (some (some (GoError.Wrap err "ReceiveEvent")), [])
      | (event, none) =>
        if event.Code = CodeExistsSubscriber then
          ((listenForEvents maxMessageBytes rest).1,
            ClientCall.Info "Got event from the server" [LogField.zapString "event" event.Code]
              :: ClientCall.sendMessagesCh true :: (listenForEvents maxMessageBytes rest).2)
        else if event.Code = CodeNoSubscribers then
          ((listenForEvents maxMessageBytes rest).1,
            ClientCall.Info "Got event from the server" [LogField.zapString "event" event.Code]
              :: ClientCall.sendMessagesCh false :: (listenForEvents maxMessageBytes rest).2)
        else
          ((listenForEvents maxMessageBytes rest).1,
            ClientCall.Info "Got event from the server" [LogField.zapString "event" event.Code]
              :: (listenForEvents maxMessageBytes rest).2)

/-- Values sent on `sendMessagesCh`, in order. -/
def sentOnSendMessagesCh : List ClientCall → List Bool
  | [] => []
  | ClientCall.sendMessagesCh value :: rest => value :: sentOnSendMessagesCh rest
  | _ :: rest => sentOnSendMessagesCh rest

/-- Part of `QUICPublisher.Run` that runs `listenForEvents`: whether it calls `cancel()`,
which it does exactly when `listenForEvents` returns an error. -/
def runCancelsOnListen (maxMessageBytes : Nat) (steps : List ListenStep) : Bool :=
  match (listenForEvents maxMessageBytes steps).1 with
  | some (some _) => true
  | _ => false

/-! ## Pinger (`pkg/quichelper/pinger.go`) -/

/-- Type `PingerConfig`, the durations in nanoseconds. -/
structure PingerConfig where
  Interval : Nat
  Timeout : Nat

/-- Type `Pinger`; its logger is the outside and shows in the calls. -/
structure Pinger where
  config : PingerConfig

/-- Function `NewDefaultPingerConfig`: 5 s between pings, 10 s of deadline. -/
def NewDefaultPingerConfig : PingerConfig := ⟨5 * 1000000000, 10 * 1000000000⟩

/-- Constructor `NewPinger`. -/
def NewPinger (config : PingerConfig) : Pinger := ⟨config⟩

/-- What one iteration of a ping loop meets: which case of the `select` is taken
(`ctxDone` for `<-ctx.Done()`, otherwise the timer of `SendPings` or the `default` of
`AcceptPings`), and what the operations on the stream return in this iteration. -/
structure PingRound where
  ctxDone : Bool
  SetWriteDeadline : Option StreamError
  Write : List UInt8 → WriteResult
  SetReadDeadline : Option StreamError
  Read : Nat → ReadResult

/-- One call a ping loop makes on the stream or the logger. Deadlines are points in time
(`time.Now().Add(s.config.Timeout)`) and are left out. -/
inductive PingCall where
  | SetWriteDeadline
  | Write (p : List UInt8)
  | SetReadDeadline
  | Read (size : Nat)
  | Debug (msg : String)
  | Info (msg : String)
  deriving DecidableEq

namespace Pinger

/-- Method `Pinger.sendPing`: the returned error and the calls made on the stream. -/
def sendPing (_s : Pinger) (round : PingRound) : Option GoError × List PingCall :=
  match round.SetWriteDeadline with
  | some err =>
    (some (GoError.Wrap (GoError.stream err) "SetWriteDeadline"), [PingCall.SetWriteDeadline])
  | none =>
    match (round.Write [0x31]).err with
    | some err =>
      if err.Timeout then
        (some GoError.ErrNetworkTimeout, [PingCall.SetWriteDeadline, PingCall.Write [0x31]])
      else
        (some (GoError.Wrap (GoError.stream err) "stream.Write"),
          [PingCall.SetWriteDeadline, PingCall.Write [0x31]])
    | none => (none, [PingCall.SetWriteDeadline, PingCall.Write [0x31]])

/-- Method `Pinger.waitForPing`: the returned error and the calls made on the stream. -/
def waitForPing (_s : Pinger) (round : PingRound) : Option GoError × List PingCall :=
  match round.SetReadDeadline with
  | some err =>
    (some (GoError.Wrap (GoError.stream err) "SetReadDeadline"), [PingCall.SetReadDeadline])
  | none =>
    match (round.Read 1).err with
    | some err =>
      if err.Timeout then
        (some GoError.ErrNetworkTimeout, [PingCall.SetReadDeadline, PingCall.Read 1])
      else
        (some (GoError.Wrap (GoError.stream err) "stream.Read"),
          [PingCall.SetReadDeadline, PingCall.Read 1])
    | none => (none, [PingCall.SetReadDeadline, PingCall.Read 1])

/-- Method `Pinger.SendPings` over the iterations the environment offers. The result is
`some err` when the method returns `err` (so `some none` is a `nil` return) and `none` when
it is still looping after the last iteration offered; with it come the calls made, in
order. -/
def SendPings (s : Pinger) : List PingRound → Option (Option GoError) × List PingCall
  | [] => (none, [])
  | round :: rest =>
    if round.ctxDone then
      (some none, [PingCall.Debug "Stopping sending pings, context cancelled"])
    else
      match s.sendPing round with
      | (some err, calls) => (some (some (GoError.Wrap err "sendPing")), calls)
      | (none, calls) =>
        match s.waitForPing round with
        | (some err, calls') =>
          (some (some (GoError.Wrap err "waitForPing")),
            calls ++ PingCall.Debug "Sent ping" :: calls')
        | (none, calls') =>
          ((SendPings s rest).1,
            calls ++ PingCall.Debug "Sent ping" :: calls' ++
              PingCall.Debug "Got response to ping" :: (SendPings s rest).2)

/-- Method `Pinger.AcceptPings` over the iterations the environment offers; the result is
read as for `SendPings`. -/
def AcceptPings (s : Pinger) : List PingRound → Option (Option GoError) × List PingCall
  | [] => (none, [])
  | round :: rest =>
    if round.ctxDone then
      (some none, [PingCall.Info "Stopping accepting pings, context cancelled"])
    else
      match s.waitForPing round with
      | (some err, calls) => (some (some (GoError.Wrap err "waitForPing")), calls)
      | (none, calls) =>
        match s.sendPing round with
        | (some err, calls') =>
          (some (some (GoError.Wrap err "sendPing")),
            calls ++ PingCall.Debug "Got ping" :: calls')
        | (none, calls') =>
          ((AcceptPings s rest).1,
            calls ++ PingCall.Debug "Got ping" :: calls' ++
              PingCall.Debug "Responded to ping" :: (AcceptPings s rest).2)

end Pinger

/-- An iteration in which the timer or `default` case is taken and every operation on the
stream succeeds. -/
def PingRound.succeeds (round : PingRound) : Prop :=
  round.ctxDone = false ∧ round.SetWriteDeadline = none ∧ (round.Write [0x31]).err = none ∧
    round.SetReadDeadline = none ∧ (round.Read 1).err = none

/-! ## Sample streams and rounds -/

/-- Bytes `{invalid_json}` of the test of `ReceiveEvent`. -/
def invalidMsg : List UInt8 := stringBytes "\x7binvalid_json\x7d"

/-- Timeout error of a stream: a `net.Error` whose `Timeout()` is true. -/
def timeoutError : StreamError := ⟨"deadline exceeded", true⟩

/-- Error of a stream that is no timeout. -/
def closedError : StreamError := ⟨"stream closed", false⟩

/-- Send stream that accepts every payload whole. -/
def goodSendStream : List UInt8 → WriteResult := fun p => ⟨p.length, none⟩

/-- Send stream that reports one byte written and no error, whatever the payload. -/
def shortSendStream : List UInt8 → WriteResult := fun _ => ⟨1, none⟩

/-- Round of the mock streams of the pinger tests: everything succeeds with one byte. -/
def goodRound : PingRound := ⟨false, none, fun _ => ⟨1, none⟩, none, fun _ => ⟨[0x31], none⟩⟩

/-- Round in which the context is found cancelled. -/
def doneRound : PingRound := ⟨true, none, fun _ => ⟨1, none⟩, none, fun _ => ⟨[0x31], none⟩⟩

/-- Round whose write times out. -/
def writeTimeoutRound : PingRound :=
  ⟨false, none, fun _ => ⟨0, some timeoutError⟩, none, fun _ => ⟨[0x31], none⟩⟩

/-- Round whose read fails with an error that is no timeout. -/
def readClosedRound : PingRound :=
  ⟨false, none, fun _ => ⟨1, none⟩, none, fun _ => ⟨[], some closedError⟩⟩

/-- Iterations of the corrupt-record scenario: the stream yields `{invalid_json}`, then the
record `exists_subscriber` as the broker writes it. -/
def corruptThenValid : List ListenStep :=
  [⟨false, bytesReader invalidMsg⟩,
    ⟨false, bytesReader (jsonMarshalEvent ⟨CodeExistsSubscriber⟩)⟩]

/-! ## Reading the calls of a ping loop -/

/-- Payloads of the `Write` calls, in order. -/
def pingWrites : List PingCall → List (List UInt8)
  | [] => []
  | PingCall.Write p :: rest => p :: pingWrites rest
  | _ :: rest => pingWrites rest

/-- Buffer lengths of the `Read` calls, in order. -/
def pingReads : List PingCall → List Nat
  | [] => []
  | PingCall.Read size :: rest => size :: pingReads rest
  | _ :: rest => pingReads rest

/-- The `Write` and `Read` calls alone, in order. -/
def pingTransfers : List PingCall → List PingCall
  | [] => []
  | PingCall.Write p :: rest => PingCall.Write p :: pingTransfers rest
  | PingCall.Read size :: rest => PingCall.Read size :: pingTransfers rest
  | _ :: rest => pingTransfers rest

/-! ## Publisher client: message sender (`publisher/internal/app`) -/

/-- Type `MessageSender`, the interval in nanoseconds. Its message provider and logger are
the outside: what the provider returns comes with each tick, the log calls show in the
calls. -/
structure MessageSender where
  sendInterval : Nat

/-- Constructor `NewMessageSender`. -/
def NewMessageSender (sendInterval : Nat) : MessageSender := ⟨sendInterval⟩

/-- What one pass of the `select` of `StartLoop` meets: the context is done, a value arrives
on `sendMessagesCh`, or the timer fires. With a tick come what
`messageProvider.GetMessage()` returns if it is called in this pass and what
`recipient.SendMessageToRecipient` returns for a message if it is called in this pass. -/
inductive SenderEvent where
  | ctxDone
  | toggle (val : Bool)
  | tick (GetMessage : List UInt8 × Option GoError)
      (SendMessageToRecipient : List UInt8 → Option GoError)

/-- One call `StartLoop` makes: on the logger, the provider or the recipient, or a send on
`failCh` (the send blocks until the value is taken). -/
inductive SenderCall where
  | Info (msg : String)
  | GetMessage
  | SendMessageToRecipient (message : List UInt8)
  | failCh (err : GoError)
  deriving DecidableEq

namespace MessageSender

/-- Loop of `StartLoop` with the current value of its variable `send`, over the passes the
outside offers: whether the method has returned (`false` while it is still looping after
the last pass offered), and the calls made, in order. -/
def loop (_s : MessageSender) : Bool → List SenderEvent → Bool × List SenderCall
  | _, [] => (false, [])
  | _, SenderEvent.ctxDone :: _ =>
    (true, [SenderCall.Info "Stopping sending messages, context cancelled"])
  | _, SenderEvent.toggle val :: rest => loop _s val rest
  | send, SenderEvent.tick getMessage sendTo :: rest =>
    if send then
      let message := getMessage.1
      let provided : List SenderCall :=
        match getMessage.2 with
        | some err =>
          [SenderCall.GetMessage,
            SenderCall.failCh (GoError.Wrap err "get message from provider")]
        | none => [SenderCall.GetMessage]
      match sendTo message with
      | some err =>
        (true, provided ++ [SenderCall.SendMessageToRecipient message,
          SenderCall.failCh (GoError.Wrap err "send message to recipient")])
      | none =>
        ((loop _s send rest).1,
          provided ++ SenderCall.SendMessageToRecipient message :: (loop _s send rest).2)
    else loop _s send rest

/-- Method `MessageSender.StartLoop`: the loop entered with `send := false`. -/
def StartLoop (s : MessageSender) (events : List SenderEvent) : Bool × List SenderCall :=
  s.loop false events

end MessageSender

/-- Messages handed to `SendMessageToRecipient`, in order. -/
def sentToRecipient : List SenderCall → List (List UInt8)
  | [] => []
  | SenderCall.SendMessageToRecipient message :: rest => message :: sentToRecipient rest
  | _ :: rest => sentToRecipient rest

/-- Errors sent on `failCh`, in order. -/
def sentOnFailCh : List SenderCall → List GoError
  | [] => []
  | SenderCall.failCh err :: rest => err :: sentOnFailCh rest
  | _ :: rest => sentOnFailCh rest

/-- Value of the variable `send` after the given passes when it was `send` before them: the
value received last on `sendMessagesCh`, or `send` itself when none was received. -/
def sendAfter (send : Bool) : List SenderEvent → Bool
  | [] => send
  | SenderEvent.toggle val :: rest => sendAfter val rest
  | _ :: rest => sendAfter send rest

/-- Most recent value received on `sendMessagesCh` in the passes; `false`, the value
`StartLoop` starts with, when none was received. -/
def mostRecentToggle (events : List SenderEvent) : Bool := sendAfter false events

/-- Passes of the sender test where sending is turned on, two ticks go by, sending is turned
off and one more tick goes by; the provider gives `foo` and the recipient accepts it. -/
def toggledRun : List SenderEvent :=
  [SenderEvent.tick (messageFoo, none) (fun _ => none),
    SenderEvent.toggle true,
    SenderEvent.tick (messageFoo, none) (fun _ => none),
    SenderEvent.tick (messageFoo, none) (fun _ => none),
    SenderEvent.toggle false]

/-- Error of a provider or a recipient, a library error that is no timeout. -/
def brokenError : GoError := GoError.stream ⟨"stream closed", false⟩

/-! ## Broker: listeners and sessions (`quic_pub_server.go`, `quic_sub_server.go`) -/

/-- What one pass of a listener loop meets: whether `ctx.Done()` is ready at the `select`,
the error of `listener.Accept(ctx)` (`none` when it returns a connection) and the error of
`connectionPool.Submit` (`none` when the pool takes the task). Errors of the QUIC listener
and of the worker pool are the libraries' own, like those of a stream. -/
structure AcceptRound where
  ctxDone : Bool
  Accept : Option StreamError
  Submit : Option StreamError

/-- One call a listener or a session task makes on the server's logger, the listener or
the worker pool. -/
inductive ServerCall where
  | Debug (msg : String)
  | Info (msg : String)
  | Warn (msg : String)
  | Error (msg : String)
  | Accept
  | Submit
  deriving DecidableEq

/-- Number of `Accept` calls. -/
def acceptCalls : List ServerCall → Nat
  | [] => 0
  | ServerCall.Accept :: rest => acceptCalls rest + 1
  | _ :: rest => acceptCalls rest

/-- An error of `server/internal/app`, of which the embedding keeps the text. -/
def appError (text : String) : GoError := GoError.Errorf text

/-- What a task of a session leaves behind: the observer, the observer methods it called
(in order), the calls the observer made on peers and on its logger, the calls on the
server's logger, and whether the task called `cancel()`. -/
structure SessionOutcome where
  observer : Observer
  observerCalls : List ObserverCall
  calls : List Call
  logs : List ServerCall
  cancel : Bool

/-- What one pass of the loop of `receiveMessages` meets: whether `ctx.Done()` is ready at
the `select`, and what the `Read` of this pass returns for a buffer of the given length. -/
structure IngestRound where
  ctxDone : Bool
  Read : Nat → ReadResult

/-- What `receiveMessage` and `receiveMessages` leave behind: for `receiveMessages`,
`result` is `some err` when the method returns `err` and `none` when it is still looping
after the last pass offered; `messages` are the arguments of the `OnPublisherMessage`
calls, `calls` what the observer called. -/
structure IngestOutcome where
  result : Option (Option GoError)
  observer : Observer
  messages : List (List UInt8)
  calls : List Call

namespace QUICPubServer

/-- Loop of `AcceptPublishers`; the task handed to `Submit` runs `processConnection` and
only logs its error. The result is read as for the other loops. -/
def acceptLoop : List AcceptRound → Option (Option GoError) × List ServerCall
  | [] => (none, [])
  | round :: rest =>
    if round.ctxDone then
      (some none,
        [ServerCall.Info "Stopping accepting publisher connections, context cancelled"])
    else
      match round.Accept with
      | some err =>
        (some (some (GoError.Wrap (GoError.stream err) "listener.Accept")),
          [ServerCall.Info "Waiting for publisher connections", ServerCall.Accept])
      | none =>
        match round.Submit with
        | some err =>
          (some (some (GoError.Wrap (GoError.stream err) "connectionPool.Submit")),
            [ServerCall.Info "Waiting for publisher connections", ServerCall.Accept,
              ServerCall.Info "Got a publisher connection", ServerCall.Submit])
        | none =>
          ((acceptLoop rest).1,
            ServerCall.Info "Waiting for publisher connections" :: ServerCall.Accept ::
              ServerCall.Info "Got a publisher connection" :: ServerCall.Submit ::
              (acceptLoop rest).2)

/-- Method `QUICPubServer.AcceptPublishers`, given the error of `quic.ListenAddr` (`none`
when the listener opens) and the passes of the loop. -/
def AcceptPublishers (ListenAddr : Option StreamError) (rounds : List AcceptRound) :
    Option (Option GoError) × List ServerCall :=
  match ListenAddr with
  | some err => (some (some (GoError.Wrap (GoError.stream err) "quic.ListenAddr")), [])
  | none => acceptLoop rounds

/-- Task of `processConnection` that builds the adapter and tells the observer, from the
point where the send stream has arrived; `publisher` is the adapter
`NewQUICPublisherConn(stream)` as the observer sees it. -/
def connectTask (o : Observer) (publisher : Publisher) : SessionOutcome :=
  match o.OnPublisherConnected publisher with
  | ⟨some _, observer, calls⟩ =>
    ⟨observer, [ObserverCall.OnPublisherConnected publisher], calls,
      [ServerCall.Info "Publisher send stream is available",
        ServerCall.Info "Publisher created",
        ServerCall.Error "Failure in OnPublisherConnected"], true⟩
  | ⟨none, observer, calls⟩ =>
    ⟨observer, [ObserverCall.OnPublisherConnected publisher], calls,
      [ServerCall.Info "Publisher send stream is available",
        ServerCall.Info "Publisher created"], false⟩

/-- Method `QUICPubServer.monitorDoneContext` once `ctx.Done()` is ready; `publisher` is its
parameter, `none` for a `nil` pointer. -/
def monitorDoneContext (o : Observer) (publisher : Option Publisher) : SessionOutcome :=
  match publisher with
  | some p =>
    ⟨(o.OnPublisherDisconnected p).observer, [ObserverCall.OnPublisherDisconnected p],
      (o.OnPublisherDisconnected p).calls, [], false⟩
  | none => ⟨o, [], [], [], false⟩

/-- Value that `go s.monitorDoneContext(ctx, publisher)` hands to the watcher. Go evaluates
the arguments of a `go` statement when the statement runs, so the watcher gets the value
the variable `publisher` has at that moment: the adapter if the connect task has assigned
it already, `nil` if it has not, and a later assignment does not reach the watcher. -/
def watcherArgument (construction : Option (Publisher × Bool)) : Option Publisher :=
  match construction with
  | some (publisher, true) => some publisher
  | _ => none

/-- Session set up by `processConnection`, followed through the tasks that touch the
observer until the context is cancelled and the watcher has run. `construction` is `none`
when the send stream never arrives, so no adapter is built, and `some (publisher, early)`
when the connect task builds `publisher`; `early` says whether it assigns the variable
before `processConnection` reaches `go s.monitorDoneContext(ctx, publisher)`. -/
def sessionUntilCancelled (o : Observer) (construction : Option (Publisher × Bool)) :
    SessionOutcome :=
  match construction with
  | none => monitorDoneContext o (watcherArgument construction)
  | some (publisher, _) =>
    let connected := connectTask o publisher
    let watched := monitorDoneContext connected.observer (watcherArgument construction)
    ⟨watched.observer, connected.observerCalls ++ watched.observerCalls,
      connected.calls ++ watched.calls, connected.logs ++ watched.logs, connected.cancel⟩

/-- Method `QUICPubServer.receiveMessage`, with `MaxMessageBytes` of the configuration. The
buffer has `MaxMessageBytes` bytes, so `msg[0:n]` holds no more than that. -/
def receiveMessage (MaxMessageBytes : Nat) (o : Observer) (stream : Nat → ReadResult) :
    IngestOutcome :=
  let r := stream MaxMessageBytes
  match r.err with
  | some err => ⟨some (some (GoError.Wrap (GoError.stream err) "stream.Read")), o, [], []⟩
  | none =>
    let msg := r.data.take MaxMessageBytes
    match o.OnPublisherMessage msg with
    | ⟨some err, observer, calls⟩ =>
      ⟨some (some (GoError.Wrap (appError err) "OnPublisherMessage")), observer, [msg], calls⟩
    | ⟨none, observer, calls⟩ => ⟨some none, observer, [msg], calls⟩

/-- Loop of `receiveMessages`. -/
def receiveLoop (MaxMessageBytes : Nat) : Observer → List IngestRound → IngestOutcome
  | o, [] => ⟨none, o, [], []⟩
  | o, round :: rest =>
    if round.ctxDone then ⟨some none, o, [], []⟩
    else
      match receiveMessage MaxMessageBytes o round.Read with
      | ⟨some (some err), observer, messages, calls⟩ =>
        ⟨some (some (GoError.Wrap err "receiveMessage")), observer, messages, calls⟩
      | ⟨_, observer, messages, calls⟩ =>
        ⟨(receiveLoop MaxMessageBytes observer rest).result,
          (receiveLoop MaxMessageBytes observer rest).observer,
          messages ++ (receiveLoop MaxMessageBytes observer rest).messages,
          calls ++ (receiveLoop MaxMessageBytes observer rest).calls⟩

/-- Method `QUICPubServer.receiveMessages`, given the error of
`stream.SetReadDeadline(time.Time{})` and the passes of the loop. -/
def receiveMessages (MaxMessageBytes : Nat) (o : Observer)
    (SetReadDeadline : Option StreamError) (rounds : List IngestRound) : IngestOutcome :=
  match SetReadDeadline with
  | some err => ⟨some (some (GoError.Wrap (GoError.stream err) "SetReadDeadline")), o, [], []⟩
  | none => receiveLoop MaxMessageBytes o rounds

/-- Task of `processConnection` that runs `receiveMessages`: whether it calls `cancel()`,
which it does exactly when `receiveMessages` returns an error. -/
def ingestTaskCancels (MaxMessageBytes : Nat) (o : Observer)
    (SetReadDeadline : Option StreamError) (rounds : List IngestRound) : Bool :=
  match (receiveMessages MaxMessageBytes o SetReadDeadline rounds).result with
  | some (some _) => true
  | _ => false

end QUICPubServer

namespace QUICSubServer

/-- Loop of `AcceptSubscribers`; the task handed to `Submit` runs `processConnection` and
only logs its error. -/
def acceptLoop : List AcceptRound → Option (Option GoError) × List ServerCall
  | [] => (none, [])
  | round :: rest =>
    if round.ctxDone then
      (some none,
        [ServerCall.Info "Stopping accepting subscriber connections, context cancelled"])
    else
      match round.Accept with
      | some err =>
        (some (some (GoError.Wrap (GoError.stream err) "listener.Accept")),
          [ServerCall.Info "Waiting for a subscriber connection", ServerCall.Accept])
      | none =>
        match round.Submit with
        | some err =>
          (some (some (GoError.Wrap (GoError.stream err) "connectionPool.Submit")),
            [ServerCall.Info "Waiting for a subscriber connection", ServerCall.Accept,
              ServerCall.Info "Got a subscriber connection", ServerCall.Submit])
        | none =>
          ((acceptLoop rest).1,
            ServerCall.Info "Waiting for a subscriber connection" :: ServerCall.Accept ::
              ServerCall.Info "Got a subscriber connection" :: ServerCall.Submit ::
              (acceptLoop rest).2)

/-- Method `QUICSubServer.AcceptSubscribers`, given the error of `quic.ListenAddr` and the
passes of the loop. -/
def AcceptSubscribers (ListenAddr : Option StreamError) (rounds : List AcceptRound) :
    Option (Option GoError) × List ServerCall :=
  match ListenAddr with
  | some err => (some (some (GoError.Wrap (GoError.stream err) "quic.ListenAddr")), [])
  | none => acceptLoop rounds

/-- Task of `processConnection` that builds the adapter and tells the observer, from the
point where the send stream has arrived; `subscriber` is the adapter
`NewQUICSubscriberConn(sendStream)` as the observer sees it. -/
def connectTask (o : Observer) (subscriber : Subscriber) : SessionOutcome :=
  match o.OnSubscriberConnected subscriber with
  | ⟨some _, observer, calls⟩ =>
    ⟨observer, [ObserverCall.OnSubscriberConnected subscriber], calls,
      [ServerCall.Info "Subscriber send stream is available",
        ServerCall.Info "Subscriber created",
        ServerCall.Warn "OnSubscriberConnected"], true⟩
  | ⟨none, observer, calls⟩ =>
    ⟨observer, [ObserverCall.OnSubscriberConnected subscriber], calls,
      [ServerCall.Info "Subscriber send stream is available",
        ServerCall.Info "Subscriber created"], false⟩

/-- Watcher of `processConnection` once `ctx.Done()` is ready. It is a closure over the
variable `subscriber`, so it sees the adapter whenever the connect task has built one;
`subscriber` is the value of the variable at that time, `none` for `nil`. -/
def watcher (o : Observer) (subscriber : Option Subscriber) : SessionOutcome :=
  match subscriber with
  | some sub =>
    match o.OnSubscriberDisconnected sub with
    | ⟨some _, observer, calls⟩ =>
      ⟨observer, [ObserverCall.OnSubscriberDisconnected sub], calls,
        [ServerCall.Error "OnSubscriberDisconnected"], false⟩
    | ⟨none, observer, calls⟩ =>
      ⟨observer, [ObserverCall.OnSubscriberDisconnected sub], calls, [], false⟩
  | none => ⟨o, [], [], [], false⟩

end QUICSubServer

/-! ## Sample rounds of the broker -/

/-- Error of a worker pool that takes no more tasks. -/
def poolOverload : StreamError :=
  ⟨"too many goroutines blocked on submit or Nonblocking is set", false⟩

/-- Pass in which a connection arrives and the pool takes the task. -/
def servedRound : AcceptRound := ⟨false, none, none⟩

/-- Pass in which a connection arrives and the pool refuses the task. -/
def saturatedRound : AcceptRound := ⟨false, none, some poolOverload⟩

/-- A pass of a listener loop in which a connection arrives and the pool takes the task. -/
def AcceptRound.served (round : AcceptRound) : Prop :=
  round.ctxDone = false ∧ round.Accept = none ∧ round.Submit = none

/-- A pass of the loop of `receiveMessages` in which the context is not done and the read
into a buffer of `MaxMessageBytes` bytes succeeds. -/
def IngestRound.reads (MaxMessageBytes : Nat) (round : IngestRound) : Prop :=
  round.ctxDone = false ∧ (round.Read MaxMessageBytes).err = none

/-! ## `SendPings` on a clock -/

/-- What one pass of the loop of `SendPings` meets when time is kept, in nanoseconds: what
the operations on the stream return in this pass, how long after it is due the timer
`time.After(s.config.Interval)` delivers (`late`), how long the body of the timer case takes
until the loop is back at its `select` (`took`: the stream operations and the logging), and
which case the `select` takes when the timer and `ctx.Done()` become ready at the same
instant. -/
structure ClockedPass where
  SetWriteDeadline : Option StreamError
  Write : List UInt8 → WriteResult
  SetReadDeadline : Option StreamError
  Read : Nat → ReadResult
  late : Nat
  took : Nat
  doneOnTie : Bool

/-- Case that `select { case <-ctx.Done(): … case <-time.After(interval): … }` takes when
it is entered at time `now` under a context that is cancelled at time `deadline`: the timer
delivers at `now + interval + late`; `ctx.Done()` is taken when the deadline comes first,
the timer case when the timer comes first, and either of them on a tie. -/
def selectsDone (interval deadline now late : Nat) (doneOnTie : Bool) : Bool :=
  decide (deadline < now + interval + late)
    || (decide (deadline = now + interval + late) && doneOnTie)

/-- The pass as an iteration of the loop, by the case that its `select` takes. -/
def ClockedPass.round (pass : ClockedPass) (ctxDone : Bool) : PingRound :=
  ⟨ctxDone, pass.SetWriteDeadline, pass.Write, pass.SetReadDeadline, pass.Read⟩

/-- All four operations on the stream succeed in this pass. -/
def ClockedPass.succeeds (pass : ClockedPass) : Prop :=
  pass.SetWriteDeadline = none ∧ (pass.Write [0x31]).err = none ∧
    pass.SetReadDeadline = none ∧ (pass.Read 1).err = none

/-- Iterations of the loop of `SendPings` from time `now` on, under a context cancelled at
time `deadline`: each pass starts a new timer of `interval`; the pass after a timer case
starts when the timer has delivered and the body has run. -/
def clockedRounds (interval deadline : Nat) : Nat → List ClockedPass → List PingRound
  | _, [] => []
  | now, pass :: rest =>
    if selectsDone interval deadline now pass.late pass.doneOnTie then
      [pass.round true]
    else
      pass.round false
        :: clockedRounds interval deadline (now + interval + pass.late + pass.took) rest

/-- Call `SendPings(ctx, stream)` with `ctx` of `context.WithTimeout(…, timeout)`, entered at
time 0, the instant the context is made: the timers run for `s.config.Interval`. -/
def Pinger.SendPingsWithTimeout (s : Pinger) (timeout : Nat) (passes : List ClockedPass) :
    Option (Option GoError) × List PingCall :=
  s.SendPings (clockedRounds s.config.Interval timeout 0 passes)

/-- Configuration of the pinger of `TestPinger`: an interval of 50 ms, a timeout of 1 s. -/
def testPingerConfig : PingerConfig := ⟨50 * 1000000, 1000000000⟩

/-- Pass on `MockStreamForSendingPings`, whose operations return at once: every operation
succeeds, the timer is on time and the body takes no time. -/
def mockPass (doneOnTie : Bool) : ClockedPass :=
  ⟨none, fun _ => ⟨1, none⟩, none, fun _ => ⟨[0x31], none⟩, 0, 0, doneOnTie⟩

/-- Pass on a stream whose operations succeed and whose peer answers a ping after 50 ms,
well within the timeout of 1 s. -/
def slowPass : ClockedPass :=
  ⟨none, fun _ => ⟨1, none⟩, none, fun _ => ⟨[0x31], none⟩, 0, 50 * 1000000, false⟩

/-! ## Lemmas on slices and `sync.Map` -/

theorem Slice.toList_append {α : Type} (s : Slice α) (x : α) :
    (s.append x).toList = s.toList ++ [x] := by
  cases s <;> rfl

theorem Slice.append_ne_nil {α : Type} (s : Slice α) (x : α) : s.append x ≠ Slice.nil := by
  cases s <;> simp [Slice.append]

/-- Collecting loop of `GetAll`: the values are appended to the slice in entry order. -/
theorem SyncMap.rangeLoop_collect_toList {α : Type} (es : List (String × α)) (acc : Slice α) :
    (SyncMap.rangeLoop (fun _ v (out : Slice α) => (out.append v, true)) es acc).toList
      = acc.toList ++ es.map Prod.snd := by
  induction es generalizing acc with
  | nil => simp [SyncMap.rangeLoop]
  | cons e rest ih =>
    obtain ⟨k, v⟩ := e
    simp [SyncMap.rangeLoop, ih, Slice.toList_append]

/-- Collecting loop of `GetAll`: started on a non-nil slice it ends on a non-nil slice. -/
theorem SyncMap.rangeLoop_collect_ne_nil {α : Type} (es : List (String × α)) (acc : Slice α)
    (h : acc ≠ Slice.nil) :
    SyncMap.rangeLoop (fun _ v (out : Slice α) => (out.append v, true)) es acc ≠ Slice.nil := by
  induction es generalizing acc with
  | nil => simpa [SyncMap.rangeLoop] using h
  | cons e rest ih =>
    obtain ⟨k, v⟩ := e
    simp only [SyncMap.rangeLoop]
    exact ih _ (Slice.append_ne_nil acc v)

theorem PublisherPool.GetAll_toList_publisher (p : PublisherPool) :
    p.GetAll.toList = p.publishers.entries.map Prod.snd := by
  unfold PublisherPool.GetAll SyncMap.Range
  rw [SyncMap.rangeLoop_collect_toList]
  rfl

theorem SubscriberPool.GetAll_toList_subscriber (p : SubscriberPool) :
    p.GetAll.toList = p.subscribers.entries.map Prod.snd := by
  unfold SubscriberPool.GetAll SyncMap.Range
  rw [SyncMap.rangeLoop_collect_toList]
  rfl

theorem SubscriberPool.IsEmpty_iff (p : SubscriberPool) :
    p.IsEmpty = true ↔ p.subscribers.entries = [] := by
  obtain ⟨⟨es⟩⟩ := p
  cases es with
  | nil => simp [SubscriberPool.IsEmpty, SyncMap.Range, SyncMap.rangeLoop]
  | cons e rest =>
    obtain ⟨k, v⟩ := e
    simp [SubscriberPool.IsEmpty, SyncMap.Range, SyncMap.rangeLoop]

theorem SyncMap.Load_eq_none_iff {α : Type} (m : SyncMap α) (key : String) :
    m.Load key = none ↔ key ∉ m.entries.map Prod.fst := by
  obtain ⟨es⟩ := m
  induction es with
  | nil => simp [SyncMap.Load, List.lookup]
  | cons e rest ih =>
    obtain ⟨k, v⟩ := e
    simp only [SyncMap.Load] at ih
    by_cases hk : key = k
    · subst hk
      simp [SyncMap.Load, List.lookup]
    · have hb : (key == k) = false := by simpa using hk
      simp [SyncMap.Load, List.lookup, hb, ih, hk]

theorem SyncMap.mem_of_Load_eq_some {α : Type} (m : SyncMap α) (key : String) (v : α)
    (h : m.Load key = some v) : (key, v) ∈ m.entries := by
  obtain ⟨es⟩ := m
  induction es with
  | nil => simp [SyncMap.Load, List.lookup] at h
  | cons e rest ih =>
    obtain ⟨k, w⟩ := e
    by_cases hk : key = k
    · subst hk
      simp [SyncMap.Load, List.lookup] at h
      simp [h]
    · have hb : (key == k) = false := by simpa using hk
      simp only [SyncMap.Load, List.lookup, hb] at h
      exact List.mem_cons_of_mem _ (ih h)

/-! ## Pools: `Add` -/

theorem PublisherPool.Add_absent_publisher (pool : PublisherPool) (p : Publisher)
    (h : pool.publishers.Load p.GetID = none) :
    pool.Add p = (none, ⟨⟨pool.publishers.entries ++ [(p.GetID, p)]⟩⟩) := by
  simp [PublisherPool.Add, SyncMap.LoadOrStore, h]

theorem PublisherPool.Add_present_publisher (pool : PublisherPool) (p first : Publisher)
    (h : pool.publishers.Load p.GetID = some first) :
    pool.Add p = (some ("publisher by ID '" ++ p.GetID ++ "' exists, not overriding"), pool) := by
  simp [PublisherPool.Add, SyncMap.LoadOrStore, h]

theorem SubscriberPool.Add_absent_subscriber (pool : SubscriberPool) (s : Subscriber)
    (h : pool.subscribers.Load s.GetID = none) :
    pool.Add s = (none, ⟨⟨pool.subscribers.entries ++ [(s.GetID, s)]⟩⟩) := by
  simp [SubscriberPool.Add, SyncMap.LoadOrStore, h]

theorem SubscriberPool.Add_present_subscriber (pool : SubscriberPool) (s first : Subscriber)
    (h : pool.subscribers.Load s.GetID = some first) :
    pool.Add s = (some ("subscriber by ID '" ++ s.GetID ++ "' exists, not overriding"), pool) := by
  simp [SubscriberPool.Add, SyncMap.LoadOrStore, h]

/-! ## Pools: the representation invariant -/

theorem SyncMap.Valid_empty {α : Type} (getID : α → String) :
    (⟨[]⟩ : SyncMap α).Valid getID := by
  simp [SyncMap.Valid]

theorem SyncMap.Valid_store {α : Type} (getID : α → String) (m : SyncMap α) (v : α)
    (hm : m.Valid getID) (habs : m.Load (getID v) = none) :
    (⟨m.entries ++ [(getID v, v)]⟩ : SyncMap α).Valid getID := by
  obtain ⟨hnd, hid⟩ := hm
  rw [SyncMap.Load_eq_none_iff] at habs
  refine ⟨?_, ?_⟩
  · simp only [List.map_append, List.map_cons, List.map_nil]
    refine List.Nodup.append hnd (List.nodup_singleton _) ?_
    intro k hk hk'
    simp only [List.mem_singleton] at hk'
    exact habs (hk' ▸ hk)
  · intro e he
    simp only [List.mem_append, List.mem_singleton] at he
    rcases he with he | he
    · exact hid e he
    · subst he
      rfl

theorem SyncMap.Valid_Delete {α : Type} (getID : α → String) (m : SyncMap α) (key : String)
    (hm : m.Valid getID) : (m.Delete key).Valid getID := by
  obtain ⟨hnd, hid⟩ := hm
  refine ⟨?_, ?_⟩
  · exact hnd.sublist ((List.filter_sublist m.entries).map Prod.fst)
  · intro e he
    exact hid e (List.mem_of_mem_filter he)

theorem SyncMap.Valid_values_nodup {α : Type} (getID : α → String) (m : SyncMap α)
    (hm : m.Valid getID) : (m.entries.map Prod.snd).Nodup := by
  obtain ⟨hnd, hid⟩ := hm
  have hkeys : m.entries.map Prod.fst = (m.entries.map Prod.snd).map getID := by
    rw [List.map_map]
    exact List.map_congr_left (fun e he => hid e he)
  rw [hkeys] at hnd
  exact List.Nodup.of_map getID hnd

theorem SyncMap.Valid_ids_nodup {α : Type} (getID : α → String) (m : SyncMap α)
    (hm : m.Valid getID) : ((m.entries.map Prod.snd).map getID).Nodup := by
  obtain ⟨hnd, hid⟩ := hm
  have hkeys : m.entries.map Prod.fst = (m.entries.map Prod.snd).map getID := by
    rw [List.map_map]
    exact List.map_congr_left (fun e he => hid e he)
  rw [← hkeys]
  exact hnd

theorem SyncMap.Load_eq_some_of_mem {α : Type} (m : SyncMap α) (key : String) (v : α)
    (hnd : (m.entries.map Prod.fst).Nodup) (h : (key, v) ∈ m.entries) :
    m.Load key = some v := by
  obtain ⟨es⟩ := m
  induction es with
  | nil => simp at h
  | cons e rest ih =>
    obtain ⟨k, w⟩ := e
    simp only [List.map_cons, List.nodup_cons] at hnd
    by_cases hk : key = k
    · subst hk
      rcases List.mem_cons.mp h with h | h
      · cases h
        simp [SyncMap.Load, List.lookup]
      · exact absurd (List.mem_map.mpr ⟨(key, v), h, rfl⟩) hnd.1
    · have hb : (key == k) = false := by simpa using hk
      rcases List.mem_cons.mp h with h | h
      · cases h
        exact absurd rfl hk
      · have := ih hnd.2 h
        simpa [SyncMap.Load, List.lookup, hb] using this

theorem PublisherPool.Valid_step_publisher (pool : PublisherPool) (c : PublisherPoolCall)
    (h : pool.Valid) : (pool.step c).Valid := by
  cases c with
  | Add publisher =>
    cases hl : pool.publishers.Load publisher.GetID with
    | none =>
      simp only [PublisherPool.step, PublisherPool.Add_absent_publisher pool publisher hl]
      exact SyncMap.Valid_store Publisher.GetID _ publisher h hl
    | some first =>
      simp only [PublisherPool.step, PublisherPool.Add_present_publisher pool publisher first hl]
      exact h
  | Remove publisherID => exact SyncMap.Valid_Delete Publisher.GetID _ publisherID h

theorem SubscriberPool.Valid_step_subscriber (pool : SubscriberPool) (c : SubscriberPoolCall)
    (h : pool.Valid) : (pool.step c).Valid := by
  cases c with
  | Add subscriber =>
    cases hl : pool.subscribers.Load subscriber.GetID with
    | none =>
      simp only [SubscriberPool.step, SubscriberPool.Add_absent_subscriber pool subscriber hl]
      exact SyncMap.Valid_store Subscriber.GetID _ subscriber h hl
    | some first =>
      simp only [SubscriberPool.step, SubscriberPool.Add_present_subscriber pool subscriber first hl]
      exact h
  | Remove subscriberID => exact SyncMap.Valid_Delete Subscriber.GetID _ subscriberID h

theorem PublisherPool.Valid_foldl_publisher (calls : List PublisherPoolCall) (pool : PublisherPool)
    (h : pool.Valid) : (calls.foldl PublisherPool.step pool).Valid := by
  induction calls generalizing pool with
  | nil => exact h
  | cons c rest ih => exact ih _ (PublisherPool.Valid_step_publisher pool c h)

theorem SubscriberPool.Valid_foldl_subscriber (calls : List SubscriberPoolCall) (pool : SubscriberPool)
    (h : pool.Valid) : (calls.foldl SubscriberPool.step pool).Valid := by
  induction calls generalizing pool with
  | nil => exact h
  | cons c rest ih => exact ih _ (SubscriberPool.Valid_step_subscriber pool c h)

/-- Every publisher pool reached from a fresh one satisfies the representation invariant. -/
theorem PublisherPool.Valid_after_publisher (calls : List PublisherPoolCall) :
    (PublisherPool.after calls).Valid :=
  PublisherPool.Valid_foldl_publisher calls _ (SyncMap.Valid_empty _)

/-- Every subscriber pool reached from a fresh one satisfies the representation invariant. -/
theorem SubscriberPool.Valid_after_subscriber (calls : List SubscriberPoolCall) :
    (SubscriberPool.after calls).Valid :=
  SubscriberPool.Valid_foldl_subscriber calls _ (SyncMap.Valid_empty _)

theorem SyncMap.Valid_Load_of_mem_values {α : Type} (getID : α → String) (m : SyncMap α)
    (v : α) (hm : m.Valid getID) (h : v ∈ m.entries.map Prod.snd) :
    m.Load (getID v) = some v := by
  obtain ⟨e, he, hev⟩ := List.mem_map.mp h
  obtain ⟨k, w⟩ := e
  simp only at hev
  subst hev
  have hk : k = getID w := hm.2 (k, w) he
  subst hk
  exact SyncMap.Load_eq_some_of_mem m _ w hm.1 he

/-! ## Pools: `Remove` -/

theorem SyncMap.Load_Delete_self {α : Type} (m : SyncMap α) (key : String) :
    (m.Delete key).Load key = none := by
  rw [SyncMap.Load_eq_none_iff]
  simp [SyncMap.Delete, List.mem_filter]

theorem SyncMap.Load_Delete_of_ne {α : Type} (m : SyncMap α) (key k : String) (h : k ≠ key) :
    (m.Delete key).Load k = m.Load k := by
  obtain ⟨es⟩ := m
  induction es with
  | nil => rfl
  | cons e rest ih =>
    obtain ⟨k', w⟩ := e
    simp only [SyncMap.Delete, SyncMap.Load] at ih ⊢
    by_cases hk' : k' = key
    · subst hk'
      have hb : (k == k') = false := by simpa using h
      simp [List.filter, List.lookup, hb, ih]
    · have hb : (k' != key) = true := by simpa using hk'
      by_cases hkk : k = k'
      · subst hkk
        simp [List.filter, List.lookup, hb]
      · have hb' : (k == k') = false := by simpa using hkk
        simp [List.filter, List.lookup, hb, hb', ih]

theorem SyncMap.Delete_of_absent {α : Type} (m : SyncMap α) (key : String)
    (h : m.Load key = none) : m.Delete key = m := by
  rw [SyncMap.Load_eq_none_iff] at h
  obtain ⟨es⟩ := m
  simp only [SyncMap.Delete, SyncMap.mk.injEq, List.filter_eq_self]
  intro e he
  have : e.1 ≠ key := fun heq => h (List.mem_map.mpr ⟨e, he, heq⟩)
  simpa using this

theorem SyncMap.Delete_Delete {α : Type} (m : SyncMap α) (key : String) :
    (m.Delete key).Delete key = m.Delete key :=
  SyncMap.Delete_of_absent _ key (SyncMap.Load_Delete_self m key)

/-! ## Observer: what the loops call -/

theorem Observer.existsSubscriberCalls_notifyExistsSubscriberLoop (ps : List Publisher) :
    existsSubscriberCalls (Observer.notifyExistsSubscriberLoop ps) = ps := by
  induction ps with
  | nil => rfl
  | cons p rest ih =>
    cases h : p.NotifyExistsSubscriber <;>
      simp [Observer.notifyExistsSubscriberLoop, h, existsSubscriberCalls, ih]

theorem Observer.noSubscribersCalls_notifyExistsSubscriberLoop (ps : List Publisher) :
    noSubscribersCalls (Observer.notifyExistsSubscriberLoop ps) = [] := by
  induction ps with
  | nil => rfl
  | cons p rest ih =>
    cases h : p.NotifyExistsSubscriber <;>
      simp [Observer.notifyExistsSubscriberLoop, h, noSubscribersCalls, ih]

theorem Observer.sendMessageCalls_notifyExistsSubscriberLoop (ps : List Publisher) :
    sendMessageCalls (Observer.notifyExistsSubscriberLoop ps) = [] := by
  induction ps with
  | nil => rfl
  | cons p rest ih =>
    cases h : p.NotifyExistsSubscriber <;>
      simp [Observer.notifyExistsSubscriberLoop, h, sendMessageCalls, ih]

theorem Observer.sendMessageCalls_sendMessageLoop (m : List UInt8) (ss : List Subscriber) :
    sendMessageCalls (Observer.sendMessageLoop m ss) = ss.map (fun s => (s, m)) := by
  induction ss with
  | nil => rfl
  | cons s rest ih =>
    cases h : s.SendMessageToSubscriber m <;>
      simp [Observer.sendMessageLoop, h, sendMessageCalls, ih]

theorem Observer.existsSubscriberCalls_sendMessageLoop (m : List UInt8) (ss : List Subscriber) :
    existsSubscriberCalls (Observer.sendMessageLoop m ss) = [] := by
  induction ss with
  | nil => rfl
  | cons s rest ih =>
    cases h : s.SendMessageToSubscriber m <;>
      simp [Observer.sendMessageLoop, h, existsSubscriberCalls, ih]

theorem Observer.noSubscribersCalls_sendMessageLoop (m : List UInt8) (ss : List Subscriber) :
    noSubscribersCalls (Observer.sendMessageLoop m ss) = [] := by
  induction ss with
  | nil => rfl
  | cons s rest ih =>
    cases h : s.SendMessageToSubscriber m <;>
      simp [Observer.sendMessageLoop, h, noSubscribersCalls, ih]

/-! ## The claims -/

/-- C1. For both pools, every pool state and every peer: when no entry is stored under the
peer's id, `Add` returns `nil` and `GetAll` afterwards holds the previous peers plus the new
one; when an entry `first` is stored under that id, `Add` returns a non-nil error (the one
that says the id exists and is not overridden), the pool is unchanged, `first` is still
stored under the id and returned by `GetAll`, and the rejected
peer, being another peer than `first`, is not returned by `GetAll`. -/
theorem C1_add_inserts_iff_id_absent (pp : PublisherPool) (p : Publisher)
    (sp : SubscriberPool) (s : Subscriber) :
    (pp.publishers.Load p.GetID = none →
      (pp.Add p).1 = none ∧ (pp.Add p).2.GetAll.toList.Perm (p :: pp.GetAll.toList)) ∧
    (∀ first, pp.publishers.Load p.GetID = some first →
      (pp.Add p).1 ≠ none ∧
      (pp.Add p).1 = some ("publisher by ID '" ++ p.GetID ++ "' exists, not overriding") ∧
      (pp.Add p).2 = pp ∧
      (pp.Add p).2.publishers.Load p.GetID = some first ∧
      first ∈ (pp.Add p).2.GetAll.toList ∧
      (pp.Valid → p ≠ first → p ∉ (pp.Add p).2.GetAll.toList)) ∧
    (sp.subscribers.Load s.GetID = none →
      (sp.Add s).1 = none ∧ (sp.Add s).2.GetAll.toList.Perm (s :: sp.GetAll.toList)) ∧
    (∀ first, sp.subscribers.Load s.GetID = some first →
      (sp.Add s).1 ≠ none ∧
      (sp.Add s).1 = some ("subscriber by ID '" ++ s.GetID ++ "' exists, not overriding") ∧
      (sp.Add s).2 = sp ∧
      (sp.Add s).2.subscribers.Load s.GetID = some first ∧
      first ∈ (sp.Add s).2.GetAll.toList ∧
      (sp.Valid → s ≠ first → s ∉ (sp.Add s).2.GetAll.toList)) := by
  refine ⟨?_, ?_, ?_, ?_⟩
  · intro h
    rw [PublisherPool.Add_absent_publisher pp p h]
    refine ⟨rfl, ?_⟩
    simp only [PublisherPool.GetAll_toList_publisher, List.map_append, List.map_cons, List.map_nil]
    exact List.perm_append_singleton p _
  · intro first h
    rw [PublisherPool.Add_present_publisher pp p first h]
    refine ⟨by simp, rfl, rfl, h, ?_, ?_⟩
    · rw [PublisherPool.GetAll_toList_publisher]
      exact List.mem_map.mpr ⟨(p.GetID, first), SyncMap.mem_of_Load_eq_some _ _ _ h, rfl⟩
    · intro hv hne hmem
      rw [PublisherPool.GetAll_toList_publisher] at hmem
      have := SyncMap.Valid_Load_of_mem_values Publisher.GetID _ p hv hmem
      rw [h] at this
      exact hne (Option.some.inj this).symm
  · intro h
    rw [SubscriberPool.Add_absent_subscriber sp s h]
    refine ⟨rfl, ?_⟩
    simp only [SubscriberPool.GetAll_toList_subscriber, List.map_append, List.map_cons, List.map_nil]
    exact List.perm_append_singleton s _
  · intro first h
    rw [SubscriberPool.Add_present_subscriber sp s first h]
    refine ⟨by simp, rfl, rfl, h, ?_, ?_⟩
    · rw [SubscriberPool.GetAll_toList_subscriber]
      exact List.mem_map.mpr ⟨(s.GetID, first), SyncMap.mem_of_Load_eq_some _ _ _ h, rfl⟩
    · intro hv hne hmem
      rw [SubscriberPool.GetAll_toList_subscriber] at hmem
      have := SyncMap.Valid_Load_of_mem_values Subscriber.GetID _ s hv hmem
      rw [h] at this
      exact hne (Option.some.inj this).symm

/-- C1 at the pools of the tests: a peer with the fresh id `2` is added, a second peer with
id `1` is rejected and the first one stays. -/
theorem C1_add_inserts_iff_id_absent_witness :
    ((publisherPool1.Add mockPublisher2).1 = none ∧
      (publisherPool1.Add mockPublisher2).2.GetAll.toList.Perm
        (mockPublisher2 :: publisherPool1.GetAll.toList)) ∧
    ((publisherPool1.Add mockPublisher1Dup).1 ≠ none ∧
      (publisherPool1.Add mockPublisher1Dup).2 = publisherPool1 ∧
      mockPublisher1 ∈ (publisherPool1.Add mockPublisher1Dup).2.GetAll.toList ∧
      mockPublisher1Dup ∉ (publisherPool1.Add mockPublisher1Dup).2.GetAll.toList) ∧
    ((subscriberPool1.Add mockSubscriber2).1 = none ∧
      (subscriberPool1.Add mockSubscriber2).2.GetAll.toList.Perm
        (mockSubscriber2 :: subscriberPool1.GetAll.toList)) ∧
    ((subscriberPool1.Add mockSubscriber1Dup).1 ≠ none ∧
      (subscriberPool1.Add mockSubscriber1Dup).2 = subscriberPool1 ∧
      mockSubscriber1 ∈ (subscriberPool1.Add mockSubscriber1Dup).2.GetAll.toList ∧
      mockSubscriber1Dup ∉ (subscriberPool1.Add mockSubscriber1Dup).2.GetAll.toList) := by
  have hp := C1_add_inserts_iff_id_absent publisherPool1 mockPublisher2 subscriberPool1
    mockSubscriber2
  have hd := C1_add_inserts_iff_id_absent publisherPool1 mockPublisher1Dup subscriberPool1
    mockSubscriber1Dup
  have hpv : publisherPool1.Valid := PublisherPool.Valid_after_publisher [PublisherPoolCall.Add mockPublisher1]
  have hsv : subscriberPool1.Valid :=
    SubscriberPool.Valid_after_subscriber [SubscriberPoolCall.Add mockSubscriber1]
  have hsne : mockSubscriber1Dup ≠ mockSubscriber1 := by
    intro h
    have := congrArg (fun x => x.SendMessageToSubscriber []) h
    simp [mockSubscriber1Dup, mockSubscriber1] at this
  obtain ⟨h1, _, h2, _, h4, h5⟩ := hd.2.1 mockPublisher1 (by decide)
  obtain ⟨g1, _, g2, _, g4, g5⟩ := hd.2.2.2 mockSubscriber1 rfl
  exact ⟨hp.1 (by decide), ⟨h1, h2, h4, h5 hpv (by decide)⟩, hp.2.2.1 rfl,
    ⟨g1, g2, g4, g5 hsv hsne⟩⟩

theorem SyncMap.mem_Delete {α : Type} (m : SyncMap α) (key : String) (e : String × α) :
    e ∈ (m.Delete key).entries ↔ e ∈ m.entries ∧ e.1 ≠ key := by
  simp [SyncMap.Delete, List.mem_filter]

theorem SyncMap.forall_Load_eq_none_iff {α : Type} (m : SyncMap α) :
    (∀ key, m.Load key = none) ↔ m.entries = [] := by
  obtain ⟨es⟩ := m
  cases es with
  | nil => simp [SyncMap.Load, List.lookup]
  | cons e rest =>
    obtain ⟨k, v⟩ := e
    simp only [reduceCtorEq, iff_false, not_forall]
    exact ⟨k, by simp [SyncMap.Load, List.lookup]⟩

/-- C2. For both pools, every pool state and every id: after `Remove(id)` no entry is stored
under `id`, every other id holds what it held before and the entries left are exactly the
previous ones stored under another id; `Remove` of an absent id leaves the pool unchanged;
and a second `Remove(id)` changes nothing. -/
theorem C2_remove_deletes_only_that_id (pp : PublisherPool) (sp : SubscriberPool)
    (id : String) :
    ((pp.Remove id).publishers.Load id = none ∧
      (∀ k, k ≠ id → (pp.Remove id).publishers.Load k = pp.publishers.Load k) ∧
      (∀ e, e ∈ (pp.Remove id).publishers.entries ↔ e ∈ pp.publishers.entries ∧ e.1 ≠ id) ∧
      (pp.Remove id).GetAll.toList.Sublist pp.GetAll.toList ∧
      (pp.publishers.Load id = none → pp.Remove id = pp) ∧
      (pp.Remove id).Remove id = pp.Remove id) ∧
    ((sp.Remove id).subscribers.Load id = none ∧
      (∀ k, k ≠ id → (sp.Remove id).subscribers.Load k = sp.subscribers.Load k) ∧
      (∀ e, e ∈ (sp.Remove id).subscribers.entries ↔ e ∈ sp.subscribers.entries ∧ e.1 ≠ id) ∧
      (sp.Remove id).GetAll.toList.Sublist sp.GetAll.toList ∧
      (sp.subscribers.Load id = none → sp.Remove id = sp) ∧
      (sp.Remove id).Remove id = sp.Remove id) := by
  refine ⟨⟨?_, ?_, ?_, ?_, ?_, ?_⟩, ⟨?_, ?_, ?_, ?_, ?_, ?_⟩⟩
  · exact SyncMap.Load_Delete_self _ id
  · intro k hk
    exact SyncMap.Load_Delete_of_ne _ id k hk
  · intro e
    exact SyncMap.mem_Delete _ id e
  · rw [PublisherPool.GetAll_toList_publisher, PublisherPool.GetAll_toList_publisher]
    exact (List.filter_sublist _).map Prod.snd
  · intro h
    simp only [PublisherPool.Remove, SyncMap.Delete_of_absent _ id h]
  · simp only [PublisherPool.Remove, SyncMap.Delete_Delete]
  · exact SyncMap.Load_Delete_self _ id
  · intro k hk
    exact SyncMap.Load_Delete_of_ne _ id k hk
  · intro e
    exact SyncMap.mem_Delete _ id e
  · rw [SubscriberPool.GetAll_toList_subscriber, SubscriberPool.GetAll_toList_subscriber]
    exact (List.filter_sublist _).map Prod.snd
  · intro h
    simp only [SubscriberPool.Remove, SyncMap.Delete_of_absent _ id h]
  · simp only [SubscriberPool.Remove, SyncMap.Delete_Delete]

/-- C2 at the pools holding the peers `1` and `2`: `Remove` of the absent id `3` leaves both
pools as they were. -/
theorem C2_remove_deletes_only_that_id_witness :
    publisherPool12.Remove "3" = publisherPool12 ∧
      subscriberPool12.Remove "3" = subscriberPool12 :=
  ⟨(C2_remove_deletes_only_that_id publisherPool12 subscriberPool12 "3").1.2.2.2.2.1
      (by decide),
    (C2_remove_deletes_only_that_id publisherPool12 subscriberPool12 "3").2.2.2.2.2.1 rfl⟩

/-- C3. For every finite sequence of `Add` and `Remove` calls on a fresh `SubscriberPool`,
`IsEmpty()` is true exactly when no id is present, and exactly when `GetAll()` has length 0. -/
theorem C3_isEmpty_iff_no_id_present (calls : List SubscriberPoolCall) :
    ((SubscriberPool.after calls).IsEmpty = true ↔
      ∀ id, (SubscriberPool.after calls).subscribers.Load id = none) ∧
    ((SubscriberPool.after calls).IsEmpty = true ↔
      (SubscriberPool.after calls).GetAll.len = 0) := by
  refine ⟨?_, ?_⟩
  · rw [SubscriberPool.IsEmpty_iff, SyncMap.forall_Load_eq_none_iff]
  · rw [SubscriberPool.IsEmpty_iff, Slice.len, SubscriberPool.GetAll_toList_subscriber]
    simp

theorem SyncMap.rangeLoop_collect_isNil {α : Type} (es : List (String × α)) :
    (SyncMap.rangeLoop (fun _ v (out : Slice α) => (out.append v, true)) es Slice.nil).isNil
      = true ↔ es = [] := by
  cases es with
  | nil => simp [SyncMap.rangeLoop, Slice.isNil]
  | cons e rest =>
    obtain ⟨k, v⟩ := e
    simp only [SyncMap.rangeLoop, reduceCtorEq, iff_false]
    have h := SyncMap.rangeLoop_collect_ne_nil rest (Slice.nil.append v)
      (Slice.append_ne_nil _ v)
    cases hr : SyncMap.rangeLoop (fun _ v (out : Slice α) => (out.append v, true)) rest
      (Slice.nil.append v) with
    | nil => exact absurd hr h
    | of xs => simp [Slice.isNil]

/-- C4, as stated, fails on fresh pools: `GetAll()` of a pool with no entries is the nil
slice, for the publisher pool and for the subscriber pool. -/
theorem C4_getAll_empty_pool_not_nil_counterexample :
    ¬ (NewPublisherPool.GetAll.len = 0 ∧ NewPublisherPool.GetAll.isNil = false) ∧
    ¬ (NewSubscriberPool.GetAll.len = 0 ∧ NewSubscriberPool.GetAll.isNil = false) := by
  refine ⟨?_, ?_⟩ <;> intro h <;> exact absurd h.2 (by decide)

/-- C4, amended. For both pools, `GetAll()` on a pool with no entries returns a collection of
length 0 with no elements, and that collection is the nil slice; `GetAll()` is the nil slice
exactly when the pool has no entries. -/
theorem C4_getAll_empty_pool_is_empty_nil_slice (pp : PublisherPool) (sp : SubscriberPool) :
    (pp.publishers.entries = [] →
      pp.GetAll.len = 0 ∧ pp.GetAll.toList = [] ∧ pp.GetAll = Slice.nil) ∧
    (pp.GetAll.isNil = true ↔ pp.publishers.entries = []) ∧
    (sp.subscribers.entries = [] →
      sp.GetAll.len = 0 ∧ sp.GetAll.toList = [] ∧ sp.GetAll = Slice.nil) ∧
    (sp.GetAll.isNil = true ↔ sp.subscribers.entries = []) := by
  refine ⟨?_, ?_, ?_, ?_⟩
  · intro h
    refine ⟨?_, ?_, ?_⟩
    · simp [Slice.len, PublisherPool.GetAll_toList_publisher, h]
    · simp [PublisherPool.GetAll_toList_publisher, h]
    · simp [PublisherPool.GetAll, SyncMap.Range, h, SyncMap.rangeLoop]
  · exact SyncMap.rangeLoop_collect_isNil _
  · intro h
    refine ⟨?_, ?_, ?_⟩
    · simp [Slice.len, SubscriberPool.GetAll_toList_subscriber, h]
    · simp [SubscriberPool.GetAll_toList_subscriber, h]
    · simp [SubscriberPool.GetAll, SyncMap.Range, h, SyncMap.rangeLoop]
  · exact SyncMap.rangeLoop_collect_isNil _

/-- C4, amended, at the fresh pools. -/
theorem C4_getAll_empty_pool_is_empty_nil_slice_witness :
    (NewPublisherPool.GetAll.len = 0 ∧ NewPublisherPool.GetAll.toList = [] ∧
      NewPublisherPool.GetAll = Slice.nil) ∧
    (NewSubscriberPool.GetAll.len = 0 ∧ NewSubscriberPool.GetAll.toList = [] ∧
      NewSubscriberPool.GetAll = Slice.nil) :=
  ⟨(C4_getAll_empty_pool_is_empty_nil_slice NewPublisherPool NewSubscriberPool).1 rfl,
    (C4_getAll_empty_pool_is_empty_nil_slice NewPublisherPool NewSubscriberPool).2.2.1 rfl⟩

/-- C5. For both pools, in every state reached from the empty pool by `Add` and `Remove`
calls: no two peers returned by `GetAll()` have the same `GetID()`, no peer is returned
twice, and the peers returned are exactly the stored ones. -/
theorem C5_reachable_pool_keys_unique (pcalls : List PublisherPoolCall)
    (scalls : List SubscriberPoolCall) :
    (((PublisherPool.after pcalls).GetAll.toList.map Publisher.GetID).Nodup ∧
      (PublisherPool.after pcalls).GetAll.toList.Nodup ∧
      ∀ q, q ∈ (PublisherPool.after pcalls).GetAll.toList ↔
        ∃ k, (PublisherPool.after pcalls).publishers.Load k = some q) ∧
    (((SubscriberPool.after scalls).GetAll.toList.map Subscriber.GetID).Nodup ∧
      (SubscriberPool.after scalls).GetAll.toList.Nodup ∧
      ∀ q, q ∈ (SubscriberPool.after scalls).GetAll.toList ↔
        ∃ k, (SubscriberPool.after scalls).subscribers.Load k = some q) := by
  have hp := PublisherPool.Valid_after_publisher pcalls
  have hs := SubscriberPool.Valid_after_subscriber scalls
  refine ⟨⟨?_, ?_, ?_⟩, ⟨?_, ?_, ?_⟩⟩
  · rw [PublisherPool.GetAll_toList_publisher]
    exact SyncMap.Valid_ids_nodup Publisher.GetID _ hp
  · rw [PublisherPool.GetAll_toList_publisher]
    exact SyncMap.Valid_values_nodup Publisher.GetID _ hp
  · intro q
    rw [PublisherPool.GetAll_toList_publisher]
    constructor
    · intro hq
      exact ⟨q.GetID, SyncMap.Valid_Load_of_mem_values Publisher.GetID _ q hp hq⟩
    · rintro ⟨k, hk⟩
      exact List.mem_map.mpr ⟨(k, q), SyncMap.mem_of_Load_eq_some _ k q hk, rfl⟩
  · rw [SubscriberPool.GetAll_toList_subscriber]
    exact SyncMap.Valid_ids_nodup Subscriber.GetID _ hs
  · rw [SubscriberPool.GetAll_toList_subscriber]
    exact SyncMap.Valid_values_nodup Subscriber.GetID _ hs
  · intro q
    rw [SubscriberPool.GetAll_toList_subscriber]
    constructor
    · intro hq
      exact ⟨q.GetID, SyncMap.Valid_Load_of_mem_values Subscriber.GetID _ q hs hq⟩
    · rintro ⟨k, hk⟩
      exact List.mem_map.mpr ⟨(k, q), SyncMap.mem_of_Load_eq_some _ k q hk, rfl⟩

theorem SyncMap.Load_store_self {α : Type} (m : SyncMap α) (key : String) (v : α)
    (h : m.Load key = none) :
    (⟨m.entries ++ [(key, v)]⟩ : SyncMap α).Load key = some v := by
  obtain ⟨es⟩ := m
  induction es with
  | nil => simp [SyncMap.Load, List.lookup]
  | cons e rest ih =>
    obtain ⟨k, w⟩ := e
    by_cases hk : key = k
    · subst hk
      simp [SyncMap.Load, List.lookup] at h
    · have hb : (key == k) = false := by simpa using hk
      simp only [SyncMap.Load, List.lookup, hb] at h
      have := ih h
      simpa [SyncMap.Load, List.lookup, hb] using this

theorem SubscriberPool.IsEmpty_eq_false_iff (p : SubscriberPool) :
    p.IsEmpty = false ↔ ∃ id s, p.subscribers.Load id = some s := by
  have h1 := SubscriberPool.IsEmpty_iff p
  have h2 := SyncMap.forall_Load_eq_none_iff p.subscribers
  constructor
  · intro h
    by_contra hcon
    have hall : ∀ key, p.subscribers.Load key = none := by
      intro key
      cases hl : p.subscribers.Load key with
      | none => rfl
      | some v => exact absurd ⟨key, v, hl⟩ hcon
    have := h1.mpr (h2.mp hall)
    rw [h] at this
    exact Bool.false_ne_true this
  · rintro ⟨id, v, hl⟩
    cases he : p.IsEmpty with
    | false => rfl
    | true =>
      have := h2.mpr (h1.mp he) id
      rw [hl] at this
      exact absurd this (by simp)

/-- C6. For every publisher `p` whose id is not in the publisher pool,
`OnPublisherConnected(p)` makes exactly one control notification: `NotifyExistsSubscriber` on
`p` and no `NotifyNoSubscribers` when some id is present in the subscriber pool,
`NotifyNoSubscribers` on `p` and no `NotifyExistsSubscriber` when none is; no other publisher
is notified and no subscriber is called. -/
theorem C6_publisher_connected_notified_once (o : Observer) (p : Publisher)
    (hfresh : o.publisherPool.publishers.Load p.GetID = none) :
    ((∃ id s, o.subscriberPool.subscribers.Load id = some s) →
      existsSubscriberCalls (o.OnPublisherConnected p).calls = [p] ∧
      noSubscribersCalls (o.OnPublisherConnected p).calls = []) ∧
    ((∀ id, o.subscriberPool.subscribers.Load id = none) →
      existsSubscriberCalls (o.OnPublisherConnected p).calls = [] ∧
      noSubscribersCalls (o.OnPublisherConnected p).calls = [p]) ∧
    sendMessageCalls (o.OnPublisherConnected p).calls = [] := by
  have hadd := PublisherPool.Add_absent_publisher o.publisherPool p hfresh
  refine ⟨?_, ?_, ?_⟩
  · intro hne
    have he : o.subscriberPool.IsEmpty = false :=
      (SubscriberPool.IsEmpty_eq_false_iff _).mpr hne
    cases hn : p.NotifyExistsSubscriber <;>
      simp [Observer.OnPublisherConnected, hadd, he, hn, existsSubscriberCalls,
        noSubscribersCalls]
  · intro hall
    have he : o.subscriberPool.IsEmpty = true :=
      (SubscriberPool.IsEmpty_iff _).mpr ((SyncMap.forall_Load_eq_none_iff _).mp hall)
    cases hn : p.NotifyNoSubscribers <;>
      simp [Observer.OnPublisherConnected, hadd, he, hn, existsSubscriberCalls,
        noSubscribersCalls]
  · cases he : o.subscriberPool.IsEmpty <;> cases hn : p.NotifyExistsSubscriber <;>
      cases hn' : p.NotifyNoSubscribers <;>
      simp [Observer.OnPublisherConnected, hadd, he, hn, hn', sendMessageCalls]

/-- C6 at the observers of the tests: with subscriber `1` connected the new publisher gets
`NotifyExistsSubscriber`, with no subscriber it gets `NotifyNoSubscribers`. -/
theorem C6_publisher_connected_notified_once_witness :
    (existsSubscriberCalls
        ((NewObserver NewPublisherPool subscriberPool1).OnPublisherConnected mockPublisher1).calls
        = [mockPublisher1] ∧
      noSubscribersCalls
        ((NewObserver NewPublisherPool subscriberPool1).OnPublisherConnected mockPublisher1).calls
        = []) ∧
    (existsSubscriberCalls
        ((NewObserver NewPublisherPool NewSubscriberPool).OnPublisherConnected
          mockPublisher1).calls = [] ∧
      noSubscribersCalls
        ((NewObserver NewPublisherPool NewSubscriberPool).OnPublisherConnected
          mockPublisher1).calls = [mockPublisher1]) :=
  ⟨(C6_publisher_connected_notified_once (NewObserver NewPublisherPool subscriberPool1)
      mockPublisher1 rfl).1 ⟨"1", mockSubscriber1, rfl⟩,
    (C6_publisher_connected_notified_once (NewObserver NewPublisherPool NewSubscriberPool)
      mockPublisher1 rfl).2.1 (fun _ => rfl)⟩

/-- C7. `OnPublisherConnected(p)` returns a non-nil error exactly when adding `p` to the
publisher pool fails or the control notification it invokes on `p` fails; the returned
error then wraps the error of the failed step, so a notification failure reaches the
caller. -/
theorem C7_publisher_connected_error_iff_step_fails (o : Observer) (p : Publisher) :
    ((o.OnPublisherConnected p).err ≠ none ↔
      (o.publisherPool.Add p).1 ≠ none ∨
      (p ∈ existsSubscriberCalls (o.OnPublisherConnected p).calls ∧
        p.NotifyExistsSubscriber ≠ none) ∨
      (p ∈ noSubscribersCalls (o.OnPublisherConnected p).calls ∧
        p.NotifyNoSubscribers ≠ none)) ∧
    (∀ e, (o.publisherPool.Add p).1 = some e →
      (o.OnPublisherConnected p).err = Wrap (some e) "add a publisher to a publisher pool") ∧
    (∀ e, p ∈ existsSubscriberCalls (o.OnPublisherConnected p).calls →
      p.NotifyExistsSubscriber = some e →
      (o.OnPublisherConnected p).err = Wrap (some e) "NotifyExistsSubscriber") ∧
    (∀ e, p ∈ noSubscribersCalls (o.OnPublisherConnected p).calls →
      p.NotifyNoSubscribers = some e →
      (o.OnPublisherConnected p).err = Wrap (some e) "NotifyNoSubscribers") := by
  cases hl : o.publisherPool.publishers.Load p.GetID with
  | some first =>
    have hadd := PublisherPool.Add_present_publisher o.publisherPool p first hl
    refine ⟨?_, ?_, ?_, ?_⟩ <;>
      simp [Observer.OnPublisherConnected, hadd, Wrap, existsSubscriberCalls,
        noSubscribersCalls]
  | none =>
    have hadd := PublisherPool.Add_absent_publisher o.publisherPool p hl
    cases he : o.subscriberPool.IsEmpty <;> cases hn : p.NotifyExistsSubscriber <;>
      cases hn' : p.NotifyNoSubscribers <;>
      simp [Observer.OnPublisherConnected, hadd, he, hn, hn', Wrap, existsSubscriberCalls,
        noSubscribersCalls]

/-- C7 where the notification fails: publisher `2`, whose `NotifyExistsSubscriber` returns
an error, connects while subscriber `1` is present, and the caller gets that error wrapped. -/
theorem C7_publisher_connected_error_iff_step_fails_witness :
    ((NewObserver NewPublisherPool subscriberPool1).OnPublisherConnected mockPublisher2).err
      = some "NotifyExistsSubscriber: stream closed" :=
  (C7_publisher_connected_error_iff_step_fails (NewObserver NewPublisherPool subscriberPool1)
    mockPublisher2).2.2.1 "stream closed" (by decide) rfl

/-- C8. When the id of the connecting peer is already present in its pool,
`OnPublisherConnected(p)` and `OnSubscriberConnected(s)` return a non-nil error, make no
call at all on any publisher or subscriber, and leave both pools as they were. -/
theorem C8_duplicate_connect_rejected_without_effect (o : Observer) (p : Publisher)
    (s : Subscriber) :
    (∀ first, o.publisherPool.publishers.Load p.GetID = some first →
      (o.OnPublisherConnected p).err ≠ none ∧
      (o.OnPublisherConnected p).calls = [] ∧
      existsSubscriberCalls (o.OnPublisherConnected p).calls = [] ∧
      noSubscribersCalls (o.OnPublisherConnected p).calls = [] ∧
      sendMessageCalls (o.OnPublisherConnected p).calls = [] ∧
      (o.OnPublisherConnected p).observer = o) ∧
    (∀ first, o.subscriberPool.subscribers.Load s.GetID = some first →
      (o.OnSubscriberConnected s).err ≠ none ∧
      (o.OnSubscriberConnected s).calls = [] ∧
      existsSubscriberCalls (o.OnSubscriberConnected s).calls = [] ∧
      noSubscribersCalls (o.OnSubscriberConnected s).calls = [] ∧
      sendMessageCalls (o.OnSubscriberConnected s).calls = [] ∧
      (o.OnSubscriberConnected s).observer = o) := by
  refine ⟨?_, ?_⟩
  · intro first hl
    have hadd := PublisherPool.Add_present_publisher o.publisherPool p first hl
    simp [Observer.OnPublisherConnected, hadd, Wrap, existsSubscriberCalls,
      noSubscribersCalls, sendMessageCalls]
  · intro first hl
    have hadd := SubscriberPool.Add_present_subscriber o.subscriberPool s first hl
    simp [Observer.OnSubscriberConnected, hadd, Wrap, existsSubscriberCalls,
      noSubscribersCalls, sendMessageCalls]

/-- C8 at an observer holding publisher `1` and subscriber `1`: a second peer with id `1`
is rejected on either side and nothing is called. -/
theorem C8_duplicate_connect_rejected_without_effect_witness :
    (((NewObserver publisherPool1 subscriberPool1).OnPublisherConnected mockPublisher1Dup).err
        ≠ none ∧
      ((NewObserver publisherPool1 subscriberPool1).OnPublisherConnected mockPublisher1Dup).calls
        = [] ∧
      ((NewObserver publisherPool1 subscriberPool1).OnPublisherConnected
        mockPublisher1Dup).observer = NewObserver publisherPool1 subscriberPool1) ∧
    (((NewObserver publisherPool1 subscriberPool1).OnSubscriberConnected
        mockSubscriber1Dup).err ≠ none ∧
      ((NewObserver publisherPool1 subscriberPool1).OnSubscriberConnected
        mockSubscriber1Dup).calls = [] ∧
      ((NewObserver publisherPool1 subscriberPool1).OnSubscriberConnected
        mockSubscriber1Dup).observer = NewObserver publisherPool1 subscriberPool1) := by
  have h := C8_duplicate_connect_rejected_without_effect
    (NewObserver publisherPool1 subscriberPool1) mockPublisher1Dup mockSubscriber1Dup
  obtain ⟨h1, h2, _, _, _, h3⟩ := h.1 mockPublisher1 (by decide)
  obtain ⟨g1, g2, _, _, _, g3⟩ := h.2 mockSubscriber1 rfl
  exact ⟨⟨h1, h2, h3⟩, ⟨g1, g2, g3⟩⟩

theorem SubscriberPool.mem_GetAll_iff_stored_subscriber (pool : SubscriberPool) (hv : pool.Valid)
    (s : Subscriber) :
    s ∈ pool.GetAll.toList ↔ ∃ k, pool.subscribers.Load k = some s := by
  rw [SubscriberPool.GetAll_toList_subscriber]
  constructor
  · intro hs
    exact ⟨s.GetID, SyncMap.Valid_Load_of_mem_values Subscriber.GetID _ s hv hs⟩
  · rintro ⟨k, hk⟩
    exact List.mem_map.mpr ⟨(k, s), SyncMap.mem_of_Load_eq_some _ k s hk, rfl⟩

theorem PublisherPool.mem_GetAll_iff_stored_publisher (pool : PublisherPool) (hv : pool.Valid)
    (p : Publisher) :
    p ∈ pool.GetAll.toList ↔ ∃ k, pool.publishers.Load k = some p := by
  rw [PublisherPool.GetAll_toList_publisher]
  constructor
  · intro hp
    exact ⟨p.GetID, SyncMap.Valid_Load_of_mem_values Publisher.GetID _ p hv hp⟩
  · rintro ⟨k, hk⟩
    exact List.mem_map.mpr ⟨(k, p), SyncMap.mem_of_Load_eq_some _ k p hk, rfl⟩

/-- C9. For every byte sequence `m` and every subscriber-pool state,
`OnPublisherMessage(m)` returns `nil` and calls `SendMessageToSubscriber` once per element of
`GetAll()`, in that order and with `m` itself, whatever the calls return; so no subscriber is
called twice, and a subscriber is called exactly when it is stored in the pool. The pools
are left as they were. -/
theorem C9_publisher_message_sent_once_to_each (o : Observer) (m : List UInt8)
    (hv : o.subscriberPool.Valid) :
    (o.OnPublisherMessage m).err = none ∧
    sendMessageCalls (o.OnPublisherMessage m).calls
      = o.subscriberPool.GetAll.toList.map (fun s => (s, m)) ∧
    (sendMessageCalls (o.OnPublisherMessage m).calls).Nodup ∧
    (∀ s, (∃ k, o.subscriberPool.subscribers.Load k = some s) ↔
      (s, m) ∈ sendMessageCalls (o.OnPublisherMessage m).calls) ∧
    (∀ c ∈ sendMessageCalls (o.OnPublisherMessage m).calls, c.2 = m) ∧
    existsSubscriberCalls (o.OnPublisherMessage m).calls = [] ∧
    noSubscribersCalls (o.OnPublisherMessage m).calls = [] ∧
    (o.OnPublisherMessage m).observer = o := by
  have hcalls : sendMessageCalls (o.OnPublisherMessage m).calls
      = o.subscriberPool.GetAll.toList.map (fun s => (s, m)) := by
    simp [Observer.OnPublisherMessage, sendMessageCalls,
      Observer.sendMessageCalls_sendMessageLoop]
  have hinj : Function.Injective (fun s : Subscriber => (s, m)) := by
    intro a b hab
    exact (Prod.mk.inj hab).1
  refine ⟨rfl, hcalls, ?_, ?_, ?_, ?_, ?_, rfl⟩
  · rw [hcalls, SubscriberPool.GetAll_toList_subscriber]
    exact (SyncMap.Valid_values_nodup Subscriber.GetID _ hv).map hinj
  · intro s
    rw [hcalls, ← SubscriberPool.mem_GetAll_iff_stored_subscriber _ hv s]
    constructor
    · intro hs
      exact List.mem_map.mpr ⟨s, hs, rfl⟩
    · intro hs
      obtain ⟨t, ht, hts⟩ := List.mem_map.mp hs
      exact (Prod.mk.inj hts).1 ▸ ht
  · intro c hc
    rw [hcalls] at hc
    obtain ⟨t, _, htc⟩ := List.mem_map.mp hc
    rw [← htc]
  · simp [Observer.OnPublisherMessage, existsSubscriberCalls,
      Observer.existsSubscriberCalls_sendMessageLoop]
  · simp [Observer.OnPublisherMessage, noSubscribersCalls,
      Observer.noSubscribersCalls_sendMessageLoop]

/-- C9 at a pool whose first subscriber fails: subscriber `2` returns an error, subscriber
`1` is still called with the same message, and the result is `nil`. -/
theorem C9_publisher_message_sent_once_to_each_witness :
    ((NewObserver NewPublisherPool subscriberPool21).OnPublisherMessage messageFoo).err = none ∧
    sendMessageCalls
        ((NewObserver NewPublisherPool subscriberPool21).OnPublisherMessage messageFoo).calls
      = [(mockSubscriber2, messageFoo), (mockSubscriber1, messageFoo)] ∧
    mockSubscriber2.SendMessageToSubscriber messageFoo ≠ none := by
  have h := C9_publisher_message_sent_once_to_each
    (NewObserver NewPublisherPool subscriberPool21) messageFoo
    (SubscriberPool.Valid_after_subscriber
      [SubscriberPoolCall.Add mockSubscriber2, SubscriberPoolCall.Add mockSubscriber1])
  exact ⟨h.1, h.2.1.trans rfl, by simp [mockSubscriber2]⟩

/-- C10. For every subscriber `s` whose id is not in the subscriber pool,
`OnSubscriberConnected(s)` returns `nil` whatever the notifications return, stores `s` in the
subscriber pool (so `IsEmpty()` is false afterwards), leaves the publisher pool as it was, and
calls `NotifyExistsSubscriber` once per element of the publisher pool's `GetAll()` and
`NotifyNoSubscribers` on nobody; so no publisher is notified twice, and a publisher is
notified exactly when it is stored in the pool. -/
theorem C10_subscriber_connected_notifies_every_publisher (o : Observer) (s : Subscriber)
    (hfresh : o.subscriberPool.subscribers.Load s.GetID = none)
    (hv : o.publisherPool.Valid) :
    (o.OnSubscriberConnected s).err = none ∧
    (o.OnSubscriberConnected s).observer.subscriberPool.subscribers.Load s.GetID = some s ∧
    (o.OnSubscriberConnected s).observer.subscriberPool.GetAll.toList.Perm
      (s :: o.subscriberPool.GetAll.toList) ∧
    (o.OnSubscriberConnected s).observer.subscriberPool.IsEmpty = false ∧
    (o.OnSubscriberConnected s).observer.publisherPool = o.publisherPool ∧
    existsSubscriberCalls (o.OnSubscriberConnected s).calls = o.publisherPool.GetAll.toList ∧
    (existsSubscriberCalls (o.OnSubscriberConnected s).calls).Nodup ∧
    (∀ p, (∃ k, o.publisherPool.publishers.Load k = some p) ↔
      p ∈ existsSubscriberCalls (o.OnSubscriberConnected s).calls) ∧
    noSubscribersCalls (o.OnSubscriberConnected s).calls = [] ∧
    sendMessageCalls (o.OnSubscriberConnected s).calls = [] := by
  have hadd := SubscriberPool.Add_absent_subscriber o.subscriberPool s hfresh
  have hstored := SyncMap.Load_store_self o.subscriberPool.subscribers s.GetID s hfresh
  have hcalls : existsSubscriberCalls (o.OnSubscriberConnected s).calls
      = o.publisherPool.GetAll.toList := by
    simp [Observer.OnSubscriberConnected, hadd, existsSubscriberCalls,
      Observer.existsSubscriberCalls_notifyExistsSubscriberLoop]
  refine ⟨?_, ?_, ?_, ?_, ?_, hcalls, ?_, ?_, ?_, ?_⟩
  · simp [Observer.OnSubscriberConnected, hadd]
  · simpa [Observer.OnSubscriberConnected, hadd] using hstored
  · simp only [Observer.OnSubscriberConnected, hadd, SubscriberPool.GetAll_toList_subscriber,
      List.map_append, List.map_cons, List.map_nil]
    exact List.perm_append_singleton s _
  · rw [SubscriberPool.IsEmpty_eq_false_iff]
    exact ⟨s.GetID, s, by simpa [Observer.OnSubscriberConnected, hadd] using hstored⟩
  · simp [Observer.OnSubscriberConnected, hadd]
  · rw [hcalls, PublisherPool.GetAll_toList_publisher]
    exact SyncMap.Valid_values_nodup Publisher.GetID _ hv
  · intro p
    rw [hcalls]
    exact (PublisherPool.mem_GetAll_iff_stored_publisher _ hv p).symm
  · simp [Observer.OnSubscriberConnected, hadd, noSubscribersCalls,
      Observer.noSubscribersCalls_notifyExistsSubscriberLoop]
  · simp [Observer.OnSubscriberConnected, hadd, sendMessageCalls,
      Observer.sendMessageCalls_notifyExistsSubscriberLoop]

/-- C10 at a publisher pool whose first publisher fails: publisher `2` returns an error,
publisher `1` is still notified, the subscriber is stored and the result is `nil`. -/
theorem C10_subscriber_connected_notifies_every_publisher_witness :
    ((NewObserver publisherPool21 NewSubscriberPool).OnSubscriberConnected mockSubscriber1).err
      = none ∧
    ((NewObserver publisherPool21 NewSubscriberPool).OnSubscriberConnected
      mockSubscriber1).observer.subscriberPool.IsEmpty = false ∧
    existsSubscriberCalls
        ((NewObserver publisherPool21 NewSubscriberPool).OnSubscriberConnected
          mockSubscriber1).calls = [mockPublisher2, mockPublisher1] ∧
    mockPublisher2.NotifyExistsSubscriber ≠ none := by
  have h := C10_subscriber_connected_notifies_every_publisher
    (NewObserver publisherPool21 NewSubscriberPool) mockSubscriber1 rfl
    (PublisherPool.Valid_after_publisher
      [PublisherPoolCall.Add mockPublisher2, PublisherPoolCall.Add mockPublisher1])
  exact ⟨h.1, h.2.2.2.1, h.2.2.2.2.2.1.trans rfl, by decide⟩

/-! ## Observer: disconnects -/

theorem Observer.noSubscribersCalls_notifyNoSubscribersLoop (ps : List Publisher) :
    noSubscribersCalls (Observer.notifyNoSubscribersLoop ps) = ps := by
  induction ps with
  | nil => rfl
  | cons p rest ih =>
    cases h : p.NotifyNoSubscribers <;>
      simp [Observer.notifyNoSubscribersLoop, h, noSubscribersCalls, ih]

theorem Observer.existsSubscriberCalls_notifyNoSubscribersLoop (ps : List Publisher) :
    existsSubscriberCalls (Observer.notifyNoSubscribersLoop ps) = [] := by
  induction ps with
  | nil => rfl
  | cons p rest ih =>
    cases h : p.NotifyNoSubscribers <;>
      simp [Observer.notifyNoSubscribersLoop, h, existsSubscriberCalls, ih]

theorem Observer.sendMessageCalls_notifyNoSubscribersLoop (ps : List Publisher) :
    sendMessageCalls (Observer.notifyNoSubscribersLoop ps) = [] := by
  induction ps with
  | nil => rfl
  | cons p rest ih =>
    cases h : p.NotifyNoSubscribers <;>
      simp [Observer.notifyNoSubscribersLoop, h, sendMessageCalls, ih]

/-- C11. `OnSubscriberDisconnected(s)` always returns `nil`, whatever the notifications
return, and leaves the subscriber pool with the entry under `s.GetID()` removed and the
publisher pool as it was. If no id is present in the subscriber pool after the removal it
calls `NotifyNoSubscribers` once per element of the publisher pool's `GetAll()`, so no
publisher is notified twice and a publisher is notified exactly when it is stored; if some
id is still present it calls `NotifyNoSubscribers` on nobody. It never calls
`NotifyExistsSubscriber` or a subscriber. -/
theorem C11_subscriber_disconnected_notifies_iff_pool_empty (o : Observer) (s : Subscriber)
    (hv : o.publisherPool.Valid) :
    (o.OnSubscriberDisconnected s).err = none ∧
    (o.OnSubscriberDisconnected s).observer.subscriberPool = o.subscriberPool.Remove s.GetID ∧
    (o.OnSubscriberDisconnected s).observer.subscriberPool.subscribers.Load s.GetID = none ∧
    (o.OnSubscriberDisconnected s).observer.publisherPool = o.publisherPool ∧
    ((∀ id, (o.OnSubscriberDisconnected s).observer.subscriberPool.subscribers.Load id = none) →
      noSubscribersCalls (o.OnSubscriberDisconnected s).calls = o.publisherPool.GetAll.toList ∧
      (noSubscribersCalls (o.OnSubscriberDisconnected s).calls).Nodup ∧
      ∀ p, (∃ k, o.publisherPool.publishers.Load k = some p) ↔
        p ∈ noSubscribersCalls (o.OnSubscriberDisconnected s).calls) ∧
    ((∃ id t, (o.OnSubscriberDisconnected s).observer.subscriberPool.subscribers.Load id
        = some t) →
      noSubscribersCalls (o.OnSubscriberDisconnected s).calls = []) ∧
    existsSubscriberCalls (o.OnSubscriberDisconnected s).calls = [] ∧
    sendMessageCalls (o.OnSubscriberDisconnected s).calls = [] := by
  cases he : (o.subscriberPool.Remove s.GetID).IsEmpty with
  | true =>
    have hcalls : noSubscribersCalls (o.OnSubscriberDisconnected s).calls
        = o.publisherPool.GetAll.toList := by
      simp [Observer.OnSubscriberDisconnected, he, noSubscribersCalls,
        Observer.noSubscribersCalls_notifyNoSubscribersLoop]
    have hpool : (o.OnSubscriberDisconnected s).observer.subscriberPool
        = o.subscriberPool.Remove s.GetID := by
      simp [Observer.OnSubscriberDisconnected, he]
    refine ⟨?_, hpool, ?_, ?_, ?_, ?_, ?_, ?_⟩
    · simp [Observer.OnSubscriberDisconnected, he]
    · rw [hpool]
      exact SyncMap.Load_Delete_self _ _
    · simp [Observer.OnSubscriberDisconnected, he]
    · intro _
      refine ⟨hcalls, ?_, ?_⟩
      · rw [hcalls, PublisherPool.GetAll_toList_publisher]
        exact SyncMap.Valid_values_nodup Publisher.GetID _ hv
      · intro p
        rw [hcalls]
        exact (PublisherPool.mem_GetAll_iff_stored_publisher _ hv p).symm
    · intro hne
      rw [hpool] at hne
      have := (SubscriberPool.IsEmpty_eq_false_iff _).mpr hne
      rw [he] at this
      exact absurd this (by simp)
    · simp [Observer.OnSubscriberDisconnected, he, existsSubscriberCalls,
        Observer.existsSubscriberCalls_notifyNoSubscribersLoop]
    · simp [Observer.OnSubscriberDisconnected, he, sendMessageCalls,
        Observer.sendMessageCalls_notifyNoSubscribersLoop]
  | false =>
    have hpool : (o.OnSubscriberDisconnected s).observer.subscriberPool
        = o.subscriberPool.Remove s.GetID := by
      simp [Observer.OnSubscriberDisconnected, he]
    refine ⟨?_, hpool, ?_, ?_, ?_, ?_, ?_, ?_⟩
    · simp [Observer.OnSubscriberDisconnected, he]
    · rw [hpool]
      exact SyncMap.Load_Delete_self _ _
    · simp [Observer.OnSubscriberDisconnected, he]
    · intro hall
      rw [hpool] at hall
      have := (SubscriberPool.IsEmpty_iff _).mpr
        ((SyncMap.forall_Load_eq_none_iff _).mp hall)
      rw [he] at this
      exact absurd this (by simp)
    · intro _
      simp [Observer.OnSubscriberDisconnected, he, noSubscribersCalls]
    · simp [Observer.OnSubscriberDisconnected, he, existsSubscriberCalls]
    · simp [Observer.OnSubscriberDisconnected, he, sendMessageCalls]

/-- C11 at the observer of the test and next to it: when the last subscriber leaves, both
publishers are notified although the first one fails; when subscriber `2` stays, nobody is. -/
theorem C11_subscriber_disconnected_notifies_iff_pool_empty_witness :
    ((NewObserver publisherPool21 subscriberPool1).OnSubscriberDisconnected mockSubscriber1).err
      = none ∧
    noSubscribersCalls
        ((NewObserver publisherPool21 subscriberPool1).OnSubscriberDisconnected
          mockSubscriber1).calls = [mockPublisher2, mockPublisher1] ∧
    mockPublisher2.NotifyNoSubscribers ≠ none ∧
    noSubscribersCalls
        ((NewObserver publisherPool21 subscriberPool12).OnSubscriberDisconnected
          mockSubscriber1).calls = [] := by
  have hv : publisherPool21.Valid := PublisherPool.Valid_after_publisher
    [PublisherPoolCall.Add mockPublisher2, PublisherPoolCall.Add mockPublisher1]
  have h1 := C11_subscriber_disconnected_notifies_iff_pool_empty
    (NewObserver publisherPool21 subscriberPool1) mockSubscriber1 hv
  have h2 := C11_subscriber_disconnected_notifies_iff_pool_empty
    (NewObserver publisherPool21 subscriberPool12) mockSubscriber1 hv
  exact ⟨h1.1, (h1.2.2.2.2.1 (fun _ => rfl)).1.trans rfl, by decide,
    h2.2.2.2.2.2.1 ⟨"2", mockSubscriber2, rfl⟩⟩

/-- C12. `OnPublisherDisconnected(p)` never fails, whether `p` is in the pool or was never
added: afterwards no entry is stored under `p.GetID()`, every other id holds what it held
before, the entries left are exactly the previous ones stored under another id, the
subscriber pool is as it was, and no publisher or subscriber is called. For a publisher
whose id is not in the pool nothing changes at all. -/
theorem C12_publisher_disconnected_removes_only_that_id (o : Observer) (p : Publisher) :
    (o.OnPublisherDisconnected p).err = none ∧
    (o.OnPublisherDisconnected p).observer.publisherPool.publishers.Load p.GetID = none ∧
    (∀ k, k ≠ p.GetID →
      (o.OnPublisherDisconnected p).observer.publisherPool.publishers.Load k
        = o.publisherPool.publishers.Load k) ∧
    (∀ e, e ∈ (o.OnPublisherDisconnected p).observer.publisherPool.publishers.entries ↔
      e ∈ o.publisherPool.publishers.entries ∧ e.1 ≠ p.GetID) ∧
    (o.OnPublisherDisconnected p).observer.subscriberPool = o.subscriberPool ∧
    existsSubscriberCalls (o.OnPublisherDisconnected p).calls = [] ∧
    noSubscribersCalls (o.OnPublisherDisconnected p).calls = [] ∧
    sendMessageCalls (o.OnPublisherDisconnected p).calls = [] ∧
    (o.publisherPool.publishers.Load p.GetID = none →
      (o.OnPublisherDisconnected p).observer = o) := by
  refine ⟨rfl, ?_, ?_, ?_, rfl, rfl, rfl, rfl, ?_⟩
  · exact SyncMap.Load_Delete_self _ _
  · intro k hk
    exact SyncMap.Load_Delete_of_ne _ _ k hk
  · intro e
    exact SyncMap.mem_Delete _ _ e
  · intro h
    simp only [Observer.OnPublisherDisconnected, PublisherPool.Remove,
      SyncMap.Delete_of_absent _ _ h]

/-- C12 at the observer of the test: disconnecting publisher `1`, which was never added,
from an observer with two fresh pools returns no error and changes nothing. -/
theorem C12_publisher_disconnected_removes_only_that_id_witness :
    ((NewObserver NewPublisherPool NewSubscriberPool).OnPublisherDisconnected
        mockPublisher1).err = none ∧
    ((NewObserver NewPublisherPool NewSubscriberPool).OnPublisherDisconnected
        mockPublisher1).observer = NewObserver NewPublisherPool NewSubscriberPool :=
  ⟨(C12_publisher_disconnected_removes_only_that_id
      (NewObserver NewPublisherPool NewSubscriberPool) mockPublisher1).1,
    (C12_publisher_disconnected_removes_only_that_id
      (NewObserver NewPublisherPool NewSubscriberPool) mockPublisher1).2.2.2.2.2.2.2.2 rfl⟩

/-! ## Observer: demand gating over a run -/

theorem deliveredRecords_append (p : Publisher) (a b : List Call) :
    deliveredRecords p (a ++ b) = deliveredRecords p a ++ deliveredRecords p b := by
  induction a with
  | nil => rfl
  | cons c rest ih =>
    cases c with
    | NotifyExistsSubscriber q =>
      simp only [deliveredRecords, List.cons_append]
      split <;> simp [ih]
    | NotifyNoSubscribers q =>
      simp only [deliveredRecords, List.cons_append]
      split <;> simp [ih]
    | SendMessageToSubscriber s m => simpa [deliveredRecords] using ih
    | Debug msg fields => simpa [deliveredRecords] using ih
    | Warn msg fields => simpa [deliveredRecords] using ih

theorem getLast?_append_of_all_eq {α : Type} (a b : List α) (x : α) (hb : b ≠ [])
    (hall : ∀ r ∈ b, r = x) : (a ++ b).getLast? = some x := by
  induction a with
  | nil =>
    simp only [List.nil_append]
    rw [List.getLast?_eq_getLast b hb]
    exact congrArg some (hall _ (List.getLast_mem hb))
  | cons c rest ih =>
    have hne : rest ++ b ≠ [] := by simp [hb]
    obtain ⟨d, tl, hd⟩ := List.exists_cons_of_ne_nil hne
    rw [List.cons_append, hd, List.getLast?_cons_cons, ← hd]
    exact ih

theorem Observer.deliveredRecords_notifyExistsSubscriberLoop (p : Publisher)
    (ps : List Publisher) :
    (∀ r ∈ deliveredRecords p (Observer.notifyExistsSubscriberLoop ps),
      r = ⟨CodeExistsSubscriber⟩) ∧
    (p ∈ ps → p.NotifyExistsSubscriber = none →
      deliveredRecords p (Observer.notifyExistsSubscriberLoop ps) ≠ []) := by
  induction ps with
  | nil => simp [Observer.notifyExistsSubscriberLoop, deliveredRecords]
  | cons q rest ih =>
    cases hq : q.NotifyExistsSubscriber with
    | none =>
      by_cases hqp : q = p
      · subst hqp
        simp only [Observer.notifyExistsSubscriberLoop, hq, deliveredRecords, and_self, if_true]
        refine ⟨?_, fun _ _ => by simp⟩
        intro r hr
        rcases List.mem_cons.mp hr with h | h
        · exact h
        · exact ih.1 r h
      · simp only [Observer.notifyExistsSubscriberLoop, hq, deliveredRecords, hqp, false_and,
          if_false]
        refine ⟨ih.1, ?_⟩
        intro hmem hnone
        rcases List.mem_cons.mp hmem with h | h
        · exact absurd h.symm hqp
        · exact ih.2 h hnone
    | some e =>
      simp only [Observer.notifyExistsSubscriberLoop, hq, deliveredRecords, reduceCtorEq,
        and_false, if_false]
      refine ⟨ih.1, ?_⟩
      intro hmem hnone
      rcases List.mem_cons.mp hmem with h | h
      · subst h
        rw [hq] at hnone
        exact absurd hnone (by simp)
      · exact ih.2 h hnone

theorem Observer.deliveredRecords_notifyNoSubscribersLoop (p : Publisher)
    (ps : List Publisher) :
    (∀ r ∈ deliveredRecords p (Observer.notifyNoSubscribersLoop ps),
      r = ⟨CodeNoSubscribers⟩) ∧
    (p ∈ ps → p.NotifyNoSubscribers = none →
      deliveredRecords p (Observer.notifyNoSubscribersLoop ps) ≠ []) := by
  induction ps with
  | nil => simp [Observer.notifyNoSubscribersLoop, deliveredRecords]
  | cons q rest ih =>
    cases hq : q.NotifyNoSubscribers with
    | none =>
      by_cases hqp : q = p
      · subst hqp
        simp only [Observer.notifyNoSubscribersLoop, hq, deliveredRecords, and_self, if_true]
        refine ⟨?_, fun _ _ => by simp⟩
        intro r hr
        rcases List.mem_cons.mp hr with h | h
        · exact h
        · exact ih.1 r h
      · simp only [Observer.notifyNoSubscribersLoop, hq, deliveredRecords, hqp, false_and,
          if_false]
        refine ⟨ih.1, ?_⟩
        intro hmem hnone
        rcases List.mem_cons.mp hmem with h | h
        · exact absurd h.symm hqp
        · exact ih.2 h hnone
    | some e =>
      simp only [Observer.notifyNoSubscribersLoop, hq, deliveredRecords, reduceCtorEq,
        and_false, if_false]
      refine ⟨ih.1, ?_⟩
      intro hmem hnone
      rcases List.mem_cons.mp hmem with h | h
      · subst h
        rw [hq] at hnone
        exact absurd hnone (by simp)
      · exact ih.2 h hnone

theorem Observer.deliveredRecords_sendMessageLoop (p : Publisher) (m : List UInt8)
    (ss : List Subscriber) : deliveredRecords p (Observer.sendMessageLoop m ss) = [] := by
  induction ss with
  | nil => rfl
  | cons s rest ih =>
    cases h : s.SendMessageToSubscriber m <;>
      simp [Observer.sendMessageLoop, h, deliveredRecords, ih]

theorem SubscriberPool.IsEmpty_Remove_of_IsEmpty (pool : SubscriberPool) (id : String)
    (h : pool.IsEmpty = true) : (pool.Remove id).IsEmpty = true := by
  rw [SubscriberPool.IsEmpty_iff] at h ⊢
  simp [SubscriberPool.Remove, SyncMap.Delete, h]

theorem Observer.Gated_OnSubscriberConnected (o : Observer) (tr : List Call) (s : Subscriber)
    (hg : o.Gated tr) :
    (o.OnSubscriberConnected s).observer.Gated (tr ++ (o.OnSubscriberConnected s).calls) := by
  cases hl : o.subscriberPool.subscribers.Load s.GetID with
  | some first =>
    have hadd := SubscriberPool.Add_present_subscriber o.subscriberPool s first hl
    simp only [Observer.OnSubscriberConnected, hadd, List.append_nil]
    exact hg
  | none =>
    have hadd := SubscriberPool.Add_absent_subscriber o.subscriberPool s hl
    have he : (⟨⟨o.subscriberPool.subscribers.entries ++ [(s.GetID, s)]⟩⟩
        : SubscriberPool).IsEmpty = false := by
      cases hb : (⟨⟨o.subscriberPool.subscribers.entries ++ [(s.GetID, s)]⟩⟩
        : SubscriberPool).IsEmpty with
      | false => rfl
      | true =>
        rw [SubscriberPool.IsEmpty_iff] at hb
        simp at hb
    simp only [Observer.OnSubscriberConnected, hadd]
    refine ⟨hg.1, ?_⟩
    intro p hp
    obtain ⟨h1, h2, _⟩ := hg.2 p hp
    refine ⟨h1, h2, ?_⟩
    simp only [he, Bool.false_eq_true, if_false, lastDeliveredRecord]
    rw [deliveredRecords_append]
    have hloop := Observer.deliveredRecords_notifyExistsSubscriberLoop p
      o.publisherPool.GetAll.toList
    exact getLast?_append_of_all_eq _ _ _ (hloop.2 hp h1) hloop.1

theorem Observer.Gated_OnSubscriberDisconnected (o : Observer) (tr : List Call)
    (s : Subscriber) (hg : o.Gated tr) :
    (o.OnSubscriberDisconnected s).observer.Gated
      (tr ++ (o.OnSubscriberDisconnected s).calls) := by
  cases he : (o.subscriberPool.Remove s.GetID).IsEmpty with
  | true =>
    simp only [Observer.OnSubscriberDisconnected, he, if_true]
    refine ⟨hg.1, ?_⟩
    intro p hp
    obtain ⟨h1, h2, _⟩ := hg.2 p hp
    refine ⟨h1, h2, ?_⟩
    simp only [he, if_true, lastDeliveredRecord]
    rw [deliveredRecords_append]
    have hloop := Observer.deliveredRecords_notifyNoSubscribersLoop p
      o.publisherPool.GetAll.toList
    exact getLast?_append_of_all_eq _ _ _ (hloop.2 hp h2) hloop.1
  | false =>
    have hold : o.subscriberPool.IsEmpty = false := by
      cases hb : o.subscriberPool.IsEmpty with
      | false => rfl
      | true =>
        have := SubscriberPool.IsEmpty_Remove_of_IsEmpty o.subscriberPool s.GetID hb
        rw [he] at this
        exact absurd this (by simp)
    simp only [Observer.OnSubscriberDisconnected, he, Bool.false_eq_true, if_false,
      List.append_nil]
    refine ⟨hg.1, ?_⟩
    intro p hp
    obtain ⟨h1, h2, h3⟩ := hg.2 p hp
    refine ⟨h1, h2, ?_⟩
    simpa [he, hold] using h3

theorem Observer.Gated_OnPublisherDisconnected (o : Observer) (tr : List Call)
    (p0 : Publisher) (hg : o.Gated tr) :
    (o.OnPublisherDisconnected p0).observer.Gated
      (tr ++ (o.OnPublisherDisconnected p0).calls) := by
  simp only [Observer.OnPublisherDisconnected]
  refine ⟨SyncMap.Valid_Delete Publisher.GetID _ _ hg.1, ?_⟩
  intro p hp
  have hp' : p ∈ o.publisherPool.GetAll.toList := by
    rw [PublisherPool.GetAll_toList_publisher] at hp ⊢
    exact ((List.filter_sublist _).map Prod.snd).subset hp
  obtain ⟨h1, h2, h3⟩ := hg.2 p hp'
  refine ⟨h1, h2, ?_⟩
  simp only [lastDeliveredRecord] at h3 ⊢
  rw [deliveredRecords_append]
  simpa [deliveredRecords] using h3

theorem Observer.Gated_OnPublisherMessage (o : Observer) (tr : List Call) (m : List UInt8)
    (hg : o.Gated tr) :
    (o.OnPublisherMessage m).observer.Gated (tr ++ (o.OnPublisherMessage m).calls) := by
  simp only [Observer.OnPublisherMessage]
  refine ⟨hg.1, ?_⟩
  intro p hp
  obtain ⟨h1, h2, h3⟩ := hg.2 p hp
  refine ⟨h1, h2, ?_⟩
  simp only [lastDeliveredRecord] at h3 ⊢
  rw [deliveredRecords_append]
  simpa [deliveredRecords, Observer.deliveredRecords_sendMessageLoop] using h3

theorem Observer.Gated_OnPublisherConnected (o : Observer) (tr : List Call) (p0 : Publisher)
    (hg : o.Gated tr) (h0 : p0.NotifyExistsSubscriber = none)
    (h0' : p0.NotifyNoSubscribers = none) :
    (o.OnPublisherConnected p0).observer.Gated (tr ++ (o.OnPublisherConnected p0).calls) := by
  cases hl : o.publisherPool.publishers.Load p0.GetID with
  | some first =>
    have hadd := PublisherPool.Add_present_publisher o.publisherPool p0 first hl
    simp only [Observer.OnPublisherConnected, hadd, List.append_nil]
    exact hg
  | none =>
    have hadd := PublisherPool.Add_absent_publisher o.publisherPool p0 hl
    have hvalid := SyncMap.Valid_store Publisher.GetID _ p0 hg.1 hl
    have hfresh : ∀ q, q ∈ o.publisherPool.GetAll.toList → q ≠ p0 := by
      intro q hq hqp
      subst hqp
      rw [PublisherPool.GetAll_toList_publisher] at hq
      have := SyncMap.Valid_Load_of_mem_values Publisher.GetID _ q hg.1 hq
      rw [hl] at this
      exact absurd this (by simp)
    cases he : o.subscriberPool.IsEmpty with
    | true =>
      simp only [Observer.OnPublisherConnected, hadd, he, Bool.not_true, Bool.false_eq_true,
        if_false, h0']
      refine ⟨hvalid, ?_⟩
      intro q hq
      simp only [PublisherPool.GetAll_toList_publisher, List.map_append, List.map_cons,
        List.map_nil, List.mem_append, List.mem_singleton] at hq
      simp only [if_true, lastDeliveredRecord]
      rw [deliveredRecords_append]
      rcases hq with hq | hq
      · rw [← PublisherPool.GetAll_toList_publisher] at hq
        obtain ⟨h1, h2, h3⟩ := hg.2 q hq
        have hne : ¬ p0 = q := fun h => hfresh q hq h.symm
        refine ⟨h1, h2, ?_⟩
        simpa [deliveredRecords, hne, he, lastDeliveredRecord] using h3
      · subst hq
        refine ⟨h0, h0', ?_⟩
        exact getLast?_append_of_all_eq _ _ _ (by simp [deliveredRecords, h0'])
          (by simp [deliveredRecords, h0', he])
    | false =>
      simp only [Observer.OnPublisherConnected, hadd, he, Bool.not_false, if_true, h0]
      refine ⟨hvalid, ?_⟩
      intro q hq
      simp only [PublisherPool.GetAll_toList_publisher, List.map_append, List.map_cons,
        List.map_nil, List.mem_append, List.mem_singleton] at hq
      simp only [Bool.false_eq_true, if_false, lastDeliveredRecord]
      rw [deliveredRecords_append]
      rcases hq with hq | hq
      · rw [← PublisherPool.GetAll_toList_publisher] at hq
        obtain ⟨h1, h2, h3⟩ := hg.2 q hq
        have hne : ¬ p0 = q := fun h => hfresh q hq h.symm
        refine ⟨h1, h2, ?_⟩
        simpa [deliveredRecords, hne, he, lastDeliveredRecord] using h3
      · subst hq
        refine ⟨h0, h0', ?_⟩
        exact getLast?_append_of_all_eq _ _ _ (by simp [deliveredRecords, h0])
          (by simp [deliveredRecords, h0, he])

theorem Observer.Gated_step (o : Observer) (tr : List Call) (c : ObserverCall)
    (hg : o.Gated tr) (hc : c.notificationsSucceed) :
    (o.step c).observer.Gated (tr ++ (o.step c).calls) := by
  cases c with
  | OnSubscriberConnected s => exact Observer.Gated_OnSubscriberConnected o tr s hg
  | OnSubscriberDisconnected s => exact Observer.Gated_OnSubscriberDisconnected o tr s hg
  | OnPublisherConnected p => exact Observer.Gated_OnPublisherConnected o tr p hg hc.1 hc.2
  | OnPublisherDisconnected p => exact Observer.Gated_OnPublisherDisconnected o tr p hg
  | OnPublisherMessage m => exact Observer.Gated_OnPublisherMessage o tr m hg

theorem Observer.Gated_run (calls : List ObserverCall) (o : Observer) (tr : List Call)
    (hg : o.Gated tr) (hc : ∀ c ∈ calls, c.notificationsSucceed) :
    (o.run tr calls).1.Gated (o.run tr calls).2 := by
  induction calls generalizing o tr with
  | nil => exact hg
  | cons c rest ih =>
    simp only [Observer.run]
    exact ih _ _ (Observer.Gated_step o tr c hg (hc c (List.mem_cons_self _ _)))
      (fun d hd => hc d (List.mem_cons_of_mem _ hd))

theorem Observer.Gated_fresh :
    (NewObserver NewPublisherPool NewSubscriberPool).Gated [] := by
  refine ⟨SyncMap.Valid_empty _, ?_⟩
  intro p hp
  rw [PublisherPool.GetAll_toList_publisher] at hp
  simp [NewObserver, NewPublisherPool] at hp

/-- C13. Take any sequential run of observer calls from two empty pools in which every
notification succeeds, stop it after any number `n` of calls, and take any publisher `p`
stored in the publisher pool at that point: the most recent control record delivered to `p`
is `exists_subscriber` if some id is present in the subscriber pool, and `no_subscribers`
if none is. -/
theorem C13_demand_gating_invariant (calls : List ObserverCall)
    (hok : ∀ c ∈ calls, c.notificationsSucceed) (n : Nat) (p : Publisher)
    (hp : ∃ k, ((NewObserver NewPublisherPool NewSubscriberPool).run []
      (calls.take n)).1.publisherPool.publishers.Load k = some p) :
    ((∃ id s, ((NewObserver NewPublisherPool NewSubscriberPool).run []
        (calls.take n)).1.subscriberPool.subscribers.Load id = some s) →
      lastDeliveredRecord p
        ((NewObserver NewPublisherPool NewSubscriberPool).run [] (calls.take n)).2
        = some ⟨CodeExistsSubscriber⟩) ∧
    ((∀ id, ((NewObserver NewPublisherPool NewSubscriberPool).run []
        (calls.take n)).1.subscriberPool.subscribers.Load id = none) →
      lastDeliveredRecord p
        ((NewObserver NewPublisherPool NewSubscriberPool).run [] (calls.take n)).2
        = some ⟨CodeNoSubscribers⟩) := by
  have hg := Observer.Gated_run (calls.take n) _ [] Observer.Gated_fresh
    (fun c hc => hok c (List.mem_of_mem_take hc))
  have hmem := (PublisherPool.mem_GetAll_iff_stored_publisher _ hg.1 p).mpr hp
  obtain ⟨_, _, hlast⟩ := hg.2 p hmem
  refine ⟨?_, ?_⟩
  · intro hne
    have he := (SubscriberPool.IsEmpty_eq_false_iff _).mpr hne
    simpa [he] using hlast
  · intro hall
    have he := (SubscriberPool.IsEmpty_iff _).mpr ((SyncMap.forall_Load_eq_none_iff _).mp hall)
    simpa [he] using hlast

/-- C13 on the run where publisher `1` connects, subscriber `1` connects and then
disconnects: after two calls the publisher's last record is `exists_subscriber`, after
three it is `no_subscribers`. -/
theorem C13_demand_gating_invariant_witness :
    lastDeliveredRecord mockPublisher1
        ((NewObserver NewPublisherPool NewSubscriberPool).run [] (gatingRun.take 2)).2
      = some ⟨CodeExistsSubscriber⟩ ∧
    lastDeliveredRecord mockPublisher1
        ((NewObserver NewPublisherPool NewSubscriberPool).run [] (gatingRun.take 3)).2
      = some ⟨CodeNoSubscribers⟩ := by
  have hok : ∀ c ∈ gatingRun, c.notificationsSucceed := by
    intro c hc
    simp only [gatingRun, List.mem_cons, List.mem_singleton, List.not_mem_nil, or_false] at hc
    rcases hc with rfl | rfl | rfl
    · exact ⟨rfl, rfl⟩
    · trivial
    · trivial
  exact ⟨(C13_demand_gating_invariant gatingRun hok 2 mockPublisher1 ⟨"1", by decide⟩).1
      ⟨"1", mockSubscriber1, rfl⟩,
    (C13_demand_gating_invariant gatingRun hok 3 mockPublisher1 ⟨"1", by decide⟩).2
      (fun _ => rfl)⟩

/-! ## Event codec and `ReceiveEvent` -/

theorem jsonUnmarshalEvent_marshal_exists :
    jsonUnmarshalEvent (jsonMarshalEvent ⟨CodeExistsSubscriber⟩)
      = (⟨CodeExistsSubscriber⟩, none) := by
  decide

theorem jsonUnmarshalEvent_marshal_noSubscribers :
    jsonUnmarshalEvent (jsonMarshalEvent ⟨CodeNoSubscribers⟩) = (⟨CodeNoSubscribers⟩, none) := by
  decide

theorem ReceiveEvent_bytesReader_of_parse (data : List UInt8) (maxMessageBytes : Nat)
    (event : Event) (hne : data ≠ []) (hlen : data.length ≤ maxMessageBytes)
    (hparse : jsonUnmarshalEvent data = (event, none)) :
    ReceiveEvent (bytesReader data) maxMessageBytes = (event, none) := by
  have hempty : data.isEmpty = false := by
    cases data with
    | nil => exact absurd rfl hne
    | cons b rest => rfl
  simp [ReceiveEvent, bytesReader, hempty, List.take_of_length_le hlen, hparse]

theorem QUICPublisherConn.sendEvent_writes (conn : QUICPublisherConn) (event : Event) :
    (conn.sendEvent event).writes = [jsonMarshalEvent event] := by
  simp only [QUICPublisherConn.sendEvent]
  split
  · rfl
  · split <;> rfl

theorem QUICPublisherConn.NotifyExistsSubscriber_writes (conn : QUICPublisherConn) :
    conn.NotifyExistsSubscriber.writes = [jsonMarshalEvent ⟨CodeExistsSubscriber⟩] := by
  have h := QUICPublisherConn.sendEvent_writes conn ⟨CodeExistsSubscriber⟩
  unfold QUICPublisherConn.NotifyExistsSubscriber
  cases hs : conn.sendEvent ⟨CodeExistsSubscriber⟩ with
  | mk err writes =>
    rw [hs] at h
    cases err <;> exact h

theorem QUICPublisherConn.NotifyNoSubscribers_writes (conn : QUICPublisherConn) :
    conn.NotifyNoSubscribers.writes = [jsonMarshalEvent ⟨CodeNoSubscribers⟩] := by
  have h := QUICPublisherConn.sendEvent_writes conn ⟨CodeNoSubscribers⟩
  unfold QUICPublisherConn.NotifyNoSubscribers
  cases hs : conn.sendEvent ⟨CodeNoSubscribers⟩ with
  | mk err writes =>
    rw [hs] at h
    cases err <;> exact h

/-- C14. For each of the two events, the bytes the broker writes for it are the
`json.Marshal` encoding, and `ReceiveEvent` on a reader that yields these bytes, with any
`maxMessageBytes` not below their length (their exact length included), returns that event
and no error. -/
theorem C14_event_codec_round_trip (conn : QUICPublisherConn) (e : Event)
    (maxMessageBytes : Nat) (he : e = ⟨CodeExistsSubscriber⟩ ∨ e = ⟨CodeNoSubscribers⟩)
    (hmax : (jsonMarshalEvent e).length ≤ maxMessageBytes) :
    (conn.sendEvent e).writes = [jsonMarshalEvent e] ∧
    ReceiveEvent (bytesReader (jsonMarshalEvent e)) maxMessageBytes = (e, none) := by
  refine ⟨QUICPublisherConn.sendEvent_writes conn e, ?_⟩
  rcases he with rfl | rfl
  · exact ReceiveEvent_bytesReader_of_parse _ _ _ (by decide) hmax
      jsonUnmarshalEvent_marshal_exists
  · exact ReceiveEvent_bytesReader_of_parse _ _ _ (by decide) hmax
      jsonUnmarshalEvent_marshal_noSubscribers

/-- C14 with `maxMessageBytes` exactly the length of the encoding, as in the test: 25 bytes
for `no_subscribers`, 28 for `exists_subscriber`. -/
theorem C14_event_codec_round_trip_witness :
    ReceiveEvent (bytesReader (jsonMarshalEvent ⟨CodeNoSubscribers⟩)) 25
      = (⟨CodeNoSubscribers⟩, none) ∧
    ReceiveEvent (bytesReader (jsonMarshalEvent ⟨CodeExistsSubscriber⟩)) 28
      = (⟨CodeExistsSubscriber⟩, none) :=
  ⟨(C14_event_codec_round_trip ⟨"p", goodSendStream⟩ ⟨CodeNoSubscribers⟩ 25 (Or.inr rfl)
      (by decide)).2,
    (C14_event_codec_round_trip ⟨"p", goodSendStream⟩ ⟨CodeExistsSubscriber⟩ 28 (Or.inl rfl)
      (by decide)).2⟩

/-- C15. Whatever the send stream answers, `NotifyExistsSubscriber` makes exactly one write,
of the text `{"code":"exists_subscriber"}`, and `NotifyNoSubscribers` exactly one write, of
the text `{"code":"no_subscribers"}`; each text is the JSON object with the single member
`code` and that value, and the two payloads differ. -/
theorem C15_event_wire_format (conn : QUICPublisherConn) :
    conn.NotifyExistsSubscriber.writes
      = [stringBytes "\x7b\"code\":\"exists_subscriber\"\x7d"] ∧
    conn.NotifyNoSubscribers.writes = [stringBytes "\x7b\"code\":\"no_subscribers\"\x7d"] ∧
    parseJSON (stringBytes "\x7b\"code\":\"exists_subscriber\"\x7d")
      = some (JSONValue.object [("code", JSONValue.string "exists_subscriber")]) ∧
    parseJSON (stringBytes "\x7b\"code\":\"no_subscribers\"\x7d")
      = some (JSONValue.object [("code", JSONValue.string "no_subscribers")]) ∧
    conn.NotifyExistsSubscriber.writes ≠ conn.NotifyNoSubscribers.writes := by
  have h1 : jsonMarshalEvent ⟨CodeExistsSubscriber⟩
      = stringBytes "\x7b\"code\":\"exists_subscriber\"\x7d" := by decide
  have h2 : jsonMarshalEvent ⟨CodeNoSubscribers⟩
      = stringBytes "\x7b\"code\":\"no_subscribers\"\x7d" := by decide
  refine ⟨?_, ?_, ?_, ?_, ?_⟩
  · rw [QUICPublisherConn.NotifyExistsSubscriber_writes, h1]
  · rw [QUICPublisherConn.NotifyNoSubscribers_writes, h2]
  · rfl
  · rfl
  · rw [QUICPublisherConn.NotifyExistsSubscriber_writes,
      QUICPublisherConn.NotifyNoSubscribers_writes]
    decide

/-- C16. `ReceiveEvent` fails in three distinct ways. When the read succeeds with bytes
that `json.Unmarshal` rejects, the error is a `*UnmarshalError` whose `Data` is exactly the
bytes read; when the read fails with a timeout it is `ErrNetworkTimeout`; when the read
fails otherwise it is the stream's error wrapped with `stream.Read`, which is neither a
`*UnmarshalError` nor matches `ErrNetworkTimeout`. In every failure the returned event is
the zero event. -/
theorem C16_receive_event_failure_kinds (stream : Nat → ReadResult) (maxMessageBytes : Nat) :
    (∀ jerr, (stream maxMessageBytes).err = none →
      (stream maxMessageBytes).data.length ≤ maxMessageBytes →
      (jsonUnmarshalEvent (stream maxMessageBytes).data).2 = some jerr →
      ReceiveEvent stream maxMessageBytes
        = (⟨""⟩, some (GoError.UnmarshalErrorPtr (stream maxMessageBytes).data jerr))) ∧
    (∀ e, (stream maxMessageBytes).err = some e → e.Timeout = true →
      ReceiveEvent stream maxMessageBytes = (⟨""⟩, some GoError.ErrNetworkTimeout)) ∧
    (∀ e, (stream maxMessageBytes).err = some e → e.Timeout = false →
      ReceiveEvent stream maxMessageBytes
        = (⟨""⟩, some (GoError.Wrap (GoError.stream e) "stream.Read"))) ∧
    (∀ data jerr, (GoError.UnmarshalErrorPtr data jerr).isUnmarshalErrorPtr = true ∧
      (GoError.UnmarshalErrorPtr data jerr).IsErrNetworkTimeout = false) ∧
    (GoError.ErrNetworkTimeout.isUnmarshalErrorPtr = false ∧
      GoError.ErrNetworkTimeout.IsErrNetworkTimeout = true) ∧
    (∀ e, (GoError.Wrap (GoError.stream e) "stream.Read").isUnmarshalErrorPtr = false ∧
      (GoError.Wrap (GoError.stream e) "stream.Read").IsErrNetworkTimeout = false) ∧
    (∀ g, (ReceiveEvent stream maxMessageBytes).2 = some g →
      (ReceiveEvent stream maxMessageBytes).1 = ⟨""⟩) := by
  refine ⟨?_, ?_, ?_, ?_, ?_, ?_, ?_⟩
  · intro jerr herr hlen hparse
    cases hj : jsonUnmarshalEvent (stream maxMessageBytes).data with
    | mk event jopt =>
      rw [hj] at hparse
      simp only at hparse
      subst hparse
      simp [ReceiveEvent, herr, List.take_of_length_le hlen, hj]
  · intro e herr ht
    simp [ReceiveEvent, herr, ht]
  · intro e herr ht
    simp [ReceiveEvent, herr, ht]
  · intro data jerr
    exact ⟨rfl, rfl⟩
  · exact ⟨rfl, rfl⟩
  · intro e
    exact ⟨rfl, rfl⟩
  · intro g hg
    cases herr : (stream maxMessageBytes).err with
    | some e =>
      cases ht : e.Timeout <;> simp [ReceiveEvent, herr, ht]
    | none =>
      cases hj : jsonUnmarshalEvent ((stream maxMessageBytes).data.take maxMessageBytes) with
      | mk event jopt =>
        cases jopt with
        | some jerr => simp [ReceiveEvent, herr, hj]
        | none => simp [ReceiveEvent, herr, hj] at hg

/-- C16 on the inputs of the test and on failing reads: `{invalid_json}` gives a
`*UnmarshalError` whose `Data` is `{invalid_json}`; a read that times out gives
`ErrNetworkTimeout`; a read on a closed stream gives the wrapped error. -/
theorem C16_receive_event_failure_kinds_witness :
    ReceiveEvent (bytesReader invalidMsg) invalidMsg.length
      = (⟨""⟩, some (GoError.UnmarshalErrorPtr invalidMsg JSONError.SyntaxError)) ∧
    ReceiveEvent (fun _ => ⟨[], some timeoutError⟩) 1000
      = (⟨""⟩, some GoError.ErrNetworkTimeout) ∧
    ReceiveEvent (fun _ => ⟨[], some closedError⟩) 1000
      = (⟨""⟩, some (GoError.Wrap (GoError.stream closedError) "stream.Read")) :=
  ⟨(C16_receive_event_failure_kinds (bytesReader invalidMsg) invalidMsg.length).1
      JSONError.SyntaxError (by decide) (by decide) (by decide),
    (C16_receive_event_failure_kinds (fun _ => ⟨[], some timeoutError⟩) 1000).2.1
      timeoutError rfl rfl,
    (C16_receive_event_failure_kinds (fun _ => ⟨[], some closedError⟩) 1000).2.2.1
      closedError rfl rfl⟩

/-! ## Publisher client: `listenForEvents` -/

/-- Whenever `ReceiveEvent` fails with the `*UnmarshalError` it builds, `listenForEvents`
does not take the branch that logs and continues: `errors.As` finds no `UnmarshalError`
value, so the method returns the error wrapped with `ReceiveEvent`, making no call. -/
theorem listenForEvents_of_UnmarshalErrorPtr (maxMessageBytes : Nat) (step : ListenStep)
    (rest : List ListenStep) (event : Event) (data : List UInt8) (jerr : JSONError)
    (hctx : step.ctxDone = false)
    (hrecv : ReceiveEvent step.stream maxMessageBytes
      = (event, some (GoError.UnmarshalErrorPtr data jerr))) :
    listenForEvents maxMessageBytes (step :: rest)
      = (some (some (GoError.Wrap (GoError.UnmarshalErrorPtr data jerr) "ReceiveEvent")),
          []) := by
  simp [listenForEvents, hctx, hrecv, GoError.AsUnmarshalError, GoError.IsErrNetworkTimeout]

/-- C17, the code at a corrupt record: on the bytes `{invalid_json}` followed by a valid
`exists_subscriber` record, `listenForEvents` returns the `*UnmarshalError` wrapped with
`ReceiveEvent` at the first iteration, without logging the corrupt event; `Run` then calls
`cancel()`; the valid record is never read and nothing is sent on `sendMessagesCh`. -/
theorem C17_corrupt_record_ends_listening :
    listenForEvents 1000 corruptThenValid
      = (some (some (GoError.Wrap
          (GoError.UnmarshalErrorPtr invalidMsg JSONError.SyntaxError) "ReceiveEvent")), []) ∧
    runCancelsOnListen 1000 corruptThenValid = true ∧
    sentOnSendMessagesCh (listenForEvents 1000 corruptThenValid).2 = [] := by
  decide

/-- C18. For every iteration in which the context is not done and `ReceiveEvent` returns an
event and no error, `listenForEvents` goes on with the next iteration, and on
`sendMessagesCh` it sends exactly `true` if the code is `exists_subscriber`, exactly `false`
if it is `no_subscribers`, and nothing for any other code. -/
theorem C18_known_codes_toggle_sending (maxMessageBytes : Nat) (step : ListenStep)
    (rest : List ListenStep) (event : Event) (hctx : step.ctxDone = false)
    (hrecv : ReceiveEvent step.stream maxMessageBytes = (event, none)) :
    (listenForEvents maxMessageBytes (step :: rest)).1
      = (listenForEvents maxMessageBytes rest).1 ∧
    (event.Code = "exists_subscriber" →
      sentOnSendMessagesCh (listenForEvents maxMessageBytes (step :: rest)).2
        = true :: sentOnSendMessagesCh (listenForEvents maxMessageBytes rest).2) ∧
    (event.Code = "no_subscribers" →
      sentOnSendMessagesCh (listenForEvents maxMessageBytes (step :: rest)).2
        = false :: sentOnSendMessagesCh (listenForEvents maxMessageBytes rest).2) ∧
    (event.Code ≠ "exists_subscriber" → event.Code ≠ "no_subscribers" →
      sentOnSendMessagesCh (listenForEvents maxMessageBytes (step :: rest)).2
        = sentOnSendMessagesCh (listenForEvents maxMessageBytes rest).2) := by
  by_cases h1 : event.Code = CodeExistsSubscriber
  · have h1' : event.Code = "exists_subscriber" := h1
    refine ⟨?_, ?_, ?_, ?_⟩
    · simp [listenForEvents, hctx, hrecv, h1]
    · intro _
      simp [listenForEvents, hctx, hrecv, h1, sentOnSendMessagesCh]
    · intro h
      rw [h1'] at h
      exact absurd h (by decide)
    · intro h
      exact absurd h1' h
  · by_cases h2 : event.Code = CodeNoSubscribers
    · have h2' : event.Code = "no_subscribers" := h2
      have hne : ¬ CodeNoSubscribers = CodeExistsSubscriber := by decide
      refine ⟨?_, ?_, ?_, ?_⟩
      · simp [listenForEvents, hctx, hrecv, h2, hne]
      · intro h
        exact absurd h h1
      · intro _
        simp [listenForEvents, hctx, hrecv, h2, hne, sentOnSendMessagesCh]
      · intro _ h
        exact absurd h2' h
    · refine ⟨?_, ?_, ?_, ?_⟩
      · simp [listenForEvents, hctx, hrecv, h1, h2]
      · intro h
        exact absurd h h1
      · intro h
        exact absurd h h2
      · intro _ _
        simp [listenForEvents, hctx, hrecv, h1, h2, sentOnSendMessagesCh]

/-- C18 on the two records the broker writes and on a record with an unknown code. -/
theorem C18_known_codes_toggle_sending_witness :
    sentOnSendMessagesCh (listenForEvents 1000
      [⟨false, bytesReader (jsonMarshalEvent ⟨CodeExistsSubscriber⟩)⟩]).2 = [true] ∧
    sentOnSendMessagesCh (listenForEvents 1000
      [⟨false, bytesReader (jsonMarshalEvent ⟨CodeNoSubscribers⟩)⟩]).2 = [false] ∧
    sentOnSendMessagesCh (listenForEvents 1000
      [⟨false, bytesReader (jsonMarshalEvent ⟨"paused"⟩)⟩]).2 = [] ∧
    (listenForEvents 1000 [⟨false, bytesReader (jsonMarshalEvent ⟨"paused"⟩)⟩]).1 = none :=
  ⟨(C18_known_codes_toggle_sending 1000
      ⟨false, bytesReader (jsonMarshalEvent ⟨CodeExistsSubscriber⟩)⟩ []
      ⟨CodeExistsSubscriber⟩ rfl (by decide)).2.1 rfl,
    (C18_known_codes_toggle_sending 1000
      ⟨false, bytesReader (jsonMarshalEvent ⟨CodeNoSubscribers⟩)⟩ []
      ⟨CodeNoSubscribers⟩ rfl (by decide)).2.2.1 rfl,
    (C18_known_codes_toggle_sending 1000
      ⟨false, bytesReader (jsonMarshalEvent ⟨"paused"⟩)⟩ [] ⟨"paused"⟩ rfl
      (by decide)).2.2.2 (by decide) (by decide),
    (C18_known_codes_toggle_sending 1000
      ⟨false, bytesReader (jsonMarshalEvent ⟨"paused"⟩)⟩ [] ⟨"paused"⟩ rfl (by decide)).1⟩

/-! ## Connection adapters: short writes -/

theorem QUICPublisherConn.sendEvent_err_eq_none_iff (conn : QUICPublisherConn)
    (event : Event) :
    (conn.sendEvent event).err = none ↔
      (conn.sendStream (jsonMarshalEvent event)).err = none ∧
      ((jsonMarshalEvent event).length : Int) ≤ (conn.sendStream (jsonMarshalEvent event)).n := by
  simp only [QUICPublisherConn.sendEvent]
  cases h : (conn.sendStream (jsonMarshalEvent event)).err with
  | some err => simp
  | none =>
    by_cases hn : (conn.sendStream (jsonMarshalEvent event)).n
        < ((jsonMarshalEvent event).length : Int)
    · simp [hn]
    · simp [hn, not_lt.mp hn]

theorem QUICPublisherConn.NotifyExistsSubscriber_err_eq_none_iff (conn : QUICPublisherConn) :
    conn.NotifyExistsSubscriber.err = none ↔
      (conn.sendEvent ⟨CodeExistsSubscriber⟩).err = none := by
  unfold QUICPublisherConn.NotifyExistsSubscriber
  cases hs : conn.sendEvent ⟨CodeExistsSubscriber⟩ with
  | mk err writes => cases err <;> simp

theorem QUICPublisherConn.NotifyNoSubscribers_err_eq_none_iff (conn : QUICPublisherConn) :
    conn.NotifyNoSubscribers.err = none ↔
      (conn.sendEvent ⟨CodeNoSubscribers⟩).err = none := by
  unfold QUICPublisherConn.NotifyNoSubscribers
  cases hs : conn.sendEvent ⟨CodeNoSubscribers⟩ with
  | mk err writes => cases err <;> simp

/-- C19. For every payload and whatever the send stream answers,
`QUICSubscriberConn.SendMessageToSubscriber` makes one write, of the payload, and returns
`nil` exactly when that write returned no error and a count not below the payload length;
a count below the payload length gives a non-nil error. The same holds for
`QUICPublisherConn.NotifyExistsSubscriber` and `NotifyNoSubscribers` with the encoded event
as payload. -/
theorem C19_short_write_is_fatal (sub : QUICSubscriberConn) (pub : QUICPublisherConn)
    (message : List UInt8) :
    ((sub.SendMessageToSubscriber message).writes = [message] ∧
      ((sub.SendMessageToSubscriber message).err = none ↔
        (sub.sendStream message).err = none ∧
          (message.length : Int) ≤ (sub.sendStream message).n) ∧
      ((sub.sendStream message).n < (message.length : Int) →
        (sub.SendMessageToSubscriber message).err ≠ none)) ∧
    (pub.NotifyExistsSubscriber.writes = [jsonMarshalEvent ⟨CodeExistsSubscriber⟩] ∧
      (pub.NotifyExistsSubscriber.err = none ↔
        (pub.sendStream (jsonMarshalEvent ⟨CodeExistsSubscriber⟩)).err = none ∧
          ((jsonMarshalEvent ⟨CodeExistsSubscriber⟩).length : Int)
            ≤ (pub.sendStream (jsonMarshalEvent ⟨CodeExistsSubscriber⟩)).n) ∧
      ((pub.sendStream (jsonMarshalEvent ⟨CodeExistsSubscriber⟩)).n
          < ((jsonMarshalEvent ⟨CodeExistsSubscriber⟩).length : Int) →
        pub.NotifyExistsSubscriber.err ≠ none)) ∧
    (pub.NotifyNoSubscribers.writes = [jsonMarshalEvent ⟨CodeNoSubscribers⟩] ∧
      (pub.NotifyNoSubscribers.err = none ↔
        (pub.sendStream (jsonMarshalEvent ⟨CodeNoSubscribers⟩)).err = none ∧
          ((jsonMarshalEvent ⟨CodeNoSubscribers⟩).length : Int)
            ≤ (pub.sendStream (jsonMarshalEvent ⟨CodeNoSubscribers⟩)).n) ∧
      ((pub.sendStream (jsonMarshalEvent ⟨CodeNoSubscribers⟩)).n
          < ((jsonMarshalEvent ⟨CodeNoSubscribers⟩).length : Int) →
        pub.NotifyNoSubscribers.err ≠ none)) := by
  have hsub : (sub.SendMessageToSubscriber message).err = none ↔
      (sub.sendStream message).err = none ∧
        (message.length : Int) ≤ (sub.sendStream message).n := by
    simp only [QUICSubscriberConn.SendMessageToSubscriber]
    cases h : (sub.sendStream message).err with
    | some err => simp
    | none =>
      by_cases hn : (sub.sendStream message).n < (message.length : Int)
      · simp [hn]
      · simp [hn, not_lt.mp hn]
  have hex := (QUICPublisherConn.NotifyExistsSubscriber_err_eq_none_iff pub).trans
    (QUICPublisherConn.sendEvent_err_eq_none_iff pub ⟨CodeExistsSubscriber⟩)
  have hno := (QUICPublisherConn.NotifyNoSubscribers_err_eq_none_iff pub).trans
    (QUICPublisherConn.sendEvent_err_eq_none_iff pub ⟨CodeNoSubscribers⟩)
  refine ⟨⟨?_, hsub, ?_⟩, ⟨QUICPublisherConn.NotifyExistsSubscriber_writes pub, hex, ?_⟩,
    ⟨QUICPublisherConn.NotifyNoSubscribers_writes pub, hno, ?_⟩⟩
  · simp only [QUICSubscriberConn.SendMessageToSubscriber]
    split
    · rfl
    · split <;> rfl
  · intro hlt hnone
    exact absurd (hsub.mp hnone).2 (not_le.mpr hlt)
  · intro hlt hnone
    exact absurd (hex.mp hnone).2 (not_le.mpr hlt)
  · intro hlt hnone
    exact absurd (hno.mp hnone).2 (not_le.mpr hlt)

/-- C19 on a stream that reports one byte written and no error: sending the three bytes
`foo` fails, and so do both notifications. -/
theorem C19_short_write_is_fatal_witness :
    (QUICSubscriberConn.SendMessageToSubscriber ⟨"s", shortSendStream⟩ messageFoo).err ≠ none ∧
    (QUICPublisherConn.NotifyExistsSubscriber ⟨"p", shortSendStream⟩).err ≠ none ∧
    (QUICPublisherConn.NotifyNoSubscribers ⟨"p", shortSendStream⟩).err ≠ none ∧
    (QUICSubscriberConn.SendMessageToSubscriber ⟨"s", goodSendStream⟩ messageFoo).err = none :=
  ⟨(C19_short_write_is_fatal ⟨"s", shortSendStream⟩ ⟨"p", shortSendStream⟩ messageFoo).1.2.2
      (by decide),
    (C19_short_write_is_fatal ⟨"s", shortSendStream⟩ ⟨"p", shortSendStream⟩ messageFoo).2.1.2.2
      (by decide),
    (C19_short_write_is_fatal ⟨"s", shortSendStream⟩ ⟨"p", shortSendStream⟩ messageFoo).2.2.2.2
      (by decide),
    (C19_short_write_is_fatal ⟨"s", goodSendStream⟩ ⟨"p", goodSendStream⟩ messageFoo).1.2.1.mpr
      ⟨rfl, by decide⟩⟩

/-! ## Pinger: how the loops end -/

theorem Pinger.SendPings_append_of_succeeds (s : Pinger) (ok tail : List PingRound)
    (hok : ∀ x ∈ ok, x.succeeds) :
    (s.SendPings (ok ++ tail)).1 = (s.SendPings tail).1 := by
  induction ok with
  | nil => rfl
  | cons x rest ih =>
    obtain ⟨h1, h2, h3, h4, h5⟩ := hok x (List.mem_cons_self _ _)
    have := ih (fun y hy => hok y (List.mem_cons_of_mem _ hy))
    simpa [Pinger.SendPings, Pinger.sendPing, Pinger.waitForPing, h1, h2, h3, h4, h5] using this

theorem Pinger.AcceptPings_append_of_succeeds (s : Pinger) (ok tail : List PingRound)
    (hok : ∀ x ∈ ok, x.succeeds) :
    (s.AcceptPings (ok ++ tail)).1 = (s.AcceptPings tail).1 := by
  induction ok with
  | nil => rfl
  | cons x rest ih =>
    obtain ⟨h1, h2, h3, h4, h5⟩ := hok x (List.mem_cons_self _ _)
    have := ih (fun y hy => hok y (List.mem_cons_of_mem _ hy))
    simpa [Pinger.AcceptPings, Pinger.sendPing, Pinger.waitForPing, h1, h2, h3, h4, h5]
      using this

/-- C20. Let a ping loop run through any number of iterations in which everything succeeds
and then meet the iteration `r`. If `r` finds the context cancelled, `SendPings` and
`AcceptPings` return `nil`. Otherwise, at the first operation of `r` that fails: a write or
a read that fails with a timeout makes the loop return `ErrNetworkTimeout` wrapped, which
matches `ErrNetworkTimeout`; a write or a read that fails otherwise, and a deadline that
cannot be set, make it return the stream's error wrapped twice, which does not match
`ErrNetworkTimeout`. `SendPings` writes first and reads second, `AcceptPings` reads first
and writes second. -/
theorem C20_ping_loops_error_kinds (s : Pinger) (ok : List PingRound) (r : PingRound)
    (rest : List PingRound) (hok : ∀ x ∈ ok, x.succeeds) :
    (r.ctxDone = true →
      (s.SendPings (ok ++ r :: rest)).1 = some none ∧
      (s.AcceptPings (ok ++ r :: rest)).1 = some none) ∧
    (r.ctxDone = false →
      (∀ e, r.SetWriteDeadline = some e →
        (s.SendPings (ok ++ r :: rest)).1 = some (some (GoError.Wrap
          (GoError.Wrap (GoError.stream e) "SetWriteDeadline") "sendPing"))) ∧
      (∀ e, r.SetWriteDeadline = none → (r.Write [0x31]).err = some e → e.Timeout = true →
        (s.SendPings (ok ++ r :: rest)).1
          = some (some (GoError.Wrap GoError.ErrNetworkTimeout "sendPing"))) ∧
      (∀ e, r.SetWriteDeadline = none → (r.Write [0x31]).err = some e → e.Timeout = false →
        (s.SendPings (ok ++ r :: rest)).1 = some (some (GoError.Wrap
          (GoError.Wrap (GoError.stream e) "stream.Write") "sendPing"))) ∧
      (∀ e, r.SetWriteDeadline = none → (r.Write [0x31]).err = none →
        r.SetReadDeadline = some e →
        (s.SendPings (ok ++ r :: rest)).1 = some (some (GoError.Wrap
          (GoError.Wrap (GoError.stream e) "SetReadDeadline") "waitForPing"))) ∧
      (∀ e, r.SetWriteDeadline = none → (r.Write [0x31]).err = none →
        r.SetReadDeadline = none → (r.Read 1).err = some e → e.Timeout = true →
        (s.SendPings (ok ++ r :: rest)).1
          = some (some (GoError.Wrap GoError.ErrNetworkTimeout "waitForPing"))) ∧
      (∀ e, r.SetWriteDeadline = none → (r.Write [0x31]).err = none →
        r.SetReadDeadline = none → (r.Read 1).err = some e → e.Timeout = false →
        (s.SendPings (ok ++ r :: rest)).1 = some (some (GoError.Wrap
          (GoError.Wrap (GoError.stream e) "stream.Read") "waitForPing")))) ∧
    (r.ctxDone = false →
      (∀ e, r.SetReadDeadline = some e →
        (s.AcceptPings (ok ++ r :: rest)).1 = some (some (GoError.Wrap
          (GoError.Wrap (GoError.stream e) "SetReadDeadline") "waitForPing"))) ∧
      (∀ e, r.SetReadDeadline = none → (r.Read 1).err = some e → e.Timeout = true →
        (s.AcceptPings (ok ++ r :: rest)).1
          = some (some (GoError.Wrap GoError.ErrNetworkTimeout "waitForPing"))) ∧
      (∀ e, r.SetReadDeadline = none → (r.Read 1).err = some e → e.Timeout = false →
        (s.AcceptPings (ok ++ r :: rest)).1 = some (some (GoError.Wrap
          (GoError.Wrap (GoError.stream e) "stream.Read") "waitForPing"))) ∧
      (∀ e, r.SetReadDeadline = none → (r.Read 1).err = none →
        r.SetWriteDeadline = some e →
        (s.AcceptPings (ok ++ r :: rest)).1 = some (some (GoError.Wrap
          (GoError.Wrap (GoError.stream e) "SetWriteDeadline") "sendPing"))) ∧
      (∀ e, r.SetReadDeadline = none → (r.Read 1).err = none →
        r.SetWriteDeadline = none → (r.Write [0x31]).err = some e → e.Timeout = true →
        (s.AcceptPings (ok ++ r :: rest)).1
          = some (some (GoError.Wrap GoError.ErrNetworkTimeout "sendPing"))) ∧
      (∀ e, r.SetReadDeadline = none → (r.Read 1).err = none →
        r.SetWriteDeadline = none → (r.Write [0x31]).err = some e → e.Timeout = false →
        (s.AcceptPings (ok ++ r :: rest)).1 = some (some (GoError.Wrap
          (GoError.Wrap (GoError.stream e) "stream.Write") "sendPing")))) ∧
    (∀ message, (GoError.Wrap GoError.ErrNetworkTimeout message).IsErrNetworkTimeout = true) ∧
    (∀ e inner outer, (GoError.Wrap (GoError.Wrap (GoError.stream e) inner)
      outer).IsErrNetworkTimeout = false) := by
  rw [Pinger.SendPings_append_of_succeeds s ok _ hok,
    Pinger.AcceptPings_append_of_succeeds s ok _ hok]
  refine ⟨?_, ?_, ?_, fun _ => rfl, fun _ _ _ => rfl⟩
  · intro hd
    simp [Pinger.SendPings, Pinger.AcceptPings, hd]
  · intro hd
    refine ⟨?_, ?_, ?_, ?_, ?_, ?_⟩
    · intro e h1
      simp [Pinger.SendPings, Pinger.sendPing, hd, h1]
    · intro e h1 h2 h3
      simp [Pinger.SendPings, Pinger.sendPing, hd, h1, h2, h3]
    · intro e h1 h2 h3
      simp [Pinger.SendPings, Pinger.sendPing, hd, h1, h2, h3]
    · intro e h1 h2 h3
      simp [Pinger.SendPings, Pinger.sendPing, Pinger.waitForPing, hd, h1, h2, h3]
    · intro e h1 h2 h3 h4 h5
      simp [Pinger.SendPings, Pinger.sendPing, Pinger.waitForPing, hd, h1, h2, h3, h4, h5]
    · intro e h1 h2 h3 h4 h5
      simp [Pinger.SendPings, Pinger.sendPing, Pinger.waitForPing, hd, h1, h2, h3, h4, h5]
  · intro hd
    refine ⟨?_, ?_, ?_, ?_, ?_, ?_⟩
    · intro e h1
      simp [Pinger.AcceptPings, Pinger.waitForPing, hd, h1]
    · intro e h1 h2 h3
      simp [Pinger.AcceptPings, Pinger.waitForPing, hd, h1, h2, h3]
    · intro e h1 h2 h3
      simp [Pinger.AcceptPings, Pinger.waitForPing, hd, h1, h2, h3]
    · intro e h1 h2 h3
      simp [Pinger.AcceptPings, Pinger.sendPing, Pinger.waitForPing, hd, h1, h2, h3]
    · intro e h1 h2 h3 h4 h5
      simp [Pinger.AcceptPings, Pinger.sendPing, Pinger.waitForPing, hd, h1, h2, h3, h4, h5]
    · intro e h1 h2 h3 h4 h5
      simp [Pinger.AcceptPings, Pinger.sendPing, Pinger.waitForPing, hd, h1, h2, h3, h4, h5]

/-- C20 after two good rounds: a cancelled context ends both loops with `nil`; a write
that times out ends `SendPings` with an error that matches `ErrNetworkTimeout`; a read on
a closed stream ends `AcceptPings` with an error that does not. -/
theorem C20_ping_loops_error_kinds_witness :
    ((NewPinger NewDefaultPingerConfig).SendPings [goodRound, goodRound, doneRound]).1
      = some none ∧
    ((NewPinger NewDefaultPingerConfig).AcceptPings [goodRound, goodRound, doneRound]).1
      = some none ∧
    ((NewPinger NewDefaultPingerConfig).SendPings
        [goodRound, goodRound, writeTimeoutRound]).1
      = some (some (GoError.Wrap GoError.ErrNetworkTimeout "sendPing")) ∧
    ((NewPinger NewDefaultPingerConfig).AcceptPings
        [goodRound, goodRound, readClosedRound]).1
      = some (some (GoError.Wrap
          (GoError.Wrap (GoError.stream closedError) "stream.Read") "waitForPing")) := by
  have hok : ∀ x ∈ [goodRound, goodRound], x.succeeds := by
    intro x hx
    simp only [List.mem_cons, List.mem_singleton, List.not_mem_nil, or_false, or_self] at hx
    subst hx
    exact ⟨rfl, rfl, rfl, rfl, rfl⟩
  have hdone := (C20_ping_loops_error_kinds (NewPinger NewDefaultPingerConfig)
    [goodRound, goodRound] doneRound [] hok).1 rfl
  exact ⟨hdone.1, hdone.2,
    ((C20_ping_loops_error_kinds (NewPinger NewDefaultPingerConfig) [goodRound, goodRound]
      writeTimeoutRound [] hok).2.1 rfl).2.1 timeoutError rfl rfl rfl,
    ((C20_ping_loops_error_kinds (NewPinger NewDefaultPingerConfig) [goodRound, goodRound]
      readClosedRound [] hok).2.2.1 rfl).2.2.1 closedError rfl rfl rfl⟩

/-! ## Pinger: what `SendPings` transfers -/

theorem Pinger.SendPings_calls_of_succeeds (s : Pinger) (ok tail : List PingRound)
    (hok : ∀ x ∈ ok, x.succeeds) :
    pingWrites (s.SendPings (ok ++ tail)).2
      = List.replicate ok.length [0x31] ++ pingWrites (s.SendPings tail).2 ∧
    pingReads (s.SendPings (ok ++ tail)).2
      = List.replicate ok.length 1 ++ pingReads (s.SendPings tail).2 ∧
    pingTransfers (s.SendPings (ok ++ tail)).2
      = (List.replicate ok.length [PingCall.Write [0x31], PingCall.Read 1]).flatten
          ++ pingTransfers (s.SendPings tail).2 := by
  induction ok with
  | nil => simp
  | cons x rest ih =>
    obtain ⟨h1, h2, h3, h4, h5⟩ := hok x (List.mem_cons_self _ _)
    obtain ⟨i1, i2, i3⟩ := ih (fun y hy => hok y (List.mem_cons_of_mem _ hy))
    refine ⟨?_, ?_, ?_⟩
    · simp [Pinger.SendPings, Pinger.sendPing, Pinger.waitForPing, h1, h2, h3, h4, h5,
        pingWrites, i1, List.replicate_succ]
    · simp [Pinger.SendPings, Pinger.sendPing, Pinger.waitForPing, h1, h2, h3, h4, h5,
        pingReads, i2, List.replicate_succ]
    · simp [Pinger.SendPings, Pinger.sendPing, Pinger.waitForPing, h1, h2, h3, h4, h5,
        pingTransfers, i3, List.replicate_succ]

/-! ## Pinger: `SendPings` on a clock -/

theorem selectsDone_of_before (interval deadline now late : Nat) (doneOnTie : Bool)
    (h : now + interval + late < deadline) :
    selectsDone interval deadline now late doneOnTie = false := by
  have h1 : ¬ deadline < now + interval + late := by omega
  have h2 : ¬ deadline = now + interval + late := by omega
  simp [selectsDone, h1, h2]

theorem selectsDone_of_after (interval deadline now late : Nat) (doneOnTie : Bool)
    (h : deadline < now + interval + late) :
    selectsDone interval deadline now late doneOnTie = true := by
  simp [selectsDone, h]

theorem clockedRounds_cons_of_before (interval deadline now : Nat) (pass : ClockedPass)
    (rest : List ClockedPass) (h : now + interval + pass.late < deadline) :
    clockedRounds interval deadline now (pass :: rest)
      = pass.round false
          :: clockedRounds interval deadline (now + interval + pass.late + pass.took) rest := by
  simp [clockedRounds, selectsDone_of_before interval deadline now pass.late pass.doneOnTie h]

theorem ClockedPass.round_succeeds (pass : ClockedPass) (h : pass.succeeds) :
    (pass.round false).succeeds :=
  ⟨rfl, h.1, h.2.1, h.2.2.1, h.2.2.2⟩

theorem Pinger.SendPings_clockedRounds_returns (s : Pinger) (interval deadline : Nat)
    (n : Nat) : ∀ (now : Nat) (passes : List ClockedPass), (∀ p ∈ passes, p.succeeds) →
      deadline < now + (n + 1) * interval → n + 1 ≤ passes.length →
      (s.SendPings (clockedRounds interval deadline now passes)).1 = some none := by
  induction n with
  | zero =>
    intro now passes _ hlt hlen
    cases passes with
    | nil => simp at hlen
    | cons p rest =>
      have hd : selectsDone interval deadline now p.late p.doneOnTie = true :=
        selectsDone_of_after interval deadline now p.late p.doneOnTie
          (by simp only [Nat.zero_add, Nat.one_mul] at hlt; omega)
      simp [clockedRounds, hd, Pinger.SendPings, ClockedPass.round]
  | succ n ih =>
    intro now passes hok hlt hlen
    cases passes with
    | nil => simp at hlen
    | cons p rest =>
      cases hd : selectsDone interval deadline now p.late p.doneOnTie with
      | true => simp [clockedRounds, hd, Pinger.SendPings, ClockedPass.round]
      | false =>
        have hp : ∀ x ∈ [p.round false], x.succeeds := by
          intro x hx
          rw [List.mem_singleton] at hx
          subst hx
          exact ClockedPass.round_succeeds p (hok p (List.mem_cons_self _ _))
        have happ := Pinger.SendPings_append_of_succeeds s [p.round false]
          (clockedRounds interval deadline (now + interval + p.late + p.took) rest) hp
        have hstep : clockedRounds interval deadline now (p :: rest)
            = [p.round false]
                ++ clockedRounds interval deadline (now + interval + p.late + p.took) rest := by
          simp [clockedRounds, hd]
        rw [hstep, happ]
        apply ih
        · exact fun y hy => hok y (List.mem_cons_of_mem _ hy)
        · rw [Nat.succ_mul] at hlt
          omega
        · simp only [List.length_cons] at hlen
          omega

theorem Pinger.SendPingsWithTimeout_six_intervals (s : Pinger) (passes : List ClockedPass)
    (hpos : 0 < s.config.Interval) (hok : ∀ p ∈ passes, p.succeeds)
    (hlen : 7 ≤ passes.length)
    (hfast : ((passes.take 5).map ClockedPass.late).sum
        + ((passes.take 4).map ClockedPass.took).sum < s.config.Interval) :
    (s.SendPingsWithTimeout (6 * s.config.Interval) passes).1 = some none ∧
    5 ≤ (pingWrites (s.SendPingsWithTimeout (6 * s.config.Interval) passes).2).length ∧
    5 ≤ (pingReads (s.SendPingsWithTimeout (6 * s.config.Interval) passes).2).length := by
  rcases passes with _ | ⟨p0, _ | ⟨p1, _ | ⟨p2, _ | ⟨p3, _ | ⟨p4, rest⟩⟩⟩⟩⟩ <;>
    simp only [List.length_nil, List.length_cons] at hlen <;> try omega
  simp only [List.take, List.map, List.sum_cons, List.sum_nil] at hfast
  have hrounds : clockedRounds s.config.Interval (6 * s.config.Interval) 0
        (p0 :: p1 :: p2 :: p3 :: p4 :: rest)
      = [p0.round false, p1.round false, p2.round false, p3.round false, p4.round false]
          ++ clockedRounds s.config.Interval (6 * s.config.Interval)
              (0 + s.config.Interval + p0.late + p0.took + s.config.Interval + p1.late + p1.took
                + s.config.Interval + p2.late + p2.took + s.config.Interval + p3.late + p3.took
                + s.config.Interval + p4.late + p4.took) rest := by
    rw [clockedRounds_cons_of_before _ _ _ p0 _ (by omega),
      clockedRounds_cons_of_before _ _ _ p1 _ (by omega),
      clockedRounds_cons_of_before _ _ _ p2 _ (by omega),
      clockedRounds_cons_of_before _ _ _ p3 _ (by omega),
      clockedRounds_cons_of_before _ _ _ p4 _ (by omega)]
    rfl
  have hfive : ∀ x ∈ [p0.round false, p1.round false, p2.round false, p3.round false,
      p4.round false], x.succeeds := by
    intro x hx
    simp only [List.mem_cons, List.mem_singleton, List.not_mem_nil, or_false] at hx
    rcases hx with h | h | h | h | h <;> subst h <;>
      exact ClockedPass.round_succeeds _ (hok _ (by simp))
  have htail := Pinger.SendPings_clockedRounds_returns s s.config.Interval
    (6 * s.config.Interval) 1
    (0 + s.config.Interval + p0.late + p0.took + s.config.Interval + p1.late + p1.took
      + s.config.Interval + p2.late + p2.took + s.config.Interval + p3.late + p3.took
      + s.config.Interval + p4.late + p4.took) rest
    (fun y hy => hok y (by simp [hy])) (by omega) (by omega)
  obtain ⟨hw, hr, _⟩ := Pinger.SendPings_calls_of_succeeds s _
    (clockedRounds s.config.Interval (6 * s.config.Interval)
      (0 + s.config.Interval + p0.late + p0.took + s.config.Interval + p1.late + p1.took
        + s.config.Interval + p2.late + p2.took + s.config.Interval + p3.late + p3.took
        + s.config.Interval + p4.late + p4.took) rest) hfive
  have hres := Pinger.SendPings_append_of_succeeds s _
    (clockedRounds s.config.Interval (6 * s.config.Interval)
      (0 + s.config.Interval + p0.late + p0.took + s.config.Interval + p1.late + p1.took
        + s.config.Interval + p2.late + p2.took + s.config.Interval + p3.late + p3.took
        + s.config.Interval + p4.late + p4.took) rest) hfive
  unfold Pinger.SendPingsWithTimeout
  rw [hrounds]
  refine ⟨hres.trans htail, ?_, ?_⟩
  · rw [hw]
    simp
  · rw [hr]
    simp

/-- C21, the claim as it stands fails: on a stream whose four operations always succeed
and whose peer answers a ping after one interval (50 ms, the timeout being 1 s), `SendPings`
of the pinger of the test under a context cancelled after 6 intervals returns `nil` after
three writes and three reads, not after at least five. -/
theorem C21_six_intervals_fewer_than_five_pings_counterexample :
    (∀ p ∈ List.replicate 7 slowPass, p.succeeds) ∧
    ((NewPinger testPingerConfig).SendPingsWithTimeout (6 * testPingerConfig.Interval)
        (List.replicate 7 slowPass)).1 = some none ∧
    pingWrites ((NewPinger testPingerConfig).SendPingsWithTimeout
        (6 * testPingerConfig.Interval) (List.replicate 7 slowPass)).2
      = [[0x31], [0x31], [0x31]] ∧
    pingReads ((NewPinger testPingerConfig).SendPingsWithTimeout
        (6 * testPingerConfig.Interval) (List.replicate 7 slowPass)).2 = [1, 1, 1] ∧
    ¬ (5 ≤ (pingWrites ((NewPinger testPingerConfig).SendPingsWithTimeout
        (6 * testPingerConfig.Interval) (List.replicate 7 slowPass)).2).length) := by
  refine ⟨?_, by decide, by decide, by decide, by decide⟩
  intro p hp
  rw [List.eq_of_mem_replicate hp]
  exact ⟨rfl, rfl, rfl, rfl⟩

/-- C21, amended. On a stream whose deadline, write and read operations always succeed, let
the timer case of `SendPings` be taken `k` times and then the context be found cancelled:
the method returns `nil`, it has made exactly `k` writes, each of the one byte `'1'`, and
exactly `k` reads, each into a buffer of one byte, and the writes and reads alternate,
write first. Under a context that is cancelled after 6 intervals, with an interval that is
not zero, `SendPings` on such a stream returns `nil` after at least five writes and at least
five reads, provided the lateness of the first five timers and the time the bodies of the
first four passes take are together less than one interval. -/
theorem C21_send_pings_one_write_one_read_per_tick (s : Pinger) (ok : List PingRound)
    (done : PingRound) (rest : List PingRound) (hok : ∀ x ∈ ok, x.succeeds)
    (hdone : done.ctxDone = true) :
    (s.SendPings (ok ++ done :: rest)).1 = some none ∧
    pingWrites (s.SendPings (ok ++ done :: rest)).2 = List.replicate ok.length [0x31] ∧
    pingReads (s.SendPings (ok ++ done :: rest)).2 = List.replicate ok.length 1 ∧
    pingTransfers (s.SendPings (ok ++ done :: rest)).2
      = (List.replicate ok.length [PingCall.Write [0x31], PingCall.Read 1]).flatten ∧
    (∀ passes : List ClockedPass, 0 < s.config.Interval → (∀ p ∈ passes, p.succeeds) →
      7 ≤ passes.length →
      ((passes.take 5).map ClockedPass.late).sum
        + ((passes.take 4).map ClockedPass.took).sum < s.config.Interval →
      (s.SendPingsWithTimeout (6 * s.config.Interval) passes).1 = some none ∧
      5 ≤ (pingWrites (s.SendPingsWithTimeout (6 * s.config.Interval) passes).2).length ∧
      5 ≤ (pingReads (s.SendPingsWithTimeout (6 * s.config.Interval) passes).2).length) := by
  obtain ⟨hw, hr, ht⟩ := Pinger.SendPings_calls_of_succeeds s ok (done :: rest) hok
  have htail : s.SendPings (done :: rest)
      = (some none, [PingCall.Debug "Stopping sending pings, context cancelled"]) := by
    simp [Pinger.SendPings, hdone]
  rw [htail] at hw hr ht
  have hres := Pinger.SendPings_append_of_succeeds s ok (done :: rest) hok
  rw [htail] at hres
  simp only [pingWrites, pingReads, pingTransfers, List.append_nil] at hw hr ht
  exact ⟨hres, hw, hr, ht, fun passes hpos hpasses hlen hfast =>
    Pinger.SendPingsWithTimeout_six_intervals s passes hpos hpasses hlen hfast⟩

/-- C21 on the mock stream of the test. With five timer firings before the context is done,
`SendPings` returns `nil` after five writes of `'1'` and five reads; and the pinger of the
test, with its interval of 50 ms, under a context cancelled after 300 ms returns `nil` after
at least five writes and five reads, also when the tie at 300 ms goes to `ctx.Done()`. -/
theorem C21_send_pings_one_write_one_read_per_tick_witness :
    ((NewPinger testPingerConfig).SendPings
        [goodRound, goodRound, goodRound, goodRound, goodRound, doneRound]).1 = some none ∧
    pingWrites ((NewPinger testPingerConfig).SendPings
        [goodRound, goodRound, goodRound, goodRound, goodRound, doneRound]).2
      = [[0x31], [0x31], [0x31], [0x31], [0x31]] ∧
    pingReads ((NewPinger testPingerConfig).SendPings
        [goodRound, goodRound, goodRound, goodRound, goodRound, doneRound]).2
      = [1, 1, 1, 1, 1] ∧
    ((NewPinger testPingerConfig).SendPingsWithTimeout (6 * testPingerConfig.Interval)
        (List.replicate 7 (mockPass true))).1 = some none ∧
    5 ≤ (pingWrites ((NewPinger testPingerConfig).SendPingsWithTimeout
        (6 * testPingerConfig.Interval) (List.replicate 7 (mockPass true))).2).length ∧
    5 ≤ (pingReads ((NewPinger testPingerConfig).SendPingsWithTimeout
        (6 * testPingerConfig.Interval) (List.replicate 7 (mockPass true))).2).length := by
  have hok : ∀ x ∈ [goodRound, goodRound, goodRound, goodRound, goodRound], x.succeeds := by
    intro x hx
    simp only [List.mem_cons, List.mem_singleton, List.not_mem_nil, or_false, or_self] at hx
    subst hx
    exact ⟨rfl, rfl, rfl, rfl, rfl⟩
  have hpasses : ∀ p ∈ List.replicate 7 (mockPass true), p.succeeds := by
    intro p hp
    rw [List.eq_of_mem_replicate hp]
    exact ⟨rfl, rfl, rfl, rfl⟩
  have h := C21_send_pings_one_write_one_read_per_tick (NewPinger testPingerConfig)
    [goodRound, goodRound, goodRound, goodRound, goodRound] doneRound [] hok rfl
  exact ⟨h.1, h.2.1, h.2.2.1,
    h.2.2.2.2 (List.replicate 7 (mockPass true)) (by decide) hpasses (by decide) (by decide)⟩

/-! ## Message sender -/

theorem sentToRecipient_append (a b : List SenderCall) :
    sentToRecipient (a ++ b) = sentToRecipient a ++ sentToRecipient b := by
  induction a with
  | nil => rfl
  | cons c rest ih => cases c <;> simp [sentToRecipient, ih]

theorem sentOnFailCh_append (a b : List SenderCall) :
    sentOnFailCh (a ++ b) = sentOnFailCh a ++ sentOnFailCh b := by
  induction a with
  | nil => rfl
  | cons c rest ih => cases c <;> simp [sentOnFailCh, ih]

/-- While the loop has not returned, what it does on more passes is what the loop entered
with the current value of `send` does on them. -/
theorem MessageSender.loop_append_of_running (s : MessageSender) (pre tail : List SenderEvent)
    (send : Bool) (hrun : (s.loop send pre).1 = false) :
    s.loop send (pre ++ tail)
      = ((s.loop (sendAfter send pre) tail).1,
          (s.loop send pre).2 ++ (s.loop (sendAfter send pre) tail).2) := by
  induction pre generalizing send with
  | nil => simp [MessageSender.loop, sendAfter]
  | cons ev rest ih =>
    cases ev with
    | ctxDone => simp [MessageSender.loop] at hrun
    | toggle val =>
      simp only [MessageSender.loop, List.cons_append, sendAfter] at hrun ⊢
      exact ih val hrun
    | tick getMessage sendTo =>
      cases send with
      | false =>
        simp only [MessageSender.loop, List.cons_append, sendAfter, Bool.false_eq_true,
          if_false] at hrun ⊢
        exact ih false hrun
      | true =>
        cases hs : sendTo getMessage.1 with
        | some err => simp [MessageSender.loop, hs] at hrun
        | none =>
          simp only [MessageSender.loop, hs, if_true] at hrun
          have h := ih true hrun
          simp only [MessageSender.loop, List.cons_append, sendAfter, hs, if_true,
            List.append_eq, h]
          simp

theorem MessageSender.failCh_of_running (s : MessageSender) (pre : List SenderEvent)
    (send : Bool) (hrun : (s.loop send pre).1 = false) :
    ∀ g ∈ sentOnFailCh (s.loop send pre).2,
      ∃ cause, g = GoError.Wrap cause "get message from provider" := by
  induction pre generalizing send with
  | nil => simp [MessageSender.loop, sentOnFailCh]
  | cons ev rest ih =>
    cases ev with
    | ctxDone => simp [MessageSender.loop] at hrun
    | toggle val =>
      simp only [MessageSender.loop] at hrun ⊢
      exact ih val hrun
    | tick getMessage sendTo =>
      cases send with
      | false =>
        simp only [MessageSender.loop, Bool.false_eq_true, if_false] at hrun ⊢
        exact ih false hrun
      | true =>
        cases hs : sendTo getMessage.1 with
        | some err => simp [MessageSender.loop, hs] at hrun
        | none =>
          simp only [MessageSender.loop, hs, if_true] at hrun
          simp only [MessageSender.loop, hs, if_true]
          intro g hg
          rw [sentOnFailCh_append] at hg
          rcases List.mem_append.mp hg with hg | hg
          · cases hge : getMessage.2 with
            | none => simp [hge, sentOnFailCh] at hg
            | some e =>
              simp only [hge, sentOnFailCh, List.mem_singleton] at hg
              exact ⟨e, hg⟩
          · simp only [sentOnFailCh] at hg
            exact ih true hrun g hg

theorem MessageSender.nothing_sent_while_off (s : MessageSender) (events : List SenderEvent)
    (hoff : ∀ val, SenderEvent.toggle val ∈ events → val = false) :
    sentToRecipient (s.loop false events).2 = [] := by
  induction events with
  | nil => rfl
  | cons ev rest ih =>
    have ih' := ih (fun val hval => hoff val (List.mem_cons_of_mem _ hval))
    cases ev with
    | ctxDone => simp [MessageSender.loop, sentToRecipient]
    | toggle val =>
      have hv : val = false := hoff val (List.mem_cons_self _ _)
      subst hv
      simpa [MessageSender.loop] using ih'
    | tick getMessage sendTo => simpa [MessageSender.loop] using ih'

theorem MessageSender.failCh_empty_of_no_failure (s : MessageSender)
    (events : List SenderEvent) (send : Bool)
    (hgood : ∀ getMessage sendTo, SenderEvent.tick getMessage sendTo ∈ events →
      getMessage.2 = none ∧ sendTo getMessage.1 = none) :
    sentOnFailCh (s.loop send events).2 = [] := by
  induction events generalizing send with
  | nil => rfl
  | cons ev rest ih =>
    have ih' := fun b => ih b (fun g f hgf => hgood g f (List.mem_cons_of_mem _ hgf))
    cases ev with
    | ctxDone => simp [MessageSender.loop, sentOnFailCh]
    | toggle val => simpa [MessageSender.loop] using ih' val
    | tick getMessage sendTo =>
      obtain ⟨h1, h2⟩ := hgood getMessage sendTo (List.mem_cons_self _ _)
      cases send with
      | false => simpa [MessageSender.loop] using ih' false
      | true =>
        simp only [MessageSender.loop, h1, h2, if_true]
        simpa [sentOnFailCh] using ih' true

/-- C22. `StartLoop` starts with sending off. Take any passes of toggle values and timer
ticks after which the loop is still running, and let the timer fire once more: at this tick
`SendMessageToRecipient` is called, once and with the provider's message, if the most
recent value received on `sendMessagesCh` is `true`, and it is not called if that value is
`false` or no value was received yet. As long as no `true` has been received, nothing is
sent at all. -/
theorem C22_sends_at_tick_iff_last_toggle_true (s : MessageSender) (pre : List SenderEvent)
    (getMessage : List UInt8 × Option GoError) (sendTo : List UInt8 → Option GoError)
    (hrun : (s.StartLoop pre).1 = false) :
    s.StartLoop [] = (false, []) ∧
    (mostRecentToggle pre = true →
      sentToRecipient (s.StartLoop (pre ++ [SenderEvent.tick getMessage sendTo])).2
        = sentToRecipient (s.StartLoop pre).2 ++ [getMessage.1]) ∧
    (mostRecentToggle pre = false →
      sentToRecipient (s.StartLoop (pre ++ [SenderEvent.tick getMessage sendTo])).2
        = sentToRecipient (s.StartLoop pre).2) ∧
    (∀ events, (∀ val, SenderEvent.toggle val ∈ events → val = false) →
      sentToRecipient (s.StartLoop events).2 = []) := by
  have happ := MessageSender.loop_append_of_running s pre
    [SenderEvent.tick getMessage sendTo] false hrun
  refine ⟨rfl, ?_, ?_, ?_⟩
  · intro hon
    have hon' : sendAfter false pre = true := hon
    simp only [MessageSender.StartLoop, happ, hon', sentToRecipient_append]
    cases hs : sendTo getMessage.1 <;> cases hg : getMessage.2 <;>
      simp [MessageSender.loop, hs, hg, sentToRecipient]
  · intro hoff
    have hoff' : sendAfter false pre = false := hoff
    simp [MessageSender.StartLoop, happ, hoff', sentToRecipient_append, MessageSender.loop,
      sentToRecipient]
  · intro events hev
    exact MessageSender.nothing_sent_while_off s events hev

/-- C22 on the passes of the test: a tick before `true` sends nothing, the two ticks after
`true` send `foo` each, and the tick after `false` sends nothing more. -/
theorem C22_sends_at_tick_iff_last_toggle_true_witness :
    sentToRecipient ((NewMessageSender 50000000).StartLoop toggledRun).2
      = [messageFoo, messageFoo] ∧
    sentToRecipient ((NewMessageSender 50000000).StartLoop
        (toggledRun ++ [SenderEvent.tick (messageFoo, none) (fun _ => none)])).2
      = [messageFoo, messageFoo] :=
  ⟨rfl, ((C22_sends_at_tick_iff_last_toggle_true (NewMessageSender 50000000) toggledRun
    (messageFoo, none) (fun _ => none) rfl).2.2.1 rfl).trans rfl⟩

/-- C23. Let the loop be running with sending on, and let `SendMessageToRecipient` return
an error at the next tick: `StartLoop` returns, its last call being the send on `failCh` of
that error wrapped with `send message to recipient`; this is the only error of that kind on
`failCh`, every error sent before wraps an error of `GetMessage`; and no message is sent
after the failed one, whatever passes follow. When no call of the provider or the recipient
fails, nothing is sent on `failCh`. -/
theorem C23_send_failure_reported_once_and_ends_loop (s : MessageSender)
    (pre rest : List SenderEvent) (getMessage : List UInt8 × Option GoError)
    (sendTo : List UInt8 → Option GoError) (e : GoError)
    (hrun : (s.StartLoop pre).1 = false) (hon : mostRecentToggle pre = true)
    (hfail : sendTo getMessage.1 = some e) :
    (s.StartLoop (pre ++ SenderEvent.tick getMessage sendTo :: rest)).1 = true ∧
    (s.StartLoop (pre ++ SenderEvent.tick getMessage sendTo :: rest)).2.getLast?
      = some (SenderCall.failCh (GoError.Wrap e "send message to recipient")) ∧
    (∃ before,
      sentOnFailCh (s.StartLoop (pre ++ SenderEvent.tick getMessage sendTo :: rest)).2
        = before ++ [GoError.Wrap e "send message to recipient"] ∧
      ∀ g ∈ before, ∃ cause, g = GoError.Wrap cause "get message from provider") ∧
    sentToRecipient (s.StartLoop (pre ++ SenderEvent.tick getMessage sendTo :: rest)).2
      = sentToRecipient (s.StartLoop pre).2 ++ [getMessage.1] ∧
    (∀ events,
      (∀ g f, SenderEvent.tick g f ∈ events → g.2 = none ∧ f g.1 = none) →
      sentOnFailCh (s.StartLoop events).2 = []) := by
  have happ := MessageSender.loop_append_of_running s pre
    (SenderEvent.tick getMessage sendTo :: rest) false hrun
  have hon' : sendAfter false pre = true := hon
  have hpre := MessageSender.failCh_of_running s pre false hrun
  refine ⟨?_, ?_, ?_, ?_, ?_⟩
  · simp [MessageSender.StartLoop, happ, hon', MessageSender.loop, hfail]
  · have hlast : ∀ (calls : List SenderCall) (a b : SenderCall),
        (calls ++ [a, b]).getLast? = some b := by
      intro calls a b
      have hsplit : calls ++ [a, b] = (calls ++ [a]) ++ [b] := by simp
      rw [hsplit, List.getLast?_concat]
    simp only [MessageSender.StartLoop, happ, hon', MessageSender.loop, hfail, if_true]
    rw [← List.append_assoc]
    exact hlast _ _ _
  · cases hg : getMessage.2 with
    | none =>
      refine ⟨sentOnFailCh (s.loop false pre).2, ?_, hpre⟩
      simp [MessageSender.StartLoop, happ, hon', MessageSender.loop, hfail, hg,
        sentOnFailCh_append, sentOnFailCh]
    | some ge =>
      refine ⟨sentOnFailCh (s.loop false pre).2
        ++ [GoError.Wrap ge "get message from provider"], ?_, ?_⟩
      · simp [MessageSender.StartLoop, happ, hon', MessageSender.loop, hfail, hg,
          sentOnFailCh_append, sentOnFailCh]
      · intro g hgm
        rcases List.mem_append.mp hgm with h | h
        · exact hpre g h
        · exact ⟨ge, List.mem_singleton.mp h⟩
  · simp only [MessageSender.StartLoop, happ, hon', sentToRecipient_append]
    cases hg : getMessage.2 <;>
      simp [MessageSender.loop, hfail, hg, sentToRecipient, sentToRecipient_append]
  · intro events hev
    exact MessageSender.failCh_empty_of_no_failure s events false hev

/-- C23 with sending on and a recipient that fails at the first tick: the loop returns,
one error is on `failCh`, and the tick that follows sends nothing. -/
theorem C23_send_failure_reported_once_and_ends_loop_witness :
    ((NewMessageSender 50000000).StartLoop
        [SenderEvent.toggle true,
          SenderEvent.tick (messageFoo, none) (fun _ => some brokenError),
          SenderEvent.tick (messageFoo, none) (fun _ => none)]).1 = true ∧
    sentToRecipient ((NewMessageSender 50000000).StartLoop
        [SenderEvent.toggle true,
          SenderEvent.tick (messageFoo, none) (fun _ => some brokenError),
          SenderEvent.tick (messageFoo, none) (fun _ => none)]).2 = [messageFoo] ∧
    sentOnFailCh ((NewMessageSender 50000000).StartLoop
        [SenderEvent.toggle true,
          SenderEvent.tick (messageFoo, none) (fun _ => some brokenError),
          SenderEvent.tick (messageFoo, none) (fun _ => none)]).2
      = [GoError.Wrap brokenError "send message to recipient"] := by
  have h := C23_send_failure_reported_once_and_ends_loop (NewMessageSender 50000000)
    [SenderEvent.toggle true] [SenderEvent.tick (messageFoo, none) (fun _ => none)]
    (messageFoo, none) (fun _ => some brokenError) brokenError rfl rfl rfl
  exact ⟨h.1, h.2.2.2.1, rfl⟩

/-- C30. Let the loop be running with sending on, and let `GetMessage` return a message
together with an error at the next tick: the error, wrapped with `get message from
provider`, is sent on `failCh`, and right after it `SendMessageToRecipient` is called with
that message. If the recipient accepts the message the loop goes on with the passes that
follow. -/
theorem C30_provider_error_does_not_skip_send (s : MessageSender)
    (pre rest : List SenderEvent) (message : List UInt8) (e : GoError)
    (sendTo : List UInt8 → Option GoError)
    (hrun : (s.StartLoop pre).1 = false) (hon : mostRecentToggle pre = true) :
    (∃ after,
      (s.StartLoop (pre ++ SenderEvent.tick (message, some e) sendTo :: rest)).2
        = (s.StartLoop pre).2 ++
          [SenderCall.GetMessage,
            SenderCall.failCh (GoError.Wrap e "get message from provider"),
            SenderCall.SendMessageToRecipient message] ++ after) ∧
    sentToRecipient
        (s.StartLoop (pre ++ [SenderEvent.tick (message, some e) sendTo])).2
      = sentToRecipient (s.StartLoop pre).2 ++ [message] ∧
    (sendTo message = none →
      s.StartLoop (pre ++ SenderEvent.tick (message, some e) sendTo :: rest)
        = ((s.loop true rest).1,
            (s.StartLoop pre).2 ++
              [SenderCall.GetMessage,
                SenderCall.failCh (GoError.Wrap e "get message from provider"),
                SenderCall.SendMessageToRecipient message] ++ (s.loop true rest).2)) := by
  have happ := fun tail => MessageSender.loop_append_of_running s pre
    (SenderEvent.tick (message, some e) sendTo :: tail) false hrun
  have hon' : sendAfter false pre = true := hon
  refine ⟨?_, ?_, ?_⟩
  · cases hs : sendTo message with
    | some se =>
      exact ⟨[SenderCall.failCh (GoError.Wrap se "send message to recipient")], by
        simp [MessageSender.StartLoop, happ, hon', MessageSender.loop, hs]⟩
    | none =>
      exact ⟨(s.loop true rest).2, by
        simp [MessageSender.StartLoop, happ, hon', MessageSender.loop, hs]⟩
  · simp only [MessageSender.StartLoop, happ, hon', sentToRecipient_append]
    cases hs : sendTo message <;>
      simp [MessageSender.loop, hs, sentToRecipient, sentToRecipient_append]
  · intro hs
    simp [MessageSender.StartLoop, happ, hon', MessageSender.loop, hs]

/-- C30 with sending on, a provider that returns `foo` with an error and a recipient that
accepts: the error goes to `failCh`, `foo` is sent, and the next tick sends again. -/
theorem C30_provider_error_does_not_skip_send_witness :
    (NewMessageSender 50000000).StartLoop
        [SenderEvent.toggle true,
          SenderEvent.tick (messageFoo, some brokenError) (fun _ => none),
          SenderEvent.tick (messageFoo, none) (fun _ => none)]
      = (false,
          [SenderCall.GetMessage,
            SenderCall.failCh (GoError.Wrap brokenError "get message from provider"),
            SenderCall.SendMessageToRecipient messageFoo,
            SenderCall.GetMessage,
            SenderCall.SendMessageToRecipient messageFoo]) :=
  ((C30_provider_error_does_not_skip_send (NewMessageSender 50000000)
    [SenderEvent.toggle true] [SenderEvent.tick (messageFoo, none) (fun _ => none)]
    messageFoo brokenError (fun _ => none) rfl rfl).2.2 rfl).trans rfl

/-! ## Observer: behaviour at the edges -/

/-- C28. Let `p` have a fresh id and let the control notification that
`OnPublisherConnected(p)` invokes fail (`NotifyExistsSubscriber` when some id is present in
the subscriber pool, `NotifyNoSubscribers` when none is): the call returns a non-nil error,
yet `p` is stored in the publisher pool afterwards and returned by `GetAll()`, and the
observer it leaves still notifies `p`, in `OnSubscriberConnected` of a fresh subscriber and
in `OnSubscriberDisconnected` that leaves the subscriber pool empty. -/
theorem C28_failed_notification_leaves_publisher_in_pool (o : Observer) (p : Publisher)
    (hfresh : o.publisherPool.publishers.Load p.GetID = none)
    (hfail : ((∃ id s, o.subscriberPool.subscribers.Load id = some s) ∧
        p.NotifyExistsSubscriber ≠ none) ∨
      ((∀ id, o.subscriberPool.subscribers.Load id = none) ∧
        p.NotifyNoSubscribers ≠ none)) :
    (o.OnPublisherConnected p).err ≠ none ∧
    (o.OnPublisherConnected p).observer.publisherPool.publishers.Load p.GetID = some p ∧
    p ∈ (o.OnPublisherConnected p).observer.publisherPool.GetAll.toList ∧
    (o.OnPublisherConnected p).observer.subscriberPool = o.subscriberPool ∧
    (∀ s, o.subscriberPool.subscribers.Load s.GetID = none →
      p ∈ existsSubscriberCalls
        ((o.OnPublisherConnected p).observer.OnSubscriberConnected s).calls) ∧
    (∀ s, (∀ id, ((o.OnPublisherConnected p).observer.OnSubscriberDisconnected
          s).observer.subscriberPool.subscribers.Load id = none) →
      p ∈ noSubscribersCalls
        ((o.OnPublisherConnected p).observer.OnSubscriberDisconnected s).calls) := by
  have hadd := PublisherPool.Add_absent_publisher o.publisherPool p hfresh
  have hobs : (o.OnPublisherConnected p).observer
      = ⟨⟨⟨o.publisherPool.publishers.entries ++ [(p.GetID, p)]⟩⟩, o.subscriberPool⟩ := by
    cases he : o.subscriberPool.IsEmpty <;> cases hn : p.NotifyExistsSubscriber <;>
      cases hn' : p.NotifyNoSubscribers <;>
      simp [Observer.OnPublisherConnected, hadd, he, hn, hn']
  have hmem : p ∈ (o.OnPublisherConnected p).observer.publisherPool.GetAll.toList := by
    rw [hobs, PublisherPool.GetAll_toList_publisher]
    simp
  refine ⟨?_, ?_, hmem, ?_, ?_, ?_⟩
  · rcases hfail with ⟨hne, hn⟩ | ⟨hall, hn⟩
    · have he := (SubscriberPool.IsEmpty_eq_false_iff _).mpr hne
      cases hx : p.NotifyExistsSubscriber with
      | none => exact absurd hx hn
      | some e => simp [Observer.OnPublisherConnected, hadd, he, hx, Wrap]
    · have he := (SubscriberPool.IsEmpty_iff _).mpr
        ((SyncMap.forall_Load_eq_none_iff _).mp hall)
      cases hx : p.NotifyNoSubscribers with
      | none => exact absurd hx hn
      | some e => simp [Observer.OnPublisherConnected, hadd, he, hx, Wrap]
  · rw [hobs]
    exact SyncMap.Load_store_self _ _ _ hfresh
  · rw [hobs]
  · intro s hs
    have hsadd := SubscriberPool.Add_absent_subscriber o.subscriberPool s hs
    have hcalls : existsSubscriberCalls
        ((o.OnPublisherConnected p).observer.OnSubscriberConnected s).calls
        = (o.OnPublisherConnected p).observer.publisherPool.GetAll.toList := by
      rw [hobs]
      simp [Observer.OnSubscriberConnected, hsadd, existsSubscriberCalls,
        Observer.existsSubscriberCalls_notifyExistsSubscriberLoop]
    rw [hcalls]
    exact hmem
  · intro s hall
    have he : (((o.OnPublisherConnected p).observer.subscriberPool).Remove s.GetID).IsEmpty
        = true := by
      have hpool : ((o.OnPublisherConnected p).observer.OnSubscriberDisconnected
          s).observer.subscriberPool
          = ((o.OnPublisherConnected p).observer.subscriberPool).Remove s.GetID := by
        cases hb : (((o.OnPublisherConnected p).observer.subscriberPool).Remove
          s.GetID).IsEmpty <;> simp [Observer.OnSubscriberDisconnected, hb]
      rw [hpool] at hall
      exact (SubscriberPool.IsEmpty_iff _).mpr ((SyncMap.forall_Load_eq_none_iff _).mp hall)
    have hcalls : noSubscribersCalls
        ((o.OnPublisherConnected p).observer.OnSubscriberDisconnected s).calls
        = (o.OnPublisherConnected p).observer.publisherPool.GetAll.toList := by
      simp [Observer.OnSubscriberDisconnected, he, noSubscribersCalls,
        Observer.noSubscribersCalls_notifyNoSubscribersLoop]
    rw [hcalls]
    exact hmem

/-- C28 with publisher `2`, whose notifications fail, connecting to an observer with two
fresh pools: the call fails, publisher `2` is in the pool, and a subscriber that connects
next makes the observer notify it. -/
theorem C28_failed_notification_leaves_publisher_in_pool_witness :
    ((NewObserver NewPublisherPool NewSubscriberPool).OnPublisherConnected
        mockPublisher2).err ≠ none ∧
    mockPublisher2 ∈ ((NewObserver NewPublisherPool NewSubscriberPool).OnPublisherConnected
        mockPublisher2).observer.publisherPool.GetAll.toList ∧
    mockPublisher2 ∈ existsSubscriberCalls
      (((NewObserver NewPublisherPool NewSubscriberPool).OnPublisherConnected
        mockPublisher2).observer.OnSubscriberConnected mockSubscriber1).calls := by
  have h := C28_failed_notification_leaves_publisher_in_pool
    (NewObserver NewPublisherPool NewSubscriberPool) mockPublisher2 rfl
    (Or.inr ⟨fun _ => rfl, by decide⟩)
  exact ⟨h.1, h.2.2.1, h.2.2.2.2.1 mockSubscriber1 rfl⟩

theorem Observer.deliveredRecords_notifyNoSubscribersLoop_of_not_mem (p : Publisher)
    (ps : List Publisher) (hp : p ∉ ps) :
    deliveredRecords p (Observer.notifyNoSubscribersLoop ps) = [] := by
  induction ps with
  | nil => rfl
  | cons q rest ih =>
    have hq : ¬ q = p := fun h => hp (h ▸ List.mem_cons_self _ _)
    have hrest := ih (fun h => hp (List.mem_cons_of_mem _ h))
    cases hn : q.NotifyNoSubscribers <;>
      simp [Observer.notifyNoSubscribersLoop, hn, deliveredRecords, hq, hrest]

theorem Observer.deliveredRecords_notifyNoSubscribersLoop_once (p : Publisher)
    (ps : List Publisher) (hnd : ps.Nodup) (hp : p ∈ ps) (hok : p.NotifyNoSubscribers = none) :
    deliveredRecords p (Observer.notifyNoSubscribersLoop ps) = [⟨CodeNoSubscribers⟩] := by
  induction ps with
  | nil => simp at hp
  | cons q rest ih =>
    obtain ⟨hq, hrest⟩ := List.nodup_cons.mp hnd
    by_cases hqp : q = p
    · subst hqp
      simp [Observer.notifyNoSubscribersLoop, hok, deliveredRecords,
        Observer.deliveredRecords_notifyNoSubscribersLoop_of_not_mem q rest hq]
    · have hp' : p ∈ rest := by
        rcases List.mem_cons.mp hp with h | h
        · exact absurd h.symm hqp
        · exact h
      cases hn : q.NotifyNoSubscribers <;>
        simp [Observer.notifyNoSubscribersLoop, hn, deliveredRecords, hqp, ih hrest hp']

theorem Observer.run_replicate_of_fixed (o : Observer) (c : ObserverCall) (k : Nat)
    (tr : List Call) (hfix : (o.step c).observer = o) :
    o.run tr (List.replicate k c)
      = (o, tr ++ (List.replicate k (o.step c).calls).flatten) := by
  induction k generalizing tr with
  | zero => simp [Observer.run]
  | succ n ih =>
    simp only [List.replicate_succ, Observer.run, hfix, ih, List.flatten_cons,
      List.append_assoc]

theorem noSubscribersCalls_append (a b : List Call) :
    noSubscribersCalls (a ++ b) = noSubscribersCalls a ++ noSubscribersCalls b := by
  induction a with
  | nil => rfl
  | cons c rest ih => cases c <;> simp [noSubscribersCalls, ih]

theorem noSubscribersCalls_flatten_replicate (k : Nat) (calls : List Call) :
    noSubscribersCalls (List.replicate k calls).flatten
      = (List.replicate k (noSubscribersCalls calls)).flatten := by
  induction k with
  | zero => rfl
  | succ n ih =>
    simp only [List.replicate_succ, List.flatten_cons, noSubscribersCalls_append, ih]

theorem deliveredRecords_flatten_replicate (p : Publisher) (k : Nat) (calls : List Call) :
    deliveredRecords p (List.replicate k calls).flatten
      = (List.replicate k (deliveredRecords p calls)).flatten := by
  induction k with
  | zero => rfl
  | succ n ih =>
    simp only [List.replicate_succ, List.flatten_cons, deliveredRecords_append, ih]

/-- C29. On an observer whose subscriber pool holds no id, `OnSubscriberDisconnected(s)`,
for any `s`, changes no pool and still calls `NotifyNoSubscribers` once per element of the
publisher pool's `GetAll()`. So `k` such calls in a row make `k` rounds of these
notifications, and each publisher of the pool whose notification succeeds is delivered `k`
records `no_subscribers`. -/
theorem C29_disconnect_on_empty_pool_notifies_again (o : Observer) (s : Subscriber)
    (k : Nat) (hempty : ∀ id, o.subscriberPool.subscribers.Load id = none) :
    (o.OnSubscriberDisconnected s).observer = o ∧
    noSubscribersCalls (o.OnSubscriberDisconnected s).calls = o.publisherPool.GetAll.toList ∧
    noSubscribersCalls
        (o.run [] (List.replicate k (ObserverCall.OnSubscriberDisconnected s))).2
      = (List.replicate k o.publisherPool.GetAll.toList).flatten ∧
    (∀ p, o.publisherPool.Valid → p ∈ o.publisherPool.GetAll.toList →
      p.NotifyNoSubscribers = none →
      deliveredRecords p
          (o.run [] (List.replicate k (ObserverCall.OnSubscriberDisconnected s))).2
        = List.replicate k ⟨CodeNoSubscribers⟩) := by
  have hrem : o.subscriberPool.Remove s.GetID = o.subscriberPool := by
    simp only [SubscriberPool.Remove, SyncMap.Delete_of_absent _ _ (hempty s.GetID)]
  have he : o.subscriberPool.IsEmpty = true :=
    (SubscriberPool.IsEmpty_iff _).mpr ((SyncMap.forall_Load_eq_none_iff _).mp hempty)
  have hout : o.OnSubscriberDisconnected s
      = ⟨none, o, Call.Debug "Last subscriber disconnected, notifying publishers" [] ::
          Observer.notifyNoSubscribersLoop o.publisherPool.GetAll.toList⟩ := by
    simp [Observer.OnSubscriberDisconnected, hrem, he]
  have hfix : (o.step (ObserverCall.OnSubscriberDisconnected s)).observer = o := by
    simp [Observer.step, hout]
  have hcalls : noSubscribersCalls (o.OnSubscriberDisconnected s).calls
      = o.publisherPool.GetAll.toList := by
    simp [hout, noSubscribersCalls, Observer.noSubscribersCalls_notifyNoSubscribersLoop]
  have hrun := Observer.run_replicate_of_fixed o (ObserverCall.OnSubscriberDisconnected s) k
    [] hfix
  refine ⟨by rw [hout], hcalls, ?_, ?_⟩
  · rw [hrun]
    simp only [List.nil_append, noSubscribersCalls_flatten_replicate, Observer.step, hcalls]
  · intro p hv hp hok
    rw [hrun]
    have hone : deliveredRecords p (o.OnSubscriberDisconnected s).calls
        = [⟨CodeNoSubscribers⟩] := by
      rw [hout]
      simp only [deliveredRecords]
      refine Observer.deliveredRecords_notifyNoSubscribersLoop_once p _ ?_ hp hok
      rw [PublisherPool.GetAll_toList_publisher]
      exact SyncMap.Valid_values_nodup Publisher.GetID _ hv
    simp only [List.nil_append, deliveredRecords_flatten_replicate, Observer.step, hone]
    induction k with
    | zero => rfl
    | succ n ih => simp [List.replicate_succ]

/-- C29 at the observer of the test, whose subscriber pool is fresh and whose publisher
pool holds publisher `1`: three disconnects of subscriber `1`, which was never added,
deliver three `no_subscribers` records to the publisher. -/
theorem C29_disconnect_on_empty_pool_notifies_again_witness :
    noSubscribersCalls ((NewObserver publisherPool1 NewSubscriberPool).run []
        (List.replicate 3 (ObserverCall.OnSubscriberDisconnected mockSubscriber1))).2
      = [mockPublisher1, mockPublisher1, mockPublisher1] ∧
    deliveredRecords mockPublisher1 ((NewObserver publisherPool1 NewSubscriberPool).run []
        (List.replicate 3 (ObserverCall.OnSubscriberDisconnected mockSubscriber1))).2
      = [⟨CodeNoSubscribers⟩, ⟨CodeNoSubscribers⟩, ⟨CodeNoSubscribers⟩] := by
  have h := C29_disconnect_on_empty_pool_notifies_again
    (NewObserver publisherPool1 NewSubscriberPool) mockSubscriber1 3 (fun _ => rfl)
  exact ⟨h.2.2.1.trans rfl,
    (h.2.2.2 mockPublisher1
      (PublisherPool.Valid_after_publisher [PublisherPoolCall.Add mockPublisher1])
      (by decide) rfl).trans rfl⟩

/-! ## Broker: listener loops -/

theorem QUICPubServer.acceptLoop_append_of_served_publishers (ok tail : List AcceptRound)
    (hok : ∀ x ∈ ok, x.served) :
    (QUICPubServer.acceptLoop (ok ++ tail)).1 = (QUICPubServer.acceptLoop tail).1 ∧
    acceptCalls (QUICPubServer.acceptLoop (ok ++ tail)).2
      = ok.length + acceptCalls (QUICPubServer.acceptLoop tail).2 := by
  induction ok with
  | nil => simp
  | cons x rest ih =>
    obtain ⟨h1, h2, h3⟩ := hok x (List.mem_cons_self _ _)
    obtain ⟨i1, i2⟩ := ih (fun y hy => hok y (List.mem_cons_of_mem _ hy))
    refine ⟨?_, ?_⟩
    · simpa [QUICPubServer.acceptLoop, h1, h2, h3] using i1
    · simp [QUICPubServer.acceptLoop, h1, h2, h3, acceptCalls, i2]
      omega

theorem QUICSubServer.acceptLoop_append_of_served_subscribers (ok tail : List AcceptRound)
    (hok : ∀ x ∈ ok, x.served) :
    (QUICSubServer.acceptLoop (ok ++ tail)).1 = (QUICSubServer.acceptLoop tail).1 ∧
    acceptCalls (QUICSubServer.acceptLoop (ok ++ tail)).2
      = ok.length + acceptCalls (QUICSubServer.acceptLoop tail).2 := by
  induction ok with
  | nil => simp
  | cons x rest ih =>
    obtain ⟨h1, h2, h3⟩ := hok x (List.mem_cons_self _ _)
    obtain ⟨i1, i2⟩ := ih (fun y hy => hok y (List.mem_cons_of_mem _ hy))
    refine ⟨?_, ?_⟩
    · simpa [QUICSubServer.acceptLoop, h1, h2, h3] using i1
    · simp [QUICSubServer.acceptLoop, h1, h2, h3, acceptCalls, i2]
      omega

/-- C24, as stated, fails when the pool refuses a task: offered a pass in which `Submit`
fails and then a pass in which everything would succeed, neither listener is still
accepting; each has returned the error of `Submit`, wrapped, after a single `Accept`. -/
theorem C24_listener_survives_failed_submit_counterexample :
    ¬ ((QUICPubServer.AcceptPublishers none [saturatedRound, servedRound]).1 = none) ∧
    ¬ ((QUICSubServer.AcceptSubscribers none [saturatedRound, servedRound]).1 = none) ∧
    (QUICPubServer.AcceptPublishers none [saturatedRound, servedRound]).1
      = some (some (GoError.Wrap (GoError.stream poolOverload) "connectionPool.Submit")) ∧
    (QUICSubServer.AcceptSubscribers none [saturatedRound, servedRound]).1
      = some (some (GoError.Wrap (GoError.stream poolOverload) "connectionPool.Submit")) ∧
    acceptCalls (QUICPubServer.AcceptPublishers none [saturatedRound, servedRound]).2 = 1 ∧
    acceptCalls (QUICSubServer.AcceptSubscribers none [saturatedRound, servedRound]).2 = 1 := by
  decide

/-- C24, amended. In `AcceptPublishers` and `AcceptSubscribers`, after any number of passes
in which a connection arrives and the pool takes the task: a pass that finds the context
cancelled makes the listener return `nil`; a failed `listener.Accept` makes it return that
error wrapped with `listener.Accept`; a failed `connectionPool.Submit` makes it return that
error wrapped with `connectionPool.Submit`, with no further `Accept`; and as long as every
pass succeeds the listener has not returned. A listener that cannot be opened returns that
error wrapped with `quic.ListenAddr` and accepts nothing. -/
theorem C24_listener_ends_on_accept_or_submit_failure (ok : List AcceptRound)
    (r : AcceptRound) (rest : List AcceptRound) (hok : ∀ x ∈ ok, x.served) :
    ((QUICPubServer.AcceptPublishers none ok).1 = none ∧
      (QUICSubServer.AcceptSubscribers none ok).1 = none) ∧
    (r.ctxDone = true →
      (QUICPubServer.AcceptPublishers none (ok ++ r :: rest)).1 = some none ∧
      (QUICSubServer.AcceptSubscribers none (ok ++ r :: rest)).1 = some none) ∧
    (∀ e, r.ctxDone = false → r.Accept = some e →
      (QUICPubServer.AcceptPublishers none (ok ++ r :: rest)).1
        = some (some (GoError.Wrap (GoError.stream e) "listener.Accept")) ∧
      (QUICSubServer.AcceptSubscribers none (ok ++ r :: rest)).1
        = some (some (GoError.Wrap (GoError.stream e) "listener.Accept"))) ∧
    (∀ e, r.ctxDone = false → r.Accept = none → r.Submit = some e →
      (QUICPubServer.AcceptPublishers none (ok ++ r :: rest)).1
        = some (some (GoError.Wrap (GoError.stream e) "connectionPool.Submit")) ∧
      acceptCalls (QUICPubServer.AcceptPublishers none (ok ++ r :: rest)).2
        = ok.length + 1 ∧
      (QUICSubServer.AcceptSubscribers none (ok ++ r :: rest)).1
        = some (some (GoError.Wrap (GoError.stream e) "connectionPool.Submit")) ∧
      acceptCalls (QUICSubServer.AcceptSubscribers none (ok ++ r :: rest)).2
        = ok.length + 1) ∧
    (∀ e rounds,
      QUICPubServer.AcceptPublishers (some e) rounds
        = (some (some (GoError.Wrap (GoError.stream e) "quic.ListenAddr")), []) ∧
      QUICSubServer.AcceptSubscribers (some e) rounds
        = (some (some (GoError.Wrap (GoError.stream e) "quic.ListenAddr")), [])) := by
  have hp := QUICPubServer.acceptLoop_append_of_served_publishers ok (r :: rest) hok
  have hs := QUICSubServer.acceptLoop_append_of_served_subscribers ok (r :: rest) hok
  have hp0 := QUICPubServer.acceptLoop_append_of_served_publishers ok [] hok
  have hs0 := QUICSubServer.acceptLoop_append_of_served_subscribers ok [] hok
  simp only [List.append_nil] at hp0 hs0
  refine ⟨⟨?_, ?_⟩, ?_, ?_, ?_, ?_⟩
  · simpa [QUICPubServer.AcceptPublishers, QUICPubServer.acceptLoop] using hp0.1
  · simpa [QUICSubServer.AcceptSubscribers, QUICSubServer.acceptLoop] using hs0.1
  · intro hd
    simp only [QUICPubServer.AcceptPublishers, QUICSubServer.AcceptSubscribers, hp.1, hs.1]
    simp [QUICPubServer.acceptLoop, QUICSubServer.acceptLoop, hd]
  · intro e hd ha
    simp only [QUICPubServer.AcceptPublishers, QUICSubServer.AcceptSubscribers, hp.1, hs.1]
    simp [QUICPubServer.acceptLoop, QUICSubServer.acceptLoop, hd, ha]
  · intro e hd ha hsub
    simp only [QUICPubServer.AcceptPublishers, QUICSubServer.AcceptSubscribers, hp.1, hs.1,
      hp.2, hs.2]
    simp [QUICPubServer.acceptLoop, QUICSubServer.acceptLoop, hd, ha, hsub, acceptCalls]
  · intro e rounds
    exact ⟨rfl, rfl⟩

/-- C24, amended, after two served connections: a refused task ends both listeners with
the wrapped `Submit` error after three `Accept` calls. -/
theorem C24_listener_ends_on_accept_or_submit_failure_witness :
    (QUICPubServer.AcceptPublishers none
        [servedRound, servedRound, saturatedRound, servedRound]).1
      = some (some (GoError.Wrap (GoError.stream poolOverload) "connectionPool.Submit")) ∧
    acceptCalls (QUICPubServer.AcceptPublishers none
        [servedRound, servedRound, saturatedRound, servedRound]).2 = 3 ∧
    (QUICSubServer.AcceptSubscribers none
        [servedRound, servedRound, saturatedRound, servedRound]).1
      = some (some (GoError.Wrap (GoError.stream poolOverload) "connectionPool.Submit")) := by
  have hok : ∀ x ∈ [servedRound, servedRound], x.served := by
    intro x hx
    simp only [List.mem_cons, List.mem_singleton, List.not_mem_nil, or_false, or_self] at hx
    subst hx
    exact ⟨rfl, rfl, rfl⟩
  have h := (C24_listener_ends_on_accept_or_submit_failure [servedRound, servedRound]
    saturatedRound [servedRound] hok).2.2.2.1 poolOverload rfl rfl rfl
  exact ⟨h.1, h.2.1, h.2.2.1⟩

/-! ## Broker: sessions -/

/-- When the watcher of a publisher session is started before the connect task has
assigned the variable `publisher`, it holds `nil`: on cancellation it calls nothing, and a
publisher with a fresh id that the connect task added stays in the publisher pool. -/
theorem QUICPubServer.sessionUntilCancelled_of_late_construction (o : Observer)
    (p : Publisher) (hfresh : o.publisherPool.publishers.Load p.GetID = none) :
    (QUICPubServer.sessionUntilCancelled o (some (p, false))).observerCalls
      = [ObserverCall.OnPublisherConnected p] ∧
    (QUICPubServer.sessionUntilCancelled o (some (p, false))).observer
      = (o.OnPublisherConnected p).observer ∧
    (QUICPubServer.sessionUntilCancelled o
      (some (p, false))).observer.publisherPool.publishers.Load p.GetID = some p := by
  have hadd := PublisherPool.Add_absent_publisher o.publisherPool p hfresh
  have hobs : (o.OnPublisherConnected p).observer
      = ⟨⟨⟨o.publisherPool.publishers.entries ++ [(p.GetID, p)]⟩⟩, o.subscriberPool⟩ := by
    cases he : o.subscriberPool.IsEmpty <;> cases hn : p.NotifyExistsSubscriber <;>
      cases hn' : p.NotifyNoSubscribers <;>
      simp [Observer.OnPublisherConnected, hadd, he, hn, hn']
  have hsess : (QUICPubServer.sessionUntilCancelled o (some (p, false))).observer
      = (o.OnPublisherConnected p).observer ∧
      (QUICPubServer.sessionUntilCancelled o (some (p, false))).observerCalls
      = [ObserverCall.OnPublisherConnected p] := by
    simp only [QUICPubServer.sessionUntilCancelled, QUICPubServer.watcherArgument,
      QUICPubServer.monitorDoneContext, QUICPubServer.connectTask, List.append_nil]
    cases hout : o.OnPublisherConnected p with
    | mk err observer calls => cases err <;> exact ⟨rfl, rfl⟩
  refine ⟨hsess.2, hsess.1, ?_⟩
  rw [hsess.1, hobs]
  exact SyncMap.Load_store_self _ _ _ hfresh

/-- When the watcher of a publisher session is started after the connect task has assigned
the variable `publisher`, it calls `OnPublisherDisconnected` with the adapter on
cancellation, and no entry is left under the adapter's id. -/
theorem QUICPubServer.sessionUntilCancelled_of_early_construction (o : Observer)
    (p : Publisher) :
    (QUICPubServer.sessionUntilCancelled o (some (p, true))).observerCalls
      = [ObserverCall.OnPublisherConnected p, ObserverCall.OnPublisherDisconnected p] ∧
    (QUICPubServer.sessionUntilCancelled o
      (some (p, true))).observer.publisherPool.publishers.Load p.GetID = none := by
  simp only [QUICPubServer.sessionUntilCancelled, QUICPubServer.watcherArgument,
    QUICPubServer.monitorDoneContext, QUICPubServer.connectTask]
  cases hout : o.OnPublisherConnected p with
  | mk err observer calls =>
    cases err <;>
      exact ⟨rfl, SyncMap.Load_Delete_self _ _⟩

/-- C25, the code in a session whose adapter is built after the watcher was started:
publisher `1` connects to an observer with two fresh pools and the session is then
cancelled. The watcher was handed `nil`, so `OnPublisherConnected` is the only observer
method called, `OnPublisherDisconnected` never is, and publisher `1` is still returned by
`GetAll()` of the publisher pool. A session in which no adapter is ever built calls
nothing either. -/
theorem C25_watcher_holds_nil_when_started_before_construction :
    QUICPubServer.watcherArgument (some (mockPublisher1, false)) = none ∧
    (QUICPubServer.sessionUntilCancelled (NewObserver NewPublisherPool NewSubscriberPool)
        (some (mockPublisher1, false))).observerCalls
      = [ObserverCall.OnPublisherConnected mockPublisher1] ∧
    (QUICPubServer.sessionUntilCancelled (NewObserver NewPublisherPool NewSubscriberPool)
        (some (mockPublisher1, false))).observer.publisherPool.GetAll.toList
      = [mockPublisher1] ∧
    (QUICPubServer.sessionUntilCancelled (NewObserver NewPublisherPool NewSubscriberPool)
        none).observerCalls = [] := by
  refine ⟨rfl, rfl, by decide, rfl⟩

theorem QUICPubServer.receiveMessage_of_read (MaxMessageBytes : Nat) (o : Observer)
    (stream : Nat → ReadResult) (h : (stream MaxMessageBytes).err = none) :
    QUICPubServer.receiveMessage MaxMessageBytes o stream
      = ⟨some none, o, [(stream MaxMessageBytes).data.take MaxMessageBytes],
          (o.OnPublisherMessage ((stream MaxMessageBytes).data.take MaxMessageBytes)).calls⟩ := by
  simp [QUICPubServer.receiveMessage, h, Observer.OnPublisherMessage]

theorem QUICPubServer.receiveLoop_append_of_reads (MaxMessageBytes : Nat) (o : Observer)
    (ok tail : List IngestRound) (hok : ∀ x ∈ ok, x.reads MaxMessageBytes) :
    (QUICPubServer.receiveLoop MaxMessageBytes o (ok ++ tail)).result
      = (QUICPubServer.receiveLoop MaxMessageBytes o tail).result ∧
    (QUICPubServer.receiveLoop MaxMessageBytes o (ok ++ tail)).messages
      = ok.map (fun x => (x.Read MaxMessageBytes).data.take MaxMessageBytes)
          ++ (QUICPubServer.receiveLoop MaxMessageBytes o tail).messages := by
  induction ok with
  | nil => simp
  | cons x rest ih =>
    obtain ⟨h1, h2⟩ := hok x (List.mem_cons_self _ _)
    obtain ⟨i1, i2⟩ := ih (fun y hy => hok y (List.mem_cons_of_mem _ hy))
    have hm := QUICPubServer.receiveMessage_of_read MaxMessageBytes o x.Read h2
    refine ⟨?_, ?_⟩
    · simpa [QUICPubServer.receiveLoop, h1, hm] using i1
    · simpa [QUICPubServer.receiveLoop, h1, hm] using i2

/-- C26. `receiveMessage` on a read that succeeds calls `OnPublisherMessage` once, with the
bytes read cut to `MaxMessageBytes`, which are exactly the bytes read for a reader that
keeps `n ≤ len(p)`, and returns `nil`; the observer then sends that message to the
subscribers. On a read that fails it returns the error wrapped with `stream.Read` and calls
nothing. In `receiveMessages`, after any number of passes whose reads succeed, a pass whose
read fails makes the method return that error wrapped once more with `receiveMessage`,
every earlier message having been passed on, and the ingest task calls `cancel()`. -/
theorem C26_ingest_passes_bytes_read_and_ends_on_read_error (MaxMessageBytes : Nat)
    (o : Observer) (stream : Nat → ReadResult) (ok : List IngestRound) (r : IngestRound)
    (rest : List IngestRound) (hok : ∀ x ∈ ok, x.reads MaxMessageBytes) :
    ((stream MaxMessageBytes).err = none →
      (QUICPubServer.receiveMessage MaxMessageBytes o stream).result = some none ∧
      (QUICPubServer.receiveMessage MaxMessageBytes o stream).messages
        = [(stream MaxMessageBytes).data.take MaxMessageBytes] ∧
      (∀ m ∈ (QUICPubServer.receiveMessage MaxMessageBytes o stream).messages,
        m.length ≤ MaxMessageBytes) ∧
      ((stream MaxMessageBytes).data.length ≤ MaxMessageBytes →
        (QUICPubServer.receiveMessage MaxMessageBytes o stream).messages
          = [(stream MaxMessageBytes).data]) ∧
      sendMessageCalls (QUICPubServer.receiveMessage MaxMessageBytes o stream).calls
        = o.subscriberPool.GetAll.toList.map
            (fun s => (s, (stream MaxMessageBytes).data.take MaxMessageBytes))) ∧
    (∀ e, (stream MaxMessageBytes).err = some e →
      (QUICPubServer.receiveMessage MaxMessageBytes o stream).result
        = some (some (GoError.Wrap (GoError.stream e) "stream.Read")) ∧
      (QUICPubServer.receiveMessage MaxMessageBytes o stream).messages = [] ∧
      (QUICPubServer.receiveMessage MaxMessageBytes o stream).calls = []) ∧
    (∀ e, r.ctxDone = false → (r.Read MaxMessageBytes).err = some e →
      (QUICPubServer.receiveMessages MaxMessageBytes o none (ok ++ r :: rest)).result
        = some (some (GoError.Wrap
            (GoError.Wrap (GoError.stream e) "stream.Read") "receiveMessage")) ∧
      (QUICPubServer.receiveMessages MaxMessageBytes o none (ok ++ r :: rest)).messages
        = ok.map (fun x => (x.Read MaxMessageBytes).data.take MaxMessageBytes) ∧
      QUICPubServer.ingestTaskCancels MaxMessageBytes o none (ok ++ r :: rest) = true) := by
  refine ⟨?_, ?_, ?_⟩
  · intro h
    have hm := QUICPubServer.receiveMessage_of_read MaxMessageBytes o stream h
    rw [hm]
    refine ⟨rfl, rfl, ?_, ?_, ?_⟩
    · intro m hmem
      simp only [List.mem_singleton] at hmem
      subst hmem
      exact List.length_take_le _ _
    · intro hlen
      simp [List.take_of_length_le hlen]
    · simp [Observer.OnPublisherMessage, sendMessageCalls,
        Observer.sendMessageCalls_sendMessageLoop]
  · intro e h
    simp [QUICPubServer.receiveMessage, h]
  · intro e hd hr
    obtain ⟨h1, h2⟩ := QUICPubServer.receiveLoop_append_of_reads MaxMessageBytes o ok
      (r :: rest) hok
    have htail : QUICPubServer.receiveLoop MaxMessageBytes o (r :: rest)
        = ⟨some (some (GoError.Wrap (GoError.Wrap (GoError.stream e) "stream.Read")
            "receiveMessage")), o, [], []⟩ := by
      simp [QUICPubServer.receiveLoop, hd, QUICPubServer.receiveMessage, hr]
    rw [htail] at h1 h2
    refine ⟨?_, ?_, ?_⟩
    · simpa [QUICPubServer.receiveMessages] using h1
    · simpa [QUICPubServer.receiveMessages] using h2
    · simp only [QUICPubServer.ingestTaskCancels, QUICPubServer.receiveMessages, h1]

/-- C26 on a stream that yields `foo` and then fails: with `MaxMessageBytes` 1000 the
message `foo` is passed to the observer, which sends it to both subscribers, and the
failed read ends `receiveMessages` with an error, so the session is cancelled. -/
theorem C26_ingest_passes_bytes_read_and_ends_on_read_error_witness :
    (QUICPubServer.receiveMessages 1000 (NewObserver NewPublisherPool subscriberPool12) none
        [⟨false, fun _ => ⟨messageFoo, none⟩⟩, ⟨false, fun _ => ⟨[], some closedError⟩⟩]).result
      = some (some (GoError.Wrap
          (GoError.Wrap (GoError.stream closedError) "stream.Read") "receiveMessage")) ∧
    (QUICPubServer.receiveMessages 1000 (NewObserver NewPublisherPool subscriberPool12) none
        [⟨false, fun _ => ⟨messageFoo, none⟩⟩, ⟨false, fun _ => ⟨[], some closedError⟩⟩]).messages
      = [messageFoo] ∧
    QUICPubServer.ingestTaskCancels 1000 (NewObserver NewPublisherPool subscriberPool12) none
        [⟨false, fun _ => ⟨messageFoo, none⟩⟩, ⟨false, fun _ => ⟨[], some closedError⟩⟩]
      = true := by
  have hok : ∀ x ∈ [(⟨false, fun _ => ⟨messageFoo, none⟩⟩ : IngestRound)],
      x.reads 1000 := by
    intro x hx
    simp only [List.mem_singleton] at hx
    subst hx
    exact ⟨rfl, rfl⟩
  have h := (C26_ingest_passes_bytes_read_and_ends_on_read_error 1000
    (NewObserver NewPublisherPool subscriberPool12) (fun _ => ⟨messageFoo, none⟩)
    [⟨false, fun _ => ⟨messageFoo, none⟩⟩] ⟨false, fun _ => ⟨[], some closedError⟩⟩ []
    hok).2.2 closedError rfl rfl
  exact ⟨h.1, h.2.1.trans rfl, h.2.2⟩

/-- C27, as stated, fails on the subscriber side: when a subscriber with an id already in
the pool connects, `OnSubscriberConnected` fails and the connect task of the subscriber-side
acceptor does call `cancel()`. -/
theorem C27_failed_subscriber_connect_not_cancelled_counterexample :
    ((NewObserver NewPublisherPool subscriberPool1).OnSubscriberConnected
        mockSubscriber1Dup).err ≠ none ∧
    ¬ ((QUICSubServer.connectTask (NewObserver NewPublisherPool subscriberPool1)
        mockSubscriber1Dup).cancel = false) := by
  decide

/-- C27, amended. On the broker side both acceptors cancel the session when the connect
call fails, and neither does when it succeeds; they differ in how they log the failure:
the publisher side logs `Failure in OnPublisherConnected` as an error, the subscriber side
logs `OnSubscriberConnected` as a warning. -/
theorem C27_failed_connect_cancels_session_on_both_sides (o : Observer) (p : Publisher)
    (s : Subscriber) :
    ((o.OnPublisherConnected p).err ≠ none →
      (QUICPubServer.connectTask o p).cancel = true ∧
      ServerCall.Error "Failure in OnPublisherConnected"
        ∈ (QUICPubServer.connectTask o p).logs) ∧
    ((o.OnPublisherConnected p).err = none →
      (QUICPubServer.connectTask o p).cancel = false) ∧
    ((o.OnSubscriberConnected s).err ≠ none →
      (QUICSubServer.connectTask o s).cancel = true ∧
      ServerCall.Warn "OnSubscriberConnected" ∈ (QUICSubServer.connectTask o s).logs ∧
      ∀ msg, ServerCall.Error msg ∉ (QUICSubServer.connectTask o s).logs) ∧
    ((o.OnSubscriberConnected s).err = none →
      (QUICSubServer.connectTask o s).cancel = false) := by
  refine ⟨?_, ?_, ?_, ?_⟩
  · intro h
    simp only [QUICPubServer.connectTask]
    cases hout : o.OnPublisherConnected p with
    | mk err observer calls =>
      rw [hout] at h
      cases err with
      | none => exact absurd rfl h
      | some e => simp
  · intro h
    simp only [QUICPubServer.connectTask]
    cases hout : o.OnPublisherConnected p with
    | mk err observer calls =>
      rw [hout] at h
      simp only at h
      subst h
      rfl
  · intro h
    simp only [QUICSubServer.connectTask]
    cases hout : o.OnSubscriberConnected s with
    | mk err observer calls =>
      rw [hout] at h
      cases err with
      | none => exact absurd rfl h
      | some e => simp
  · intro h
    simp only [QUICSubServer.connectTask]
    cases hout : o.OnSubscriberConnected s with
    | mk err observer calls =>
      rw [hout] at h
      simp only at h
      subst h
      rfl

/-- C27, amended, at an observer holding publisher `1` and subscriber `1`: a second peer
with id `1` makes the connect call fail on either side, and both connect tasks cancel
their session. -/
theorem C27_failed_connect_cancels_session_on_both_sides_witness :
    (QUICPubServer.connectTask (NewObserver publisherPool1 subscriberPool1)
        mockPublisher1Dup).cancel = true ∧
    (QUICSubServer.connectTask (NewObserver publisherPool1 subscriberPool1)
        mockSubscriber1Dup).cancel = true := by
  have h := C27_failed_connect_cancels_session_on_both_sides
    (NewObserver publisherPool1 subscriberPool1) mockPublisher1Dup mockSubscriber1Dup
  exact ⟨(h.1 (by decide)).1, (h.2.2.1 (by decide)).1⟩

end QuicPubSub
